import Mathlib

/-!
# libslirc: event queue, component map, module registry and context queue

A shallow embedding of `src/event.cpp`, `src/irc.cpp`,
`include/slirc/irc.hpp` and `include/slirc/util/component_map.hpp`.

Conventions of the embedding:
* objects are passed as explicit state; a member function takes the object and
  returns the object it leaves behind;
* pointers are addresses (`Nat`), a null pointer is `none`;
* an exception in flight is a value returned next to the state that the
  throwing code left behind;
* `std::vector` is a list together with its capacity, the growth of the
  capacity on reallocation being a parameter (`growth`);
* `std::unordered_map` is an association list; iteration order is never used;
* a template instantiation that does not compile, and a run whose behaviour is
  undefined, are values of `failure` returned in place of the result.
-/

namespace slirc

/-! ## Basic types -/

/-- Identity of a C++ type, the value of `std::type_index`. -/
abbrev type_index := Nat

/-- Exceptions that cross the functions of this development. -/
inductive exception where
  | out_of_range
  | bad_any_cast
  | other (code : Nat)
  deriving DecidableEq, Repr

/-- The `event_id` of `event_id.hpp`: `std::tuple<std::type_index, unsigned>`. -/
structure event_id where
  group : type_index
  code : Nat
  deriving DecidableEq, Repr

/-- The default constructed `event_id()`: `(typeid(none_t), NONE)`; the type
index `0` stands for the private enumeration `none_t`. -/
def event_id.none : event_id := { group := 0, code := 0 }

/-! ## std::vector -/

/-- Growth policy of the standard library: `grow size n` is the capacity the
library would like after a reallocation that appends `n` elements to a vector
of `size` elements. The model never lets the capacity fall below `size + n`. -/
abbrev growth := Nat → Nat → Nat

/-- The policy of libstdc++ (`_M_check_len`): `size + max size n`. -/
def libstdcxx_growth : growth := fun size n => size + max size n

/-- Number of values of `size_type` (`std::size_t` of 64 bits). -/
def size_type_modulus : Nat := 2 ^ 64

/-- A `std::vector`: the elements and the capacity. -/
structure vector (α : Type) where
  data : List α
  capacity : Nat
  deriving DecidableEq, Repr

namespace vector

variable {α : Type}

/-- The default constructed, empty vector. -/
def empty : vector α := { data := [], capacity := 0 }

/-- Member `size()`. -/
def size (v : vector α) : Nat := v.data.length

/-- Capacity after room has been made for `n` further elements. -/
def capacity_for (grow : growth) (v : vector α) (n : Nat) : Nat :=
  if v.size + n ≤ v.capacity then v.capacity else max (v.size + n) (grow v.size n)

/-- Member `push_back(x)`. -/
def push_back (grow : growth) (x : α) (v : vector α) : vector α :=
  { data := v.data ++ [x], capacity := v.capacity_for grow 1 }

/-- Member `pop_back()`; the vector must not be empty. -/
def pop_back (v : vector α) : vector α :=
  { v with data := v.data.dropLast }

/-- Member `resize(n)`, new elements being value-initialised to `fill`. -/
def resize (grow : growth) (n : Nat) (fill : α) (v : vector α) : vector α :=
  if n ≤ v.size then { v with data := v.data.take n }
  else { data := v.data ++ List.replicate (n - v.size) fill,
         capacity := v.capacity_for grow (n - v.size) }

/-- Member `erase(first, last)` on index positions. -/
def erase (first last : Nat) (v : vector α) : vector α :=
  { v with data := v.data.take first ++ v.data.drop last }

/-- Member `clear()`. -/
def clear (v : vector α) : vector α := { v with data := [] }

end vector

/-! ## std::copy on the iterator pairs used by the source -/

/-- The call `std::copy(b + first, b + first + n, b + d)` inside one buffer `b`:
`n` elements are read upwards from index `first` and written upwards from
index `d`, one at a time. -/
def copy_fwd {α : Type} : Nat → Nat → Nat → List α → List α
  | 0, _, _, l => l
  | n + 1, first, d, l =>
    match l[first]? with
    | some x => copy_fwd n (first + 1) (d + 1) (l.set d x)
    | none => l

/-- The call `std::copy(reverse_iterator(b + first), reverse_iterator(b + first - n),
reverse_iterator(b + d))` inside one buffer `b`: `n` elements are read downwards
from index `first - 1` and written downwards from index `d - 1`. -/
def copy_rev_rev {α : Type} : Nat → Nat → Nat → List α → List α
  | 0, _, _, l => l
  | n + 1, first, d, l =>
    match l[first - 1]? with
    | some x => copy_rev_rev n (first - 1) (d - 1) (l.set (d - 1) x)
    | none => l

/-- The call `std::copy(src.begin(), src.end(), reverse_iterator(b + d))`: the
elements of `src` are read upwards and written downwards from index `d - 1`
of the buffer `b`. -/
def copy_fwd_rev {α : Type} : List α → Nat → List α → List α
  | [], _, l => l
  | x :: xs, d, l => copy_fwd_rev xs (d - 1) (l.set (d - 1) x)

/-! ## std::unordered_map -/

/-- A `std::unordered_map` as an association list. -/
abbrev unordered_map (K V : Type) := List (K × V)

namespace unordered_map

variable {K V : Type} [DecidableEq K]

/-- Member `find(k)`: the mapped value, `none` for `end()`. -/
def find : unordered_map K V → K → Option V
  | [], _ => none
  | (k1, v) :: r, k => if k1 = k then some v else find r k

/-- Member `erase(k)`. -/
def erase (m : unordered_map K V) (k : K) : unordered_map K V :=
  m.filter (fun p => decide (p.1 ≠ k))

/-- Member `operator[](k)` as far as it changes the map: a value-initialised
element `dflt` is inserted when `k` has none. -/
def subscript (m : unordered_map K V) (k : K) (dflt : V) : unordered_map K V :=
  match find m k with
  | some _ => m
  | none => m ++ [(k, dflt)]

/-- Assignment through a reference to the element of key `k`. -/
def assign : unordered_map K V → K → V → unordered_map K V
  | [], _, _ => []
  | (k1, v1) :: r, k, v => if k1 = k then (k1, v) :: r else (k1, v1) :: assign r k v

end unordered_map

/-! ## util::component_map -/

/-- The class `component_map`: `content_` maps a type to a `std::any`, which
is empty (`none`) or holds an object of that type. -/
structure component_map (V : Type) where
  content_ : unordered_map type_index (Option V)
  deriving DecidableEq, Repr

namespace component_map

variable {V : Type}

/-- The default constructed map. -/
def empty : component_map V := { content_ := [] }

/-- Member `at<T>()` (`at` is a keyword here, hence `at_`): `content_.at(typeid(T))` throws `std::out_of_range` for a
missing key, `std::any_cast<T&>` throws `std::bad_any_cast` on an empty any. -/
def at_ (T : type_index) (m : component_map V) : Except exception V :=
  match m.content_.find T with
  | none => .error .out_of_range
  | some none => .error .bad_any_cast
  | some (some v) => .ok v

/-- Member `emplace<T>(args...)`; `ctor args` is the outcome of `T(args...)`.
Returns the map left behind together with the reference returned or the
exception rethrown. -/
def emplace {A : Type} (T : type_index) (ctor : A → Except exception V) (args : A)
    (m : component_map V) : component_map V × Except exception V :=
  -- std::any temp_any; std::any &map_any = content_[typeid(T)];
  let c1 := m.content_.subscript T none
  let map_any : Option V := (c1.find T).getD none
  -- temp_any.swap(map_any);
  let temp_any := map_any
  let c2 := c1.assign T none
  -- try { return map_any.emplace<T>(args...); }
  match ctor args with
  | .ok v => ({ content_ := c2.assign T (some v) }, .ok v)
  | .error e =>
    if temp_any.isSome then
      -- put old value back
      ({ content_ := c2.assign T temp_any }, .error e)
    else
      -- old value was empty; remove from map
      ({ content_ := c2.erase T }, .error e)

/-- Member `insert<T>(value)`: `emplace<T>(value)`, `copy` being the copy (or
move) constructor of `T`. -/
def insert (T : type_index) (copy : V → Except exception V) (value : V)
    (m : component_map V) : component_map V × Except exception V :=
  emplace T copy value m

/-- Member `size()`. -/
def size (m : component_map V) : Nat := m.content_.length

/-- Member `empty()` of the class (named apart from the constructor). -/
def is_empty (m : component_map V) : Bool := m.content_.isEmpty

/-- Representation invariant: one element per key, and no element is an empty
any. It holds of the default constructed map and every member keeps it. -/
def wf (m : component_map V) : Prop :=
  (m.content_.map Prod.fst).Nodup ∧ ∀ p ∈ m.content_, p.2.isSome = true

end component_map

/-! ## event -/

/-- Address of an `event` object; `pointer` is `std::shared_ptr<event>`. -/
abbrev event_ptr := Nat

/-- The typedef `event::pointer`; `none` is the null pointer. -/
abbrev pointer := Option event_ptr

/-- The class `event`. The field `this` is the address of the object (what
`shared_from_this()` yields), `irc` the address of the context it belongs to;
`current_id` of the source is a reference to `current_id_`. Objects stored in
`data` are represented by natural numbers. -/
structure event where
  this : event_ptr
  irc : Nat
  origin : pointer
  original_id : event_id
  data : component_map Nat
  next_id_queue : vector event_id
  id_queue : vector event_id
  skipped : Nat
  current_id_ : event_id
  deriving DecidableEq, Repr

/-- The function `normalize(dst, skipped_elements, src)` of `event.cpp`; the
three results are the new values of the three reference parameters. -/
def normalize (grow : growth) (dst : vector event_id) (skipped_elements : Nat)
    (src : vector event_id) : vector event_id × Nat × vector event_id :=
  if skipped_elements < src.size then
    -- need to move elements in dst to make space for src elements
    let old_size := dst.size
    let required_additional_space := src.size - skipped_elements
    let dst1 := dst.resize grow (old_size + required_additional_space) event_id.none
    let dst2 := { dst1 with
      data := copy_rev_rev (old_size - skipped_elements) old_size dst1.size dst1.data }
    let dst3 := { dst2 with
      data := copy_fwd_rev src.data (skipped_elements + required_additional_space) dst2.data }
    (dst3, 0, src.clear)
  else
    let dst1 := { dst with data := copy_fwd_rev src.data skipped_elements dst.data }
    (dst1, skipped_elements - src.size, src.clear)

namespace event

/-- The constructor behind `event::create(irc, original_id, origin)`, building
the object at address `this`. -/
def create (this : event_ptr) (irc : Nat) (original_id : event_id) (origin : pointer) : event :=
  { this := this, irc := irc, origin := origin, original_id := original_id,
    data := component_map.empty, next_id_queue := vector.empty, id_queue := vector.empty,
    skipped := 0, current_id_ := original_id }

/-- The public reference `current_id`. -/
def current_id (ev : event) : event_id := ev.current_id_

/-- The call `normalize(id_queue, skipped, next_id_queue)` on the members. -/
def normalized (grow : growth) (ev : event) : event :=
  let r := normalize grow ev.id_queue ev.skipped ev.next_id_queue
  { ev with id_queue := r.1, skipped := r.2.1, next_id_queue := r.2.2 }

/-- Member `size()`: `id_queue.size() + next_id_queue.size() - skipped` in the
unsigned arithmetic of `size_type`, which wraps around. -/
def size (ev : event) : Nat :=
  (ev.id_queue.size + ev.next_id_queue.size + size_type_modulus
    - ev.skipped % size_type_modulus) % size_type_modulus

/-- Member `empty()`. -/
def is_empty (ev : event) : Bool :=
  decide (ev.id_queue.size = ev.skipped) && ev.next_id_queue.data.isEmpty

/-- The identifiers visited by iterating from `begin()` to `end()`: both
accessors normalize, then the range is `id_queue[skipped..]`. -/
def range (grow : growth) (ev : event) : List event_id :=
  let n := ev.normalized grow
  n.id_queue.data.drop n.skipped

/-- Member `push_back(id)`. -/
def push_back (grow : growth) (id : event_id) (ev : event) : event :=
  let q :=
    if ev.id_queue.size = ev.id_queue.capacity ∧ ev.skipped ≠ 0 then
      -- move existing elements to front of vector rather than reallocating
      let n := ev.id_queue.size - ev.skipped
      let moved := { ev.id_queue with data := copy_fwd n ev.skipped 0 ev.id_queue.data }
      moved.erase n moved.size
    else ev.id_queue
  { ev with id_queue := q.push_back grow id }

/-- Member `push_front(id)`. -/
def push_front (grow : growth) (id : event_id) (ev : event) : event :=
  { ev with next_id_queue := ev.next_id_queue.push_back grow id }

/-- Member `pop_back()`; `none` when the assertion fails. -/
def pop_back (grow : growth) (ev : event) : Option event :=
  if ev.skipped < ev.id_queue.size ∨ ¬ ev.next_id_queue.data.isEmpty then
    let ev1 := if ev.id_queue.size = ev.skipped then ev.normalized grow else ev
    some { ev1 with id_queue := ev1.id_queue.pop_back }
  else none

/-- Member `pop_front()`; `none` when the assertion fails. -/
def pop_front (ev : event) : Option event :=
  if ¬ ev.next_id_queue.data.isEmpty then
    some { ev with next_id_queue := ev.next_id_queue.pop_back }
  else if ev.skipped < ev.id_queue.size then
    some { ev with skipped := ev.skipped + 1 }
  else none

end event

/-! ## Dispatch -/

/-- What running handler code on an event leaves behind: the event, and the
exception in flight if the code threw. -/
structure outcome where
  ev : event
  raised : Option exception
  deriving DecidableEq, Repr

/-- A signal (`boost::signals2::signal<void(event&)>`) seen from its caller:
the combined effect of its handler chain on the event. -/
abbrev signal_type := event → outcome

/-- The signal with no slot connected. -/
def empty_signal : signal_type := fun ev => { ev := ev, raised := none }

/-- Member `irc::emit_event(ev)`: looks up `signals_[ev.current_id]` and calls it. -/
def emit_event (signals_ : event_id → signal_type) (ev : event) : outcome :=
  signals_ ev.current_id ev

/-- Result of `event::emit()`: the event left behind, the exception that ended
the loop (if any), the values `current_id` had at the successive calls of
`emit_event`, and whether the loop came to its end within the fuel. -/
structure emit_result where
  ev : event
  raised : Option exception
  dispatched : List event_id
  returned : Bool
  deriving DecidableEq, Repr

/-- Member `event::emit()`; `fuel` bounds the number of loop iterations. -/
def event.emit (grow : growth) (signals_ : event_id → signal_type) : Nat → event → emit_result
  | 0, ev => { ev := ev, raised := none, dispatched := [], returned := false }
  | fuel + 1, ev =>
    let ev1 := ev.normalized grow
    if ev1.skipped < ev1.id_queue.size then
      let ev2 := { ev1 with current_id_ := ev1.id_queue.data.getD ev1.skipped event_id.none }
      let ev3 := { ev2 with skipped := ev2.skipped + 1 }
      let o := emit_event signals_ ev3
      match o.raised with
      | some e => { ev := o.ev, raised := some e, dispatched := [ev3.current_id], returned := true }
      | none =>
        let r := event.emit grow signals_ fuel o.ev
        { r with dispatched := ev3.current_id :: r.dispatched }
    else { ev := ev1, raised := none, dispatched := [], returned := true }

/-- Member `event::emit_as(id)`. -/
def event.emit_as (signals_ : event_id → signal_type) (id : event_id) (ev : event) : outcome :=
  let old_id := ev.current_id_
  let ev1 := { ev with current_id_ := id }
  let o := emit_event signals_ ev1
  match o.raised with
  | none => { ev := { o.ev with current_id_ := old_id }, raised := none }
  | some e => { ev := { o.ev with current_id_ := old_id }, raised := some e }

/-! ## module.hpp and the module registry of irc -/

/-- What the compiler knows of a class used as the template argument `Module`:
its `typeid`, the member type `slirc_module_type`, whether it is abstract, and
the class named by `SLIRC_DEFAULT_IMPLEMENTATION`, if it declares one. -/
structure module_class where
  id : type_index
  slirc_module_type : type_index
  is_abstract : Bool
  slirc_default_implementation : Option type_index
  deriving DecidableEq, Repr

/-- The alias `effective_module_implementation<T>` of `module.hpp`. -/
def effective_module_implementation (T : module_class) : type_index :=
  match T.is_abstract, T.slirc_default_implementation with
  | true, some d => d
  | _, _ => T.id

/-- A module object (`detail::module_base`) on the heap: its address and its
dynamic type. A `module_base*` is an `Option module_base`. -/
structure module_base where
  addr : Nat
  dyn_type : type_index
  deriving DecidableEq, Repr

/-- The class hierarchy: `is_base_of base derived`. -/
abbrev hierarchy := type_index → type_index → Bool

/-- The cast `dynamic_cast<Target*>(p)`. -/
def dynamic_cast (is_base_of : hierarchy) (target : type_index) (p : Option module_base) :
    Option module_base :=
  match p with
  | none => none
  | some obj => if is_base_of target obj.dyn_type then some obj else none

/-- The class `irc`, without its mutexes and without `signals_` (which the
dispatch functions take as a parameter). `this` is the address of the context;
`destroyed_` is a ghost field recording the module objects on which `delete`
has run, in order. -/
structure irc where
  this : Nat
  modules_ : unordered_map type_index (Option module_base)
  event_queue_front_ : vector pointer
  event_queue_back_ : vector pointer
  event_queue_back_skip_ : Nat
  shutting_down_ : Bool
  destroyed_ : List module_base
  deriving DecidableEq, Repr

namespace irc

/-- The constructor `irc::irc()` for the object at address `this`. -/
def create (this : Nat) : irc :=
  { this := this, modules_ := [], event_queue_front_ := vector.empty,
    event_queue_back_ := vector.empty, event_queue_back_skip_ := 0,
    shutting_down_ := false, destroyed_ := [] }

/-- Member `module(const std::type_index &)`. -/
def module (s : irc) (slirc_module_type : type_index) : Option module_base :=
  match s.modules_.find slirc_module_type with
  | some p => p
  | none => none

/-- Member `module<Module*>()`, the pointer form. -/
def module_ptr (is_base_of : hierarchy) (M : module_class) (s : irc) : Option module_base :=
  dynamic_cast is_base_of M.id (s.module M.slirc_module_type)

/-- Member `module<Module>()`, the reference form. -/
def module_ref (is_base_of : hierarchy) (M : module_class) (s : irc) :
    Except exception module_base :=
  match s.module_ptr is_base_of M with
  | some modptr => .ok modptr
  | none => .error .out_of_range

/-- The value of the ghost field `destroyed_` after `load_module` on key `k`:
the object stored under `k`, if any, has been deleted. -/
def destroyed_by_load (s : irc) (k : type_index) : List module_base :=
  match s.module k with
  | some old => s.destroyed_ ++ [old]
  | none => s.destroyed_

/-- Member `load_module<Module>(module_args...)`; `ctor module_args` is the
outcome of `new EffectiveModule(*this, module_args...)`: the address of the new
object, or the exception its constructor threw. -/
def load_module {A : Type} (M : module_class) (ctor : A → Except exception Nat)
    (module_args : A) (s : irc) : irc × Except exception module_base :=
  -- auto &modptr = modules_[typeid(typename Module::slirc_module_type)];
  let m1 := s.modules_.subscript M.slirc_module_type none
  let s1 :=
    match (m1.find M.slirc_module_type).getD none with
    | some modptr =>
      -- delete modptr; modptr = nullptr;
      { s with modules_ := m1.assign M.slirc_module_type none,
               destroyed_ := s.destroyed_ ++ [modptr] }
    | none => { s with modules_ := m1 }
  match ctor module_args with
  | .error e => (s1, .error e)
  | .ok addr =>
    let real_modptr : module_base :=
      { addr := addr, dyn_type := effective_module_implementation M }
    ({ s1 with modules_ := s1.modules_.assign M.slirc_module_type (some real_modptr) },
     .ok real_modptr)

/-! ### The event queue of irc -/

/-- The predicate handed to `wait_for` in `fetch_event`. -/
def event_available (s : irc) : Bool :=
  s.shutting_down_
    || !s.event_queue_front_.data.isEmpty
    || decide (s.event_queue_back_skip_ < s.event_queue_back_.size)

/-- The call `event_queue_condition_.wait_for(lock, timeout, pred)`, which
returns `pred()` as it stands when the wait ends. In a run where no other
thread touches the context during the wait this is `pred` on the state at
entry: `true` at once when it already holds, `false` once `timeout`
(milliseconds) has elapsed otherwise. -/
def wait_for (_timeout : Nat) (pred : irc → Bool) (s : irc) : Bool := pred s

/-- Member `fetch_event(timeout)`: the pointer returned and the context left
behind. -/
def fetch_event (timeout : Nat) (s : irc) : pointer × irc :=
  if wait_for timeout event_available s then
    (none, s)
  else if !s.event_queue_front_.data.isEmpty then
    (s.event_queue_front_.data.getLastD none,
     { s with event_queue_front_ := s.event_queue_front_.pop_back })
  else if s.event_queue_back_skip_ < s.event_queue_back_.size then
    -- retval = std::move(event_queue_back_[event_queue_back_skip_]);
    (s.event_queue_back_.data.getD s.event_queue_back_skip_ none,
     { s with
       event_queue_back_ := { s.event_queue_back_ with
         data := s.event_queue_back_.data.set s.event_queue_back_skip_ none },
       event_queue_back_skip_ := s.event_queue_back_skip_ + 1 })
  else (none, s)

/-- Member `post_event_back(ev)`; `none` when the assertion fails. -/
def post_event_back (grow : growth) (ev : event) (s : irc) : Option irc :=
  if ev.irc = s.this then
    let s1 :=
      if s.event_queue_back_.size / 2 < s.event_queue_back_skip_
          ∧ s.event_queue_back_.size = s.event_queue_back_.capacity then
        let n := s.event_queue_back_.size - s.event_queue_back_skip_
        let moved := { s.event_queue_back_ with
          data := copy_fwd n s.event_queue_back_skip_ 0 s.event_queue_back_.data }
        { s with event_queue_back_ := moved.erase n moved.size, event_queue_back_skip_ := 0 }
      else s
    some { s1 with event_queue_back_ := s1.event_queue_back_.push_back grow (some ev.this) }
  else none

/-- Member `post_event_front(ev)`; `none` when the assertion fails. -/
def post_event_front (grow : growth) (ev : event) (s : irc) : Option irc :=
  if ev.irc = s.this then
    some { s with event_queue_front_ := s.event_queue_front_.push_back grow (some ev.this) }
  else none

end irc

/-! ## Sequences of queue operations and the reference sequence -/

/-- The four mutators of the pending queue of an event. -/
inductive queue_op where
  | push_back (id : event_id)
  | push_front (id : event_id)
  | pop_front
  | pop_back
  deriving DecidableEq, Repr

/-- One mutator applied to an event; `none` when an assertion fails. -/
def event.apply_op (grow : growth) : queue_op → event → Option event
  | .push_back id, ev => some (ev.push_back grow id)
  | .push_front id, ev => some (ev.push_front grow id)
  | .pop_front, ev => ev.pop_front
  | .pop_back, ev => ev.pop_back grow

/-- A sequence of mutators applied from left to right. -/
def event.apply_ops (grow : growth) : List queue_op → event → Option event
  | [], ev => some ev
  | op :: ops, ev => (ev.apply_op grow op).bind (event.apply_ops grow ops)

/-- Reference model taken from the specification: one mutator on a plain
double-ended sequence, a pop being allowed on a non-empty sequence only. -/
def deque_apply_op : queue_op → List event_id → Option (List event_id)
  | .push_back id, s => some (s ++ [id])
  | .push_front id, s => some (id :: s)
  | .pop_front, [] => none
  | .pop_front, _ :: s => some s
  | .pop_back, [] => none
  | .pop_back, x :: s => some (x :: s).dropLast

/-- Reference model taken from the specification: a sequence of mutators on a
plain double-ended sequence. -/
def deque_apply_ops : List queue_op → List event_id → Option (List event_id)
  | [], s => some s
  | op :: ops, s => (deque_apply_op op s).bind (deque_apply_ops ops)

/-- A sequence of posts to a context: `true` posts to the front, `false` to the
back; `none` when an assertion fails. -/
def irc.post_all (grow : growth) : List (Bool × event) → irc → Option irc
  | [], s => some s
  | (front, ev) :: r, s =>
    (if front then s.post_event_front grow ev else s.post_event_back grow ev).bind
      (irc.post_all grow r)

/-- The pointers returned by `n` successive calls of `fetch_event(timeout)`. -/
def irc.fetch_all (timeout : Nat) : Nat → irc → List pointer
  | 0, _ => []
  | n + 1, s => (s.fetch_event timeout).1 :: irc.fetch_all timeout n (s.fetch_event timeout).2

/-! ## The pending sequence, iteration and the loop body of emit -/

namespace event

/-- Representation invariant of the pending queue: the skip count does not
exceed the length of the main buffer. -/
def inv (ev : event) : Prop := ev.skipped ≤ ev.id_queue.size

/-- Abstraction function taken from the specification: the pending sequence
is the front-insertion buffer reversed, followed by the main buffer from the
skip count on. -/
def pending (ev : event) : List event_id :=
  ev.next_id_queue.data.reverse ++ ev.id_queue.data.drop ev.skipped

/-- Member `begin()`: normalizes, then returns `id_queue.begin() + skipped`; the
iterator is given as its index into `id_queue` of the event left behind. -/
def begin (grow : growth) (ev : event) : event × Nat :=
  ((ev.normalized grow), (ev.normalized grow).skipped)

/-- Reading `*begin()`: the event left behind by `begin()` and the element the
iterator points to (`none` if it points past the end). -/
def front (grow : growth) (ev : event) : event × Option event_id :=
  ((ev.begin grow).1, (ev.begin grow).1.id_queue.data[(ev.begin grow).2]?)

/-- The event as a call of `pop_front()` leaves it: at the return, or at the
failing assertion, which the source evaluates before `++skipped`. -/
def pop_front_state (ev : event) : event :=
  if ¬ ev.next_id_queue.data.isEmpty then
    { ev with next_id_queue := ev.next_id_queue.pop_back }
  else if ev.skipped < ev.id_queue.size then
    { ev with skipped := ev.skipped + 1 }
  else ev

/-- The event as a call of `pop_back()` leaves it: at the return, or at the
failing assertion, which is the first statement of the function. -/
def pop_back_state (grow : growth) (ev : event) : event :=
  if ev.skipped < ev.id_queue.size ∨ ¬ ev.next_id_queue.data.isEmpty then
    let ev1 := if ev.id_queue.size = ev.skipped then ev.normalized grow else ev
    { ev1 with id_queue := ev1.id_queue.pop_back }
  else ev

/-- The loop `while (n--) { ids.push_back(*ev.begin()); ev.pop_front(); }` of a
caller that drains the queue from the front: the identifiers read and the
event left behind; `none` when an iterator past the end is read or an
assertion fails. -/
def drain (grow : growth) : Nat → event → Option (List event_id × event)
  | 0, ev => some ([], ev)
  | n + 1, ev =>
    match (ev.front grow).2 with
    | none => none
    | some x =>
      match (ev.front grow).1.pop_front with
      | none => none
      | some ev1 => (drain grow n ev1).map (fun r => (x :: r.1, r.2))

/-- The body of the loop of `emit()` up to the call of `emit_event`: after the
normalize of the loop condition, `current_id_ = id_queue[skipped]; ++skipped;`. -/
def taken (grow : growth) (ev : event) : event :=
  let ev1 := ev.normalized grow
  let ev2 := { ev1 with current_id_ := ev1.id_queue.data.getD ev1.skipped event_id.none }
  { ev2 with skipped := ev2.skipped + 1 }

/-- Member `spawn(new_event_id)`: `create(irc, new_event_id, shared_from_this())`;
`addr` is the address at which `std::make_shared` builds the new event. -/
def spawn (addr : event_ptr) (new_event_id : event_id) (ev : event) : event :=
  create addr ev.irc new_event_id (some ev.this)

end event

/-- Dereferencing a `pointer` among the events alive: the event at that
address, `none` for the null pointer or an address not in use. -/
def deref (alive : List event) (p : pointer) : Option event :=
  match p with
  | none => none
  | some addr => alive.find? (fun e => decide (e.this = addr))

/-- The effect of `ev.spawn(new_event_id)` on the events alive: the new event,
built at the unused address `addr`, joins them; the pointer returned is its
address. No member of `ev` is written. -/
def event.spawn_in (alive : List event) (addr : event_ptr) (new_event_id : event_id)
    (ev : event) : List event × pointer :=
  (alive ++ [ev.spawn addr new_event_id], some addr)

/-- A handler chain that leaves the pending queue of the event alone: it does
not push, pop or run a nested `emit()`, so that both buffers, the skip count
and `current_id` are as before when it returns or throws. -/
def keeps_queue (h : signal_type) : Prop :=
  ∀ e, (h e).ev.next_id_queue = e.next_id_queue ∧ (h e).ev.id_queue = e.id_queue
    ∧ (h e).ev.skipped = e.skipped ∧ (h e).ev.current_id_ = e.current_id_

/-! ## connect: the callback wrapper and event_scoped_connection -/

/-- The type `irc::connection_type` (`boost::signals2::connection`): a handle,
represented by a number. -/
abbrev connection_type := Nat

/-- The value of `typeid(irc::connection_type)`. -/
def connection_typeid : type_index := 1

/-- Why a use of the library has no defined run. -/
inductive failure where
  /-- A `static_assert` fails: the program is ill-formed and does not compile. -/
  | ill_formed
  /-- The run has undefined behaviour. -/
  | undefined
  deriving DecidableEq, Repr

/-- Member `erase<T>()` of `component_map` as a call: the map as the body leaves
it and the value returned. The body is the single statement
`content_.erase(typeid(T));`: control reaches the end of a function declared
`bool` without a `return`, so that no value is returned (`none`). Flowing off
the end of a value-returning function is undefined behaviour whether or not
the caller reads the value: a call that ends so has no defined continuation. -/
def component_map.erase_call {V : Type} (T : type_index) (m : component_map V) :
    component_map V × Option Bool :=
  ({ content_ := m.content_.erase T }, none)

namespace event_scoped_connection

/-- The constructor `event_scoped_connection(ev, connection)`:
`ev.data.insert(connection)`; copying a connection does not throw. Returns the
event left behind and the exception thrown, if any. -/
def create (ev : event) (connection : connection_type) : outcome :=
  match ev.data.insert connection_typeid Except.ok connection with
  | (d, .ok _) => { ev := { ev with data := d }, raised := none }
  | (d, .error e) => { ev := { ev with data := d }, raised := some e }

/-- The destructor, whose body is the single statement
`ev.data.erase<connection_type>();`. It completes when that call returns;
the call flowing off the end of `erase` instead, the destructor has no
defined result. -/
def destroy (ev : event) : Except failure event :=
  match ev.data.erase_call connection_typeid with
  | (d, some _) => .ok { ev with data := d }
  | (_, none) => .error .undefined

end event_scoped_connection

/-- What the compiler knows of a handler type `Func` handed to `irc::connect`:
whether the call `f(ev, connection)` is well-formed, and whether `f(ev)` is. -/
structure handler_class where
  callable_with_connection : Bool
  callable_without_connection : Bool
  deriving DecidableEq, Repr

/-- Whether a call of the function template `std::declval<T>` with `nargs`
arguments is a well-formed expression: `std::declval` has no parameter. -/
def declval_call_well_formed (nargs : Nat) : Bool := decide (nargs = 0)

/-- The trait `irc::is_callable_with_connection<Func>`: `true_type` when the
partial specialisation is viable, that is when
`std::declval<std::decay_t<Func>>(std::declval<event&>(), std::declval<connection_type>())`
is a well-formed expression, `false_type` otherwise. The expression hands the
two arguments to `std::declval` itself, it does not call the object that
`std::declval` yields: what `Func` accepts does not enter. -/
def is_callable_with_connection (_Func : handler_class) : Bool :=
  declval_call_well_formed 2

/-- The trait `irc::is_callable_without_connection<Func>`, written like
`is_callable_with_connection` with the single argument `std::declval<event&>()`. -/
def is_callable_without_connection (_Func : handler_class) : Bool :=
  declval_call_well_formed 1

/-- The body of the lambda `callback` of `irc::connect`, run on `(ev, connection)`:
the scope object is built, the handler is called (as `f(ev, connection)` or as
`f(ev)`, both given by `f`), and the scope object is destroyed when that call
returns or throws. -/
def callback_body (f : event → connection_type → outcome) (ev : event)
    (connection : connection_type) : Except failure outcome :=
  let esc := event_scoped_connection.create ev connection
  match esc.raised with
  | some e => .ok { ev := esc.ev, raised := some e }
  | none =>
    let o := f esc.ev connection
    match event_scoped_connection.destroy o.ev with
    | .ok ev1 => .ok { ev := ev1, raised := o.raised }
    | .error u => .error u

/-- The lambda `callback` that `irc::connect<Func>` builds around `f`:
`if constexpr (is_callable_with_connection<Func>::value)` selects the call
`f(ev, connection)`; otherwise the `static_assert` on
`is_callable_without_connection<Func>::value` has to hold and the call is
`f(ev)`. -/
def connect_callback (Func : handler_class) (f : event → connection_type → outcome) :
    Except failure (event → connection_type → Except failure outcome) :=
  if is_callable_with_connection Func then .ok (callback_body f)
  else if is_callable_without_connection Func then .ok (callback_body f)
  else .error .ill_formed

/-- A handler of the form `f(event&, connection_type)` as a client writes it:
it looks the connection up with `ev.data.at<connection_type>()` and throws
unless the lookup yields the connection it was called with. -/
def handler_checking_own_connection (ev : event) (connection : connection_type) : outcome :=
  match ev.data.at_ connection_typeid with
  | .ok v => { ev := ev, raised := if v = connection then none else some (exception.other 0) }
  | .error e => { ev := ev, raised := some e }

/-! ## connect: the chain of slots of a signal -/

/-- The enumeration `irc::connect_position`. -/
inductive connect_position where
  | at_back
  | at_front
  deriving DecidableEq, Repr

/-- The struct `irc::slot_group`, a `std::variant<signal_type::group_type,
connect_position>`: a numbered group (index 0) or one of the two ends. -/
inductive slot_group where
  | group (value : Int)
  | position (value : connect_position)
  deriving DecidableEq, Repr

/-- Modelled from the spec: the group of a slot in the chain of a signal; the
chain is kept by `boost::signals2`, which is not part of the repository. A
slot sits in the sentinel-front group, in a numbered group or in the
sentinel-back group. -/
inductive slot_meta_group where
  | front_ungrouped
  | grouped (g : Int)
  | back_ungrouped
  deriving DecidableEq, Repr

namespace slot_meta_group

/-- Modelled from the spec: rank of the kind of group in the dispatch order
(sentinel-front, numbered, sentinel-back). -/
def kind : slot_meta_group → Int
  | front_ungrouped => 0
  | grouped _ => 1
  | back_ungrouped => 2

/-- Modelled from the spec: the key of a numbered group, 0 for the two ends. -/
def number : slot_meta_group → Int
  | grouped g => g
  | _ => 0

/-- Modelled from the spec: the dispatch order of groups: sentinel-front before
the numbered groups, these in ascending key order, sentinel-back last. -/
def lt (a b : slot_meta_group) : Bool :=
  decide (a.kind < b.kind ∨ (a.kind = b.kind ∧ a.number < b.number))

end slot_meta_group

/-- Modelled from the spec: one slot of the chain: its group, the connection
that `connect` returned for it and the callback stored in it. -/
structure slot where
  key : slot_meta_group
  connection : connection_type
  callback : event → connection_type → Except failure outcome

/-- Modelled from the spec: insertion of a slot at the front of its group:
before the first slot of the chain whose group does not precede its own. -/
def chain_push_front (s : slot) : List slot → List slot
  | [] => [s]
  | x :: r => if x.key.lt s.key then x :: chain_push_front s r else s :: x :: r

/-- Modelled from the spec: insertion of a slot at the back of its group:
before the first slot of the chain whose group follows its own. -/
def chain_push_back (s : slot) : List slot → List slot
  | [] => [s]
  | x :: r => if s.key.lt x.key then s :: x :: r else x :: chain_push_back s r

/-- Modelled from the spec: a chain in dispatch order: no slot comes before a
slot whose group precedes its own (sentinel-front slots first, then the
numbered groups in ascending key order, then the sentinel-back slots). -/
def dispatch_ordered (chain : List slot) : Prop :=
  chain.Pairwise (fun a b => b.key.lt a.key = false)

/-- Modelled from the spec: `signal::connect_extended(group, slot, position)` of
`boost::signals2`, for a slot of a numbered group. -/
def connect_extended_grouped (group : Int)
    (callback : event → connection_type → Except failure outcome)
    (position : connect_position) (connection : connection_type) (chain : List slot) :
    List slot :=
  match position with
  | .at_front =>
    chain_push_front { key := .grouped group, connection := connection, callback := callback }
      chain
  | .at_back =>
    chain_push_back { key := .grouped group, connection := connection, callback := callback }
      chain

/-- Modelled from the spec: `signal::connect_extended(slot, position)` of
`boost::signals2`, for a slot at one of the two ends. -/
def connect_extended (callback : event → connection_type → Except failure outcome)
    (position : connect_position) (connection : connection_type) (chain : List slot) :
    List slot :=
  match position with
  | .at_front =>
    chain_push_front { key := .front_ungrouped, connection := connection, callback := callback }
      chain
  | .at_back =>
    chain_push_back { key := .back_ungrouped, connection := connection, callback := callback }
      chain

/-- The conversion `static_cast<boost::signals2::connect_position>(value)` that
`irc::connect` applies to the key of a numbered group, followed by the
conversion back to `group_type` where `connect_extended` takes the group. The
enumeration has two enumerators, of values 0 and 1, and no fixed underlying
type: the cast keeps a value within that range and is undefined for every
other value. -/
def group_through_connect_position (value : Int) : Except failure Int :=
  if value = 0 ∨ value = 1 then .ok value else .error .undefined

/-- Member `irc::connect(id, f, group, position)` instantiated for the handler
type `Func`, as far as it changes the chain of `signals_[id]`; `connection` is
the connection it returns. -/
def irc.connect (Func : handler_class) (f : event → connection_type → outcome)
    (group : slot_group) (position : connect_position) (connection : connection_type)
    (chain : List slot) : Except failure (List slot) :=
  match connect_callback Func f with
  | .error u => .error u
  | .ok callback =>
    match group with
    | .group value =>
      -- grouped slot
      match group_through_connect_position value with
      | .error u => .error u
      | .ok key => .ok (connect_extended_grouped key callback position connection chain)
    | .position value =>
      -- ungrouped slot
      .ok (connect_extended callback value connection chain)

/-- One call of `irc::connect` on a given identifier. -/
structure connect_call where
  Func : handler_class
  f : event → connection_type → outcome
  group : slot_group
  position : connect_position
  connection : connection_type

/-- A sequence of calls of `irc::connect` on one identifier, the first call
first. -/
def irc.connect_all : List connect_call → List slot → Except failure (List slot)
  | [], chain => .ok chain
  | c :: r, chain =>
    match irc.connect c.Func c.f c.group c.position c.connection chain with
    | .ok chain1 => irc.connect_all r chain1
    | .error u => .error u

/-! ## component_map: at_or_emplace -/

namespace component_map

variable {V : Type}

/-- Member `at_or_emplace<T>(args...)`: `at<T>()` when `content_.find` finds the
key, `emplace<T>(args...)` otherwise. -/
def at_or_emplace {A : Type} (T : type_index) (ctor : A → Except exception V) (args : A)
    (m : component_map V) : component_map V × Except exception V :=
  match m.content_.find T with
  | some _ => (m, m.at_ T)
  | none => m.emplace T ctor args

end component_map

/-! ## irc: unload_module -/

namespace irc

/-- The effect of `delete modptr` on the ghost field: deleting a null pointer
does nothing. -/
def deleted (modptr : Option module_base) (destroyed : List module_base) : List module_base :=
  match modptr with
  | some obj => destroyed ++ [obj]
  | none => destroyed

/-- Member `unload_module(const std::type_index &type)`: the context left
behind and the value returned. -/
def unload_module (type : type_index) (s : irc) : irc × Bool :=
  match s.modules_.find type with
  | some modptr =>
    ({ s with modules_ := s.modules_.erase type, destroyed_ := deleted modptr s.destroyed_ },
     true)
  | none => (s, false)

/-- Member `unload_module<Module>()`: the context left behind and the value
returned. -/
def unload_module_typed (is_base_of : hierarchy) (M : module_class) (s : irc) : irc × Bool :=
  match s.modules_.find M.slirc_module_type with
  | some modptr =>
    if (dynamic_cast is_base_of M.id modptr).isSome then
      ({ s with modules_ := s.modules_.erase M.slirc_module_type,
                destroyed_ := deleted modptr s.destroyed_ },
       true)
    else (s, false)
  | none => (s, false)

end irc

/-! ## event_id: construction, comparison and hash -/

namespace event_id

/-- The converting constructor `event_id(Enum id)`: the pair
`(typeid(Enum), static_cast<enum_type>(id))`; the static assertion makes
`unsigned` (32 bits) the underlying type of `Enum`. -/
def of_enum (Enum : type_index) (id : Nat) : event_id :=
  { group := Enum, code := id % 2 ^ 32 }

/-- Member `operator==`: `==` of the two tuples, which compares them element
by element. -/
def eq (a b : event_id) : Bool :=
  decide (a.group = b.group) && decide (a.code = b.code)

/-- Member `operator!=`: `!=` of the two tuples, which is `!(lhs == rhs)`. -/
def ne (a b : event_id) : Bool :=
  !(decide (a.group = b.group) && decide (a.code = b.code))

/-- The functor `event_id::hash`; `hash_type_index` and `hash_unsigned` are
`std::hash<std::type_index>` and `std::hash<unsigned>` of the standard
library, `^` is the exclusive or of two `std::size_t`. -/
def hash (hash_type_index : type_index → Nat) (hash_unsigned : Nat → Nat) (value : event_id) :
    Nat :=
  Nat.xor (hash_type_index value.group) (hash_unsigned value.code)

end event_id

/-! ## event: the reverse iterator accessors; irc: make_event and the back queue -/

namespace event

/-- Member `rbegin()`: normalizes, then returns `id_queue.rbegin() + skipped`. A
reverse iterator is given as the number of steps it stands behind
`id_queue.rbegin()` in the event left behind: at `k` it designates
`id_queue[size - 1 - k]`, the element `k` of the buffer read backwards. -/
def rbegin (grow : growth) (ev : event) : event × Nat :=
  ((ev.normalized grow), (ev.normalized grow).skipped)

/-- Member `rend()`: normalizes, then returns `id_queue.rend()`, which stands
`id_queue.size()` steps behind `id_queue.rbegin()`. -/
def rend (grow : growth) (ev : event) : event × Nat :=
  ((ev.normalized grow), (ev.normalized grow).id_queue.size)

/-- The identifiers visited by `for (it = rbegin(); it != rend(); ++it)`: the
elements of the buffer read backwards, from the position of `rbegin()` up to
the position of `rend()`; the second accessor runs on the event the first one
left behind. -/
def rrange (grow : growth) (ev : event) : List event_id :=
  let b := ev.rbegin grow
  let e := b.1.rend grow
  (e.1.id_queue.data.reverse.take e.2).drop b.2

end event

/-- Member `irc::make_event(id)`: `event::create(*this, id)`, the origin being
the null pointer; `addr` is the address at which `std::make_shared` builds the
event. -/
def irc.make_event (addr : event_ptr) (id : event_id) (s : irc) : event :=
  event.create addr s.this id none

/-- Abstraction function taken from the specification: the unconsumed back
sequence of a context is its back queue from the skip count on. -/
def irc.back_pending (s : irc) : List pointer :=
  s.event_queue_back_.data.drop s.event_queue_back_skip_

/-- Frame condition for the queue mutators: `current_id`, `original_id`,
`origin` and `data` of `ev1` are those of `ev`. -/
def event.frame_kept (ev ev1 : event) : Prop :=
  ev1.current_id = ev.current_id ∧ ev1.original_id = ev.original_id
    ∧ ev1.origin = ev.origin ∧ ev1.data = ev.data

/-! ## Facts about the association-list model of std::unordered_map -/

namespace unordered_map

variable {K V : Type} [DecidableEq K]

theorem find_eq_none_iff (m : unordered_map K V) (k : K) :
    find m k = none ↔ k ∉ m.map Prod.fst := by
  induction m with
  | nil => simp [find]
  | cons p r ih =>
    obtain ⟨k1, v1⟩ := p
    by_cases h : k1 = k
    · simp [find, h]
    · have h2 : ¬ k = k1 := fun e => h e.symm
      simp [find, h, h2, ih]

theorem find_append_of_none (m : unordered_map K V) (k k2 : K) (d : V) (h : find m k = none) :
    find (m ++ [(k, d)]) k2 = if k = k2 then some d else find m k2 := by
  induction m with
  | nil => simp [find]
  | cons p r ih =>
    obtain ⟨k1, v1⟩ := p
    by_cases h1 : k1 = k
    · simp [find, h1] at h
    · simp only [find, h1, if_false] at h
      by_cases h2 : k1 = k2
      · have h3 : ¬ k = k2 := fun e => h1 (h2.trans e.symm)
        simp [find, h2, h3]
      · simp [find, h2, ih h]

theorem map_fst_assign (m : unordered_map K V) (k : K) (v : V) :
    (assign m k v).map Prod.fst = m.map Prod.fst := by
  induction m with
  | nil => rfl
  | cons p r ih =>
    obtain ⟨k1, v1⟩ := p
    by_cases h : k1 = k
    · simp [assign, h]
    · simp [assign, h, ih]

theorem length_assign (m : unordered_map K V) (k : K) (v : V) :
    (assign m k v).length = m.length := by
  have h := congrArg List.length (map_fst_assign m k v)
  simpa using h

theorem find_assign (m : unordered_map K V) (k k2 : K) (v : V) :
    find (assign m k v) k2 = if k = k2 then (find m k).map (fun _ => v) else find m k2 := by
  induction m with
  | nil => simp [assign, find]
  | cons p r ih =>
    obtain ⟨k1, v1⟩ := p
    by_cases h1 : k1 = k
    · subst h1
      by_cases h2 : k1 = k2
      · simp [assign, find, h2]
      · simp [assign, find, h2]
    · by_cases h2 : k1 = k2
      · subst h2
        have h3 : ¬ k = k1 := fun e => h1 e.symm
        simp [assign, find, h1, h3]
      · simp [assign, find, h1, h2, ih]

theorem assign_assign (m : unordered_map K V) (k : K) (v w : V) :
    assign (assign m k v) k w = assign m k w := by
  induction m with
  | nil => rfl
  | cons p r ih =>
    obtain ⟨k1, v1⟩ := p
    by_cases h : k1 = k
    · simp [assign, h]
    · simp [assign, h, ih]

theorem assign_of_find (m : unordered_map K V) (k : K) (v : V) (h : find m k = some v) :
    assign m k v = m := by
  induction m with
  | nil => rfl
  | cons p r ih =>
    obtain ⟨k1, v1⟩ := p
    by_cases h1 : k1 = k
    · simp [find, h1] at h
      simp [assign, h1, h]
    · simp only [find, h1, if_false] at h
      simp [assign, h1, ih h]

theorem erase_of_find_none (m : unordered_map K V) (k : K) (h : find m k = none) :
    erase m k = m := by
  rw [find_eq_none_iff] at h
  unfold erase
  rw [List.filter_eq_self]
  intro p hp
  have : p.1 ≠ k := fun e => h (e ▸ List.mem_map_of_mem Prod.fst hp)
  simpa using this

theorem erase_append_of_none (m : unordered_map K V) (k : K) (d : V) (h : find m k = none) :
    erase (m ++ [(k, d)]) k = m := by
  have h1 := erase_of_find_none m k h
  unfold erase at h1 ⊢
  rw [List.filter_append, h1]
  simp

theorem mem_assign (m : unordered_map K V) (k : K) (v : V) (p : K × V)
    (hp : p ∈ assign m k v) : p ∈ m ∨ p = (k, v) := by
  induction m with
  | nil => simp [assign] at hp
  | cons q r ih =>
    obtain ⟨k1, v1⟩ := q
    by_cases h : k1 = k
    · simp only [assign, h, if_true, List.mem_cons] at hp
      rcases hp with hp | hp
      · exact Or.inr hp
      · exact Or.inl (List.mem_cons_of_mem _ hp)
    · simp only [assign, h, if_false, List.mem_cons] at hp
      rcases hp with hp | hp
      · exact Or.inl (hp ▸ List.mem_cons_self _ _)
      · rcases ih hp with h2 | h2
        · exact Or.inl (List.mem_cons_of_mem _ h2)
        · exact Or.inr h2

theorem subscript_of_find_some (m : unordered_map K V) (k : K) (d v : V)
    (h : find m k = some v) : subscript m k d = m := by
  simp [subscript, h]

theorem subscript_of_find_none (m : unordered_map K V) (k : K) (d : V)
    (h : find m k = none) : subscript m k d = m ++ [(k, d)] := by
  simp [subscript, h]

theorem nodup_keys_subscript (m : unordered_map K V) (k : K) (d : V)
    (h : (m.map Prod.fst).Nodup) : ((subscript m k d).map Prod.fst).Nodup := by
  cases hf : find m k with
  | none =>
    have hn := (find_eq_none_iff _ _).1 hf
    rw [subscript_of_find_none _ _ _ hf]
    simp only [List.map_append, List.map_cons, List.map_nil]
    exact List.Nodup.append h (List.nodup_singleton k) (by simpa using hn)
  | some a => rw [subscript_of_find_some _ _ _ _ hf]; exact h

theorem mem_keys_subscript (m : unordered_map K V) (k : K) (d : V) :
    k ∈ (subscript m k d).map Prod.fst := by
  cases hf : find m k with
  | none => rw [subscript_of_find_none _ _ _ hf]; simp
  | some a =>
    rw [subscript_of_find_some _ _ _ _ hf]
    by_contra hc
    rw [← find_eq_none_iff, hf] at hc
    simp at hc

end unordered_map

/-! ## component_map: emplace and insert -/

namespace unordered_map

variable {K V : Type} [DecidableEq K]

theorem mem_of_find (m : unordered_map K V) (k : K) (v : V) (h : find m k = some v) :
    (k, v) ∈ m := by
  induction m with
  | nil => simp [find] at h
  | cons p r ih =>
    obtain ⟨k1, v1⟩ := p
    by_cases h1 : k1 = k
    · simp [find, h1] at h
      simp [h1, h]
    · simp only [find, h1, if_false] at h
      exact List.mem_cons_of_mem _ (ih h)

end unordered_map

namespace component_map

variable {V A : Type}

theorem wf_empty : (empty : component_map V).wf := by
  simp [wf, empty]

/-- The map a throwing constructor leaves behind is the map before the call. -/
theorem emplace_error (T : type_index) (ctor : A → Except exception V) (args : A)
    (e : exception) (m : component_map V) (hwf : m.wf) (hfail : ctor args = .error e) :
    m.emplace T ctor args = (m, .error e) := by
  unfold emplace
  simp only [hfail]
  cases hf : m.content_.find T with
  | none =>
    have h1 : unordered_map.find (m.content_ ++ [(T, (none : Option V))]) T = some none := by
      rw [unordered_map.find_append_of_none _ _ _ _ hf]; simp
    simp only [unordered_map.subscript_of_find_none _ _ _ hf, h1, Option.getD_some,
      Option.isSome_none]
    rw [unordered_map.assign_of_find _ _ _ h1, unordered_map.erase_append_of_none _ _ _ hf]
    simp
  | some a =>
    cases a with
    | none =>
      have := hwf.2 _ (unordered_map.mem_of_find _ _ _ hf)
      simp at this
    | some v =>
      simp only [unordered_map.subscript_of_find_some _ _ _ _ hf, hf, Option.getD_some,
        Option.isSome_some, if_true]
      rw [unordered_map.assign_assign, unordered_map.assign_of_find _ _ _ hf]

/-- The content a successful construction leaves behind. -/
theorem emplace_ok (T : type_index) (ctor : A → Except exception V) (args : A)
    (v : V) (m : component_map V) (hok : ctor args = .ok v) :
    m.emplace T ctor args =
      ({ content_ := (m.content_.subscript T none).assign T (some v) }, .ok v) := by
  unfold emplace
  simp only [hok]
  rw [unordered_map.assign_assign]

theorem find_subscript_self (c : unordered_map type_index (Option V)) (T : type_index) :
    ∃ a, (c.subscript T none).find T = some a := by
  cases hf : c.find T with
  | none =>
    refine ⟨none, ?_⟩
    rw [unordered_map.subscript_of_find_none _ _ _ hf, unordered_map.find_append_of_none _ _ _ _ hf]
    simp
  | some a => exact ⟨a, by rw [unordered_map.subscript_of_find_some _ _ _ _ hf, hf]⟩

theorem find_subscript_ne (c : unordered_map type_index (Option V)) (T T2 : type_index)
    (h : T2 ≠ T) : (c.subscript T none).find T2 = c.find T2 := by
  cases hf : c.find T with
  | none =>
    rw [unordered_map.subscript_of_find_none _ _ _ hf, unordered_map.find_append_of_none _ _ _ _ hf]
    simp [Ne.symm h]
  | some a => rw [unordered_map.subscript_of_find_some _ _ _ _ hf]

/-- The keys after a successful emplace: those before, with `T` appended when
it was missing. -/
theorem keys_emplace_ok (T : type_index) (v : V) (m : component_map V) :
    (((m.content_.subscript T none).assign T (some v)).map Prod.fst) =
      if (m.content_.find T).isSome then m.content_.map Prod.fst
      else m.content_.map Prod.fst ++ [T] := by
  rw [unordered_map.map_fst_assign]
  cases hf : m.content_.find T with
  | none => simp [unordered_map.subscript_of_find_none _ _ _ hf]
  | some a => simp [unordered_map.subscript_of_find_some _ _ _ _ hf]

theorem wf_emplace_ok (T : type_index) (v : V) (m : component_map V) (hwf : m.wf) :
    wf ({ content_ := (m.content_.subscript T none).assign T (some v) } : component_map V) := by
  constructor
  · show (((m.content_.subscript T none).assign T (some v)).map Prod.fst).Nodup
    rw [keys_emplace_ok]
    cases hf : m.content_.find T with
    | none =>
      have hn := (unordered_map.find_eq_none_iff _ _).1 hf
      simp only [Option.isSome_none, Bool.false_eq_true, if_false]
      exact List.Nodup.append hwf.1 (List.nodup_singleton T) (by simpa using hn)
    | some a => simpa using hwf.1
  · intro p hp
    rcases unordered_map.mem_assign _ _ _ _ hp with h | h
    · cases hf : m.content_.find T with
      | none =>
        rw [unordered_map.subscript_of_find_none _ _ _ hf] at h
        rcases List.mem_append.1 h with h1 | h1
        · exact hwf.2 p h1
        · -- the value-initialised element has been overwritten
          exfalso
          have hfind : unordered_map.find (m.content_ ++ [(T, (none : Option V))]) T
              = some none := by
            rw [unordered_map.find_append_of_none _ _ _ _ hf]; simp
          have hkeys : (((m.content_ ++ [(T, (none : Option V))]).assign T (some v)).map
              Prod.fst).Nodup := by
            rw [unordered_map.map_fst_assign]
            have hn := (unordered_map.find_eq_none_iff _ _).1 hf
            simp only [List.map_append, List.map_cons, List.map_nil]
            exact List.Nodup.append hwf.1 (List.nodup_singleton T) (by simpa using hn)
          have hnew : (T, some v) ∈ (m.content_ ++ [(T, (none : Option V))]).assign T (some v) := by
            apply unordered_map.mem_of_find
            rw [unordered_map.find_assign, hfind]; simp
          rw [unordered_map.subscript_of_find_none _ _ _ hf] at hp
          have hp1 : p = (T, none) := by simpa using h1
          subst hp1
          have hinj := List.inj_on_of_nodup_map hkeys hp hnew rfl
          simp at hinj
      | some a =>
        rw [unordered_map.subscript_of_find_some _ _ _ _ hf] at h
        exact hwf.2 p h
    · simp [h]

/-- C5: when the construction of `T` fails inside `emplace<T>`, the exception
is rethrown and the component map is exactly the map before the call: a stored
`T` is still returned by `at<T>()`, a missing `T` is still missing and the size
is the same, and the elements of all other types are untouched. -/
theorem emplace_failure_rolls_back (T : type_index) (ctor : A → Except exception V)
    (args : A) (e : exception) (m : component_map V) (hwf : m.wf)
    (hfail : ctor args = .error e) :
    (m.emplace T ctor args).2 = .error e
    ∧ (m.emplace T ctor args).1 = m
    ∧ (∀ v, m.at_ T = .ok v → (m.emplace T ctor args).1.at_ T = .ok v)
    ∧ (m.content_.find T = none →
        (m.emplace T ctor args).1.content_.find T = none
        ∧ (m.emplace T ctor args).1.at_ T = .error .out_of_range
        ∧ (m.emplace T ctor args).1.size = m.size)
    ∧ (∀ T2, T2 ≠ T → (m.emplace T ctor args).1.content_.find T2 = m.content_.find T2) := by
  rw [emplace_error T ctor args e m hwf hfail]
  refine ⟨rfl, rfl, fun v h => h, fun h => ⟨h, ?_, rfl⟩, fun _ _ => rfl⟩
  simp [at_, h]

theorem emplace_failure_rolls_back_witness :
    (wf ({ content_ := [(3, some 7), (5, some 1)] } : component_map Nat))
    ∧ (fun (_ : Unit) => (Except.error (exception.other 1) : Except exception Nat)) ()
        = .error (.other 1)
    ∧ (emplace 3 (fun (_ : Unit) => (Except.error (exception.other 1) : Except exception Nat)) ()
        ({ content_ := [(3, some 7), (5, some 1)] } : component_map Nat)).1
        = { content_ := [(3, some 7), (5, some 1)] } :=
  ⟨by simp [wf], rfl,
   (emplace_failure_rolls_back 3
      (fun (_ : Unit) => (Except.error (exception.other 1) : Except exception Nat)) ()
      (.other 1) { content_ := [(3, some 7), (5, some 1)] } (by simp [wf]) rfl).2.1⟩

/-- C6: a successful `emplace<T>(args...)` whose constructor yields `v` returns
`v`; afterwards `at<T>()` yields `v`, the map has exactly one element of key
`T`, its size has grown by one if `T` was missing and is unchanged otherwise,
the elements of other types are unchanged and the invariant still holds;
`insert(value)` with a copy constructor yielding `v` gives the same result. -/
theorem emplace_success_stores (T : type_index) (ctor : A → Except exception V)
    (args : A) (v : V) (m : component_map V) (hwf : m.wf) (hok : ctor args = .ok v) :
    (m.emplace T ctor args).2 = .ok v
    ∧ (m.emplace T ctor args).1.at_ T = .ok v
    ∧ ((m.emplace T ctor args).1.content_.map Prod.fst).count T = 1
    ∧ (m.emplace T ctor args).1.size
        = (if (m.content_.find T).isSome then m.size else m.size + 1)
    ∧ (∀ T2, T2 ≠ T → (m.emplace T ctor args).1.content_.find T2 = m.content_.find T2)
    ∧ (∀ T2, T2 ≠ T → (m.emplace T ctor args).1.at_ T2 = m.at_ T2)
    ∧ (m.emplace T ctor args).1.wf
    ∧ (∀ (copy : V → Except exception V) (value : V), copy value = .ok v →
        m.insert T copy value = m.emplace T ctor args) := by
  have hfind : ∀ T2, T2 ≠ T →
      ((m.content_.subscript T none).assign T (some v)).find T2 = m.content_.find T2 := by
    intro T2 h
    rw [unordered_map.find_assign, if_neg (Ne.symm h), find_subscript_ne _ _ _ h]
  have hwf2 := wf_emplace_ok T v m hwf
  have hself : ((m.content_.subscript T none).assign T (some v)).find T = some (some v) := by
    obtain ⟨a, ha⟩ := find_subscript_self m.content_ T
    rw [unordered_map.find_assign, ha]; simp
  rw [emplace_ok T ctor args v m hok]
  refine ⟨rfl, ?_, ?_, ?_, hfind, ?_, hwf2, ?_⟩
  · simp [at_, hself]
  · apply List.count_eq_one_of_mem hwf2.1
    exact List.mem_map_of_mem Prod.fst (unordered_map.mem_of_find _ _ _ hself)
  · show ((m.content_.subscript T none).assign T (some v)).length = _
    have h := congrArg List.length (keys_emplace_ok T v m)
    simp only [List.length_map] at h
    rw [h]
    cases hf : m.content_.find T <;> simp [size]
  · intro T2 h
    simp only [at_]
    rw [hfind T2 h]
  · intro copy value hc
    show emplace T copy value m = _
    rw [emplace_ok T copy value v m hc]

theorem emplace_success_stores_witness :
    (wf ({ content_ := [(3, some 7), (5, some 1)] } : component_map Nat))
    ∧ (fun (n : Nat) => (Except.ok (n + 1) : Except exception Nat)) 8 = .ok 9
    ∧ (emplace 3 (fun (n : Nat) => (Except.ok (n + 1) : Except exception Nat)) 8
        ({ content_ := [(3, some 7), (5, some 1)] } : component_map Nat)).1.at_ 3 = .ok 9 :=
  ⟨by simp [wf], rfl,
   (emplace_success_stores 3 (fun (n : Nat) => (Except.ok (n + 1) : Except exception Nat)) 8 9
      { content_ := [(3, some 7), (5, some 1)] } (by simp [wf]) rfl).2.1⟩

end component_map

/-! ## irc: the module registry -/

namespace irc

variable {A : Type}

/-- The pointer that `load_module` reads through `modptr` is the one that
`module(key)` returns. -/
theorem getD_find_subscript (s : irc) (k : type_index) :
    ((s.modules_.subscript k none).find k).getD none = s.module k := by
  unfold module
  cases hf : s.modules_.find k with
  | none =>
    rw [unordered_map.subscript_of_find_none _ _ _ hf, unordered_map.find_append_of_none _ _ _ _ hf]
    simp
  | some a => rw [unordered_map.subscript_of_find_some _ _ _ _ hf, hf]; rfl

theorem load_module_ok (M : module_class) (ctor : A → Except exception Nat) (args : A)
    (addr : Nat) (s : irc) (hok : ctor args = .ok addr) :
    s.load_module M ctor args =
      ({ s with
          modules_ := (s.modules_.subscript M.slirc_module_type none).assign M.slirc_module_type
            (some { addr := addr, dyn_type := effective_module_implementation M }),
          destroyed_ := s.destroyed_by_load M.slirc_module_type },
       .ok { addr := addr, dyn_type := effective_module_implementation M }) := by
  unfold load_module destroyed_by_load
  simp only [hok, getD_find_subscript]
  cases s.module M.slirc_module_type with
  | none => rfl
  | some old => simp only [unordered_map.assign_assign]

theorem load_module_error (M : module_class) (ctor : A → Except exception Nat) (args : A)
    (e : exception) (s : irc) (hfail : ctor args = .error e) :
    s.load_module M ctor args =
      ({ s with
          modules_ := (s.modules_.subscript M.slirc_module_type none).assign M.slirc_module_type
            none,
          destroyed_ := s.destroyed_by_load M.slirc_module_type },
       .error e) := by
  unfold load_module destroyed_by_load
  simp only [hfail]
  have hg := getD_find_subscript s M.slirc_module_type
  cases hm : s.module M.slirc_module_type with
  | none =>
    rw [hm] at hg
    obtain ⟨a, ha⟩ := component_map.find_subscript_self s.modules_ M.slirc_module_type
    rw [ha] at hg
    simp only [Option.getD_some] at hg
    subst hg
    simp only [ha, Option.getD_some]
    rw [unordered_map.assign_of_find _ _ _ ha]
  | some old =>
    rw [hm] at hg
    simp only [hg]

theorem module_after_assign (s : irc) (k k2 : type_index) (p : Option module_base)
    (c : List module_base) :
    ({ s with modules_ := (s.modules_.subscript k none).assign k p, destroyed_ := c } : irc).module
        k2 = if k = k2 then p else s.module k2 := by
  unfold module
  simp only [unordered_map.find_assign]
  by_cases h : k = k2
  · subst h
    obtain ⟨a, ha⟩ := component_map.find_subscript_self s.modules_ k
    simp [ha]
  · simp only [if_neg h]
    rw [component_map.find_subscript_ne _ _ _ (Ne.symm h)]

/-- C7 fails on the code: with an instance stored under the key, a load whose
constructor throws rethrows, but the stored instance has been deleted and the
pointer form of `module` returns null afterwards. -/
theorem load_module_failure_loses_instance :
    (({ irc.create 0 with modules_ := [(1, some { addr := 100, dyn_type := 1 })] } : irc).module_ptr
        (fun a b => decide (a = b))
        { id := 1, slirc_module_type := 1, is_abstract := false,
          slirc_default_implementation := none }
      = some { addr := 100, dyn_type := 1 })
    ∧ (({ irc.create 0 with modules_ := [(1, some { addr := 100, dyn_type := 1 })] } : irc).load_module
        { id := 1, slirc_module_type := 1, is_abstract := false,
          slirc_default_implementation := none }
        (fun (_ : Unit) => (Except.error (exception.other 1) : Except exception Nat)) ()).2
      = .error (.other 1)
    ∧ (({ irc.create 0 with modules_ := [(1, some { addr := 100, dyn_type := 1 })] } : irc).load_module
        { id := 1, slirc_module_type := 1, is_abstract := false,
          slirc_default_implementation := none }
        (fun (_ : Unit) => (Except.error (exception.other 1) : Except exception Nat)) ()).1.module_ptr
        (fun a b => decide (a = b))
        { id := 1, slirc_module_type := 1, is_abstract := false,
          slirc_default_implementation := none }
      = none
    ∧ (({ irc.create 0 with modules_ := [(1, some { addr := 100, dyn_type := 1 })] } : irc).load_module
        { id := 1, slirc_module_type := 1, is_abstract := false,
          slirc_default_implementation := none }
        (fun (_ : Unit) => (Except.error (exception.other 1) : Except exception Nat)) ()).1.destroyed_
      = [{ addr := 100, dyn_type := 1 }] :=
  ⟨rfl, rfl, rfl, rfl⟩

/-- C7 as amended: a load whose constructor throws rethrows the exception; it
does not roll back: the instance stored under the key, if any, has been
deleted, both forms of `module` find no instance under the key afterwards, the
lookups under all other keys are unchanged, and so are the event queues. -/
theorem load_module_failure (is_base_of : hierarchy) (M : module_class)
    (ctor : A → Except exception Nat) (args : A) (e : exception) (s : irc)
    (hfail : ctor args = .error e) :
    (s.load_module M ctor args).2 = .error e
    ∧ (s.load_module M ctor args).1.destroyed_ = s.destroyed_by_load M.slirc_module_type
    ∧ (s.load_module M ctor args).1.module M.slirc_module_type = none
    ∧ (s.load_module M ctor args).1.module_ptr is_base_of M = none
    ∧ (s.load_module M ctor args).1.module_ref is_base_of M = .error .out_of_range
    ∧ (∀ k, k ≠ M.slirc_module_type → (s.load_module M ctor args).1.module k = s.module k)
    ∧ (s.load_module M ctor args).1.event_queue_front_ = s.event_queue_front_
    ∧ (s.load_module M ctor args).1.event_queue_back_ = s.event_queue_back_
    ∧ (s.load_module M ctor args).1.event_queue_back_skip_ = s.event_queue_back_skip_
    ∧ (s.load_module M ctor args).1.shutting_down_ = s.shutting_down_ := by
  rw [load_module_error M ctor args e s hfail]
  have hkey := module_after_assign s M.slirc_module_type M.slirc_module_type none
    (s.destroyed_by_load M.slirc_module_type)
  simp only [if_true] at hkey
  refine ⟨rfl, rfl, hkey, ?_, ?_, ?_, rfl, rfl, rfl, rfl⟩
  · simp only [module_ptr, hkey, dynamic_cast]
  · simp only [module_ref, module_ptr, hkey, dynamic_cast]
  · intro k hk
    rw [module_after_assign, if_neg (Ne.symm hk)]

theorem load_module_failure_witness :
    (fun (_ : Unit) => (Except.error (exception.other 1) : Except exception Nat)) ()
        = .error (.other 1)
    ∧ (({ irc.create 0 with modules_ := [(1, some { addr := 100, dyn_type := 1 })] } : irc).load_module
        { id := 1, slirc_module_type := 1, is_abstract := false,
          slirc_default_implementation := none }
        (fun (_ : Unit) => (Except.error (exception.other 1) : Except exception Nat)) ()).1.module 1
      = none :=
  ⟨rfl,
   (load_module_failure (fun a b => decide (a = b))
      { id := 1, slirc_module_type := 1, is_abstract := false,
        slirc_default_implementation := none }
      (fun (_ : Unit) => (Except.error (exception.other 1) : Except exception Nat)) ()
      (.other 1) { irc.create 0 with modules_ := [(1, some { addr := 100, dyn_type := 1 })] }
      rfl).2.2.1⟩

/-- C8: a successful `load_module<Module>` returns the newly constructed object,
has deleted the object stored under the key before (if any), and afterwards
`module(key)`, `module<Module*>()` and `module<Module>()` all yield exactly the
new object; the registry has one element for the key and no key twice, and
the elements under all other keys are unchanged. The hypothesis `hbase` is
what the conversion `Module *real_modptr = new EffectiveModule(...)` requires
of the classes. -/
theorem load_module_success (is_base_of : hierarchy) (M : module_class)
    (ctor : A → Except exception Nat) (args : A) (addr : Nat) (s : irc)
    (hkeys : (s.modules_.map Prod.fst).Nodup)
    (hbase : is_base_of M.id (effective_module_implementation M) = true)
    (hok : ctor args = .ok addr) :
    (s.load_module M ctor args).2
        = .ok { addr := addr, dyn_type := effective_module_implementation M }
    ∧ (s.load_module M ctor args).1.destroyed_ = s.destroyed_by_load M.slirc_module_type
    ∧ (∀ old, s.module M.slirc_module_type = some old →
        (s.load_module M ctor args).1.destroyed_ = s.destroyed_ ++ [old])
    ∧ (s.load_module M ctor args).1.module M.slirc_module_type
        = some { addr := addr, dyn_type := effective_module_implementation M }
    ∧ (s.load_module M ctor args).1.module_ptr is_base_of M
        = some { addr := addr, dyn_type := effective_module_implementation M }
    ∧ (s.load_module M ctor args).1.module_ref is_base_of M
        = .ok { addr := addr, dyn_type := effective_module_implementation M }
    ∧ ((s.load_module M ctor args).1.modules_.map Prod.fst).Nodup
    ∧ ((s.load_module M ctor args).1.modules_.map Prod.fst).count M.slirc_module_type = 1
    ∧ (∀ k, k ≠ M.slirc_module_type →
        (s.load_module M ctor args).1.modules_.find k = s.modules_.find k
        ∧ (s.load_module M ctor args).1.module k = s.module k) := by
  rw [load_module_ok M ctor args addr s hok]
  have hkey := module_after_assign s M.slirc_module_type M.slirc_module_type
    (some { addr := addr, dyn_type := effective_module_implementation M })
    (s.destroyed_by_load M.slirc_module_type)
  simp only [if_true] at hkey
  have hnodup : (((s.modules_.subscript M.slirc_module_type none).assign M.slirc_module_type
      (some { addr := addr, dyn_type := effective_module_implementation M })).map
        Prod.fst).Nodup := by
    rw [unordered_map.map_fst_assign]
    exact unordered_map.nodup_keys_subscript _ _ _ hkeys
  refine ⟨rfl, rfl, ?_, hkey, ?_, ?_, hnodup, ?_, ?_⟩
  · intro old hold
    show s.destroyed_by_load M.slirc_module_type = _
    simp only [destroyed_by_load, hold]
  · simp only [module_ptr, hkey, dynamic_cast, hbase, if_true]
  · simp only [module_ref, module_ptr, hkey, dynamic_cast, hbase, if_true]
  · apply List.count_eq_one_of_mem hnodup
    rw [unordered_map.map_fst_assign]
    exact unordered_map.mem_keys_subscript _ _ _
  · intro k hk
    refine ⟨?_, ?_⟩
    · show unordered_map.find ((s.modules_.subscript M.slirc_module_type none).assign
        M.slirc_module_type _) k = _
      rw [unordered_map.find_assign, if_neg (Ne.symm hk),
        component_map.find_subscript_ne _ _ _ hk]
    · rw [module_after_assign, if_neg (Ne.symm hk)]

theorem load_module_success_witness :
    ((({ irc.create 0 with modules_ := [(1, some { addr := 100, dyn_type := 1 })] } : irc).modules_.map
        Prod.fst).Nodup)
    ∧ (fun (a b : type_index) => decide (a = b ∨ (a = 1 ∧ b = 2))) 1
        (effective_module_implementation
          { id := 1, slirc_module_type := 1, is_abstract := true,
            slirc_default_implementation := some 2 }) = true
    ∧ (fun (n : Nat) => (Except.ok (n + 1) : Except exception Nat)) 200 = .ok 201
    ∧ (({ irc.create 0 with modules_ := [(1, some { addr := 100, dyn_type := 1 })] } : irc).load_module
        { id := 1, slirc_module_type := 1, is_abstract := true,
          slirc_default_implementation := some 2 }
        (fun (n : Nat) => (Except.ok (n + 1) : Except exception Nat)) 200).1.module_ptr
        (fun (a b : type_index) => decide (a = b ∨ (a = 1 ∧ b = 2)))
        { id := 1, slirc_module_type := 1, is_abstract := true,
          slirc_default_implementation := some 2 }
      = some { addr := 201, dyn_type := 2 } :=
  ⟨by decide, by decide, rfl,
   (load_module_success (fun (a b : type_index) => decide (a = b ∨ (a = 1 ∧ b = 2)))
      { id := 1, slirc_module_type := 1, is_abstract := true,
        slirc_default_implementation := some 2 }
      (fun (n : Nat) => (Except.ok (n + 1) : Except exception Nat)) 200 201
      { irc.create 0 with modules_ := [(1, some { addr := 100, dyn_type := 1 })] }
      (by decide) (by decide) rfl).2.2.2.2.1⟩

/-! ## irc: the event queue -/

/-- Whatever the state and the timeout, `fetch_event` returns the null pointer
and leaves the context as it was: when the predicate holds, `wait_for` yields
`true` and the function returns `{}`; when it does not, both queues are empty. -/
theorem fetch_event_eq (timeout : Nat) (s : irc) : s.fetch_event timeout = (none, s) := by
  unfold fetch_event wait_for
  by_cases h : event_available s = true
  · simp [h]
  · have h1 : event_available s = false := by simpa using h
    have h2 := h1
    unfold event_available at h2
    simp only [Bool.or_eq_false_iff, Bool.not_eq_false', decide_eq_false_iff_not] at h2
    obtain ⟨⟨_, hfront⟩, hback⟩ := h2
    simp [h1, hfront, hback]

/-- C3 fails on the code (evaluation at the failing inputs): in a context that
is not shutting down, with one event in the front queue, or with one
unconsumed event in the back queue, `fetch_event` returns the null pointer and
removes nothing. -/
theorem fetch_event_returns_null_on_waiting_event :
    (({ irc.create 0 with event_queue_front_ := { data := [some 7], capacity := 1 } } : irc).shutting_down_
      = false)
    ∧ (({ irc.create 0 with event_queue_back_ := { data := [some 8], capacity := 1 } } : irc).shutting_down_
      = false)
    ∧ (({ irc.create 0 with event_queue_front_ := { data := [some 7], capacity := 1 } } : irc).fetch_event
        1000
      = (none, { irc.create 0 with event_queue_front_ := { data := [some 7], capacity := 1 } }))
    ∧ (({ irc.create 0 with event_queue_back_ := { data := [some 8], capacity := 1 } } : irc).fetch_event
        1000
      = (none, { irc.create 0 with event_queue_back_ := { data := [some 8], capacity := 1 } })) := by
  decide

/-- C4 fails on the code (evaluation at the failing input): after two events
posted to the front and one to the back of a fresh context, three calls of
`fetch_event` return three null pointers, not the events. -/
theorem fetch_after_posts_returns_null :
    ((irc.create 0).post_all libstdcxx_growth
        [(true, event.create 1 0 { group := 1, code := 0 } none),
         (false, event.create 2 0 { group := 1, code := 0 } none),
         (true, event.create 3 0 { group := 1, code := 0 } none)]).map
      (irc.fetch_all 1000 3)
    = some [none, none, none] := by
  decide

end irc

/-! ## std::copy loops, normalize and the pending range -/

section queue_facts

variable {α : Type}

theorem length_copy_fwd_rev (src : List α) (d : Nat) (l : List α) :
    (copy_fwd_rev src d l).length = l.length := by
  induction src generalizing d l with
  | nil => rfl
  | cons x xs ih => simp [copy_fwd_rev, ih]

/-- Entries of the buffer after `copy_fwd_rev`: the `src` elements lie reversed in
`[d - src.length, d)`, the rest is untouched. -/
theorem getElem?_copy_fwd_rev (src : List α) (d : Nat) (l : List α) (i : Nat)
    (h1 : src.length ≤ d) (h2 : d ≤ l.length) :
    (copy_fwd_rev src d l)[i]? =
      if d - src.length ≤ i ∧ i < d then src[d - 1 - i]? else l[i]? := by
  induction src generalizing d l with
  | nil =>
    have c : ¬ (d - ([] : List α).length ≤ i ∧ i < d) := by simp
    rw [if_neg c]; rfl
  | cons x xs ih =>
    simp only [List.length_cons] at h1
    simp only [copy_fwd_rev]
    rw [ih (d - 1) (l.set (d - 1) x) (by omega) (by simp; omega)]
    simp only [List.length_cons]
    by_cases hi : i = d - 1
    · subst hi
      have c1 : ¬ (d - 1 - xs.length ≤ d - 1 ∧ d - 1 < d - 1) := by omega
      have c2 : (d - (xs.length + 1) ≤ d - 1 ∧ d - 1 < d) := by omega
      rw [if_neg c1, if_pos c2]
      have : d - 1 - (d - 1) = 0 := by omega
      rw [this]
      simp [List.getElem?_set]
      omega
    · by_cases hc : d - 1 - xs.length ≤ i ∧ i < d - 1
      · have c2 : (d - (xs.length + 1) ≤ i ∧ i < d) := by omega
        rw [if_pos hc, if_pos c2]
        have : d - 1 - i = (d - 1 - 1 - i) + 1 := by omega
        rw [this, List.getElem?_cons_succ]
      · have c2 : ¬ (d - (xs.length + 1) ≤ i ∧ i < d) := by omega
        rw [if_neg hc, if_neg c2]
        rw [List.getElem?_set_ne]
        omega

theorem length_copy_rev_rev (n first d : Nat) (l : List α) :
    (copy_rev_rev n first d l).length = l.length := by
  induction n generalizing first d l with
  | zero => rfl
  | succ n ih =>
    simp only [copy_rev_rev]
    cases l[first - 1]? with
    | none => rfl
    | some x => simp [ih]

/-- Entries of the buffer after `copy_rev_rev`: the block `[first - n, first)` has
been moved up to `[d - n, d)`, the rest is untouched. -/
theorem getElem?_copy_rev_rev (n first d : Nat) (l : List α) (i : Nat)
    (h1 : n ≤ first) (h2 : first ≤ d) (h3 : d ≤ l.length) :
    (copy_rev_rev n first d l)[i]? =
      if d - n ≤ i ∧ i < d then l[i - (d - first)]? else l[i]? := by
  induction n generalizing first d l with
  | zero =>
    have c : ¬ (d - 0 ≤ i ∧ i < d) := by omega
    rw [if_neg c]; rfl
  | succ n ih =>
    simp only [copy_rev_rev]
    have hlt : first - 1 < l.length := by omega
    rw [List.getElem?_eq_getElem hlt]
    simp only
    rw [ih (first - 1) (d - 1) _ (by omega) (by omega) (by simp; omega)]
    by_cases hi : i = d - 1
    · subst hi
      have c1 : ¬ (d - 1 - n ≤ d - 1 ∧ d - 1 < d - 1) := by omega
      have c2 : (d - (n + 1) ≤ d - 1 ∧ d - 1 < d) := by omega
      rw [if_neg c1, if_pos c2]
      have : d - 1 - (d - first) = first - 1 := by omega
      rw [this, List.getElem?_eq_getElem hlt]
      simp [List.getElem?_set]
      omega
    · by_cases hc : d - 1 - n ≤ i ∧ i < d - 1
      · have c2 : (d - (n + 1) ≤ i ∧ i < d) := by omega
        rw [if_pos hc, if_pos c2]
        have : d - 1 - (first - 1) = d - first := by omega
        rw [this, List.getElem?_set_ne]
        omega
      · have c2 : ¬ (d - (n + 1) ≤ i ∧ i < d) := by omega
        rw [if_neg hc, if_neg c2]
        rw [List.getElem?_set_ne]
        omega

theorem length_copy_fwd (n first d : Nat) (l : List α) :
    (copy_fwd n first d l).length = l.length := by
  induction n generalizing first d l with
  | zero => rfl
  | succ n ih =>
    simp only [copy_fwd]
    cases l[first]? with
    | none => rfl
    | some x => simp [ih]

/-- Entries of the buffer after `copy_fwd`: the block `[first, first + n)` has been
moved down to `[d, d + n)`, the rest is untouched. -/
theorem getElem?_copy_fwd (n first d : Nat) (l : List α) (i : Nat)
    (h1 : d ≤ first) (h2 : first + n ≤ l.length) :
    (copy_fwd n first d l)[i]? =
      if d ≤ i ∧ i < d + n then l[i + (first - d)]? else l[i]? := by
  induction n generalizing first d l with
  | zero =>
    have c : ¬ (d ≤ i ∧ i < d + 0) := by omega
    rw [if_neg c]; rfl
  | succ n ih =>
    simp only [copy_fwd]
    have hlt : first < l.length := by omega
    rw [List.getElem?_eq_getElem hlt]
    simp only
    rw [ih (first + 1) (d + 1) _ (by omega) (by simp; omega)]
    by_cases hi : i = d
    · subst hi
      have c1 : ¬ (i + 1 ≤ i ∧ i < i + 1 + n) := by omega
      have c2 : (i ≤ i ∧ i < i + (n + 1)) := by omega
      rw [if_neg c1, if_pos c2]
      have : i + (first - i) = first := by omega
      rw [this, List.getElem?_eq_getElem hlt]
      simp [List.getElem?_set]
      omega
    · by_cases hc : d + 1 ≤ i ∧ i < d + 1 + n
      · have c2 : (d ≤ i ∧ i < d + (n + 1)) := by omega
        rw [if_pos hc, if_pos c2]
        have : first + 1 - (d + 1) = first - d := by omega
        rw [this, List.getElem?_set_ne]
        omega
      · have c2 : ¬ (d ≤ i ∧ i < d + (n + 1)) := by omega
        rw [if_neg hc, if_neg c2]
        rw [List.getElem?_set_ne]
        omega

theorem getElem?_reverse_append_drop {α : Type} (src dst : List α) (skipped i : Nat) :
    (src.reverse ++ dst.drop skipped)[i]? =
      if i < src.length then src[src.length - 1 - i]? else dst[skipped + (i - src.length)]? := by
  by_cases h : i < src.length
  · rw [if_pos h, List.getElem?_append_left (by simpa using h), List.getElem?_reverse h]
  · rw [if_neg h, List.getElem?_append_right (by simpa using h), List.getElem?_drop]
    simp

/-- With the skip count within the buffer, `normalize` keeps the pending sequence
`reverse(src) ++ dst[skipped..]`, keeps the skip count within the buffer and
empties `src`. -/
theorem normalize_spec (grow : growth) (dst src : vector event_id) (skipped : Nat)
    (h : skipped ≤ dst.size) :
    (normalize grow dst skipped src).1.data.drop (normalize grow dst skipped src).2.1
        = src.data.reverse ++ dst.data.drop skipped
    ∧ (normalize grow dst skipped src).2.1 ≤ (normalize grow dst skipped src).1.size
    ∧ (normalize grow dst skipped src).2.2.data = [] := by
  unfold vector.size at h
  unfold normalize
  by_cases hb : skipped < src.size
  · simp only [if_pos hb]
    unfold vector.size at hb
    refine ⟨?_, Nat.zero_le _, rfl⟩
    have hres : (vector.resize grow (dst.data.length + (src.data.length - skipped))
        event_id.none dst).data
        = dst.data ++ List.replicate (src.data.length - skipped) event_id.none := by
      unfold vector.resize vector.size
      have : ¬ (dst.data.length + (src.data.length - skipped) ≤ dst.data.length) := by omega
      simp only [if_neg this]
      congr 2
      omega
    simp only [List.drop_zero, vector.size, hres, List.length_append, List.length_replicate]
    apply List.ext_getElem?
    intro i
    rw [getElem?_reverse_append_drop]
    rw [getElem?_copy_fwd_rev _ _ _ _ (by omega)
      (by rw [length_copy_rev_rev]; simp; omega)]
    have e1 : skipped + (src.data.length - skipped) - src.data.length = 0 := by omega
    have e2 : skipped + (src.data.length - skipped) = src.data.length := by omega
    rw [e1, e2]
    by_cases hi : i < src.data.length
    · have c : 0 ≤ i ∧ i < src.data.length := ⟨Nat.zero_le _, hi⟩
      rw [if_pos c, if_pos hi]
    · have c : ¬ (0 ≤ i ∧ i < src.data.length) := fun c => hi c.2
      rw [if_neg c, if_neg hi]
      rw [getElem?_copy_rev_rev _ _ _ _ _ (by omega) (by omega) (by simp)]
      by_cases hj : i < dst.data.length + (src.data.length - skipped)
      · have c2 : dst.data.length + (src.data.length - skipped) - (dst.data.length - skipped) ≤ i
            ∧ i < dst.data.length + (src.data.length - skipped) := by omega
        rw [if_pos c2, List.getElem?_append_left (by omega)]
        congr 1
        omega
      · have c2 : ¬ (dst.data.length + (src.data.length - skipped) - (dst.data.length - skipped) ≤ i
            ∧ i < dst.data.length + (src.data.length - skipped)) := by omega
        rw [if_neg c2, List.getElem?_eq_none (by simp; omega),
          List.getElem?_eq_none (by omega)]
  · simp only [if_neg hb]
    unfold vector.size at hb ⊢
    refine ⟨?_, ?_, rfl⟩
    · apply List.ext_getElem?
      intro i
      rw [getElem?_reverse_append_drop, List.getElem?_drop,
        getElem?_copy_fwd_rev _ _ _ _ (by omega) h]
      by_cases hi : i < src.data.length
      · have c : skipped - src.data.length ≤ skipped - src.data.length + i
            ∧ skipped - src.data.length + i < skipped := by omega
        rw [if_pos c, if_pos hi]
        congr 1
        omega
      · have c : ¬ (skipped - src.data.length ≤ skipped - src.data.length + i
            ∧ skipped - src.data.length + i < skipped) := by omega
        rw [if_neg c, if_neg hi]
        congr 1
        omega
    · simp only [length_copy_fwd_rev]
      omega
namespace event

/-- The range `begin()..end()` is `reverse(next_id_queue) ++ id_queue[skipped..]`. -/
theorem range_eq (grow : growth) (ev : event) (h : ev.skipped ≤ ev.id_queue.size) :
    ev.range grow = ev.next_id_queue.data.reverse ++ ev.id_queue.data.drop ev.skipped := by
  unfold range normalized
  exact (normalize_spec grow ev.id_queue ev.next_id_queue ev.skipped h).1

theorem push_back_of_room (grow : growth) (id : event_id) (ev : event)
    (hroom : ¬ (ev.id_queue.size = ev.id_queue.capacity ∧ ev.skipped ≠ 0)) :
    ev.push_back grow id = { ev with id_queue := ev.id_queue.push_back grow id } := by
  unfold push_back
  rw [if_neg hroom]

/-- When `push_back` does not compact (the buffer has room, or nothing is
skipped), it appends `id` to the pending range. -/
theorem range_push_back_of_room (grow : growth) (id : event_id) (ev : event)
    (h : ev.skipped ≤ ev.id_queue.size)
    (hroom : ¬ (ev.id_queue.size = ev.id_queue.capacity ∧ ev.skipped ≠ 0)) :
    (ev.push_back grow id).range grow = ev.range grow ++ [id] := by
  rw [push_back_of_room grow id ev hroom]
  have h2 : ev.skipped ≤ (ev.id_queue.push_back grow id).size := by
    unfold vector.size at h
    simp only [vector.push_back, vector.size, List.length_append, List.length_singleton]
    omega
  have h3 := range_eq grow { ev with id_queue := ev.id_queue.push_back grow id } h2
  rw [range_eq grow ev h, h3]
  unfold vector.size at h
  simp only [vector.push_back]
  rw [List.drop_append_of_le_length h, List.append_assoc]

theorem copy_fwd_take (α : Type) (l : List α) (skipped : Nat) (h : skipped ≤ l.length) :
    (copy_fwd (l.length - skipped) skipped 0 l).take (l.length - skipped) = l.drop skipped := by
  apply List.ext_getElem?
  intro i
  rw [List.getElem?_take, List.getElem?_drop]
  by_cases hi : i < l.length - skipped
  · rw [if_pos hi, getElem?_copy_fwd _ _ _ _ _ (Nat.zero_le _) (by omega)]
    have c : 0 ≤ i ∧ i < 0 + (l.length - skipped) := by omega
    rw [if_pos c]
    congr 1
    omega
  · rw [if_neg hi, List.getElem?_eq_none (by omega)]

/-- The compacting branch of `push_back`: the buffer becomes `id_queue[skipped..]`
followed by `id`, and `skipped` keeps its value. -/
theorem push_back_compacting (grow : growth) (id : event_id) (ev : event)
    (h : ev.skipped ≤ ev.id_queue.size)
    (hfull : ev.id_queue.size = ev.id_queue.capacity ∧ ev.skipped ≠ 0) :
    ev.push_back grow id =
      { ev with id_queue :=
          (({ data := ev.id_queue.data.drop ev.skipped,
              capacity := ev.id_queue.capacity } : vector event_id).push_back grow id) } := by
  unfold push_back
  rw [if_pos hfull]
  unfold vector.size at h
  have hd : List.drop ev.id_queue.data.length
      (copy_fwd (ev.id_queue.data.length - ev.skipped) ev.skipped 0 ev.id_queue.data) = [] :=
    List.drop_eq_nil_of_le (by rw [length_copy_fwd])
  simp only [vector.erase, vector.size, length_copy_fwd, hd, List.append_nil]
  rw [copy_fwd_take _ _ _ h]

/-- When `push_back` compacts (full buffer, entries skipped) and the skip count
still fits the compacted buffer, the pending range afterwards is never the
range before followed by `id`: the first `skipped` pending entries are gone. -/
theorem range_push_back_compacting (grow : growth) (id : event_id) (ev : event)
    (h : ev.skipped ≤ ev.id_queue.size)
    (hfull : ev.id_queue.size = ev.id_queue.capacity ∧ ev.skipped ≠ 0)
    (hfit : ev.skipped ≤ ev.id_queue.size - ev.skipped + 1) :
    (ev.push_back grow id).range grow
        = ev.next_id_queue.data.reverse
          ++ (ev.id_queue.data.drop ev.skipped ++ [id]).drop ev.skipped
    ∧ (ev.push_back grow id).range grow ≠ ev.range grow ++ [id] := by
  rw [push_back_compacting grow id ev h hfull]
  have h2 : ev.skipped ≤ ((⟨ev.id_queue.data.drop ev.skipped,
      ev.id_queue.capacity⟩ : vector event_id).push_back grow id).size := by
    unfold vector.size at h hfit
    simp only [vector.push_back, vector.size, List.length_append, List.length_singleton,
      List.length_drop]
    omega
  have h3 := range_eq grow { ev with id_queue :=
    ((⟨ev.id_queue.data.drop ev.skipped,
      ev.id_queue.capacity⟩ : vector event_id).push_back grow id) } h2
  rw [h3, range_eq grow ev h]
  refine ⟨rfl, ?_⟩
  intro heq
  have hlen := congrArg List.length heq
  unfold vector.size at h hfit
  simp only [vector.push_back, List.length_append, List.length_reverse, List.length_drop,
    List.length_singleton] at hlen
  have := hfull.2
  omega

end event

end queue_facts

/-! ## event: emit_as -/

namespace event

/-- C9: whatever the handlers do to the event (return, throw, run a nested
`emit` or `emit_as`), after `emit_as(id)` the value of `current_id` is the one
before the call, both when it returns and when it propagates an exception;
the handlers ran on the event with `current_id == id`, and an exception they
threw is the one propagated. -/
theorem emit_as_restores_current_id (signals_ : event_id → signal_type) (id : event_id)
    (ev : event) :
    (ev.emit_as signals_ id).ev.current_id = ev.current_id
    ∧ (ev.emit_as signals_ id).raised = (signals_ id { ev with current_id_ := id }).raised
    ∧ (ev.emit_as signals_ id).ev
        = { (signals_ id { ev with current_id_ := id }).ev with current_id_ := ev.current_id_ } := by
  unfold emit_as emit_event current_id
  cases h : (signals_ id { ev with current_id_ := id }).raised <;> simp [h]

/-! ## event: push_back on a full buffer with skipped entries -/

/-- C10 fails on the code (evaluation at the failing input): with
`id_queue == [a, b]` at capacity 2 and `skipped == 1`, the pending range is
`[b]`; `push_back(c)` moves `b` to the front of the buffer and leaves `skipped`
at 1, so that the pending range becomes `[c]` and `b` is lost. -/
theorem push_back_full_buffer_loses_identifier :
    (({ event.create 1 0 { group := 9, code := 0 } none with
          id_queue := { data := [{ group := 1, code := 10 }, { group := 1, code := 11 }],
                        capacity := 2 },
          skipped := 1 } : event).range libstdcxx_growth
      = [{ group := 1, code := 11 }])
    ∧ ((({ event.create 1 0 { group := 9, code := 0 } none with
          id_queue := { data := [{ group := 1, code := 10 }, { group := 1, code := 11 }],
                        capacity := 2 },
          skipped := 1 } : event).push_back libstdcxx_growth { group := 1, code := 12 }).range
        libstdcxx_growth
      = [{ group := 1, code := 12 }])
    ∧ ((({ event.create 1 0 { group := 9, code := 0 } none with
          id_queue := { data := [{ group := 1, code := 10 }, { group := 1, code := 11 }],
                        capacity := 2 },
          skipped := 1 } : event).push_back libstdcxx_growth { group := 1, code := 12 })
      = { event.create 1 0 { group := 9, code := 0 } none with
          id_queue := { data := [{ group := 1, code := 11 }, { group := 1, code := 12 }],
                        capacity := 2 },
          skipped := 1 }) := by
  decide

/-- C1 fails on the code (evaluation at the failing input): on a fresh event,
with the growth policy of libstdc++, `push_back(a); push_back(b); pop_front();
push_back(c)` leaves `[b, c]` in a plain double-ended sequence, while the
following `emit()` returns after dispatching `c` only. -/
theorem emit_after_queue_ops_differs_from_deque :
    (deque_apply_ops
        [.push_back { group := 1, code := 10 }, .push_back { group := 1, code := 11 },
         .pop_front, .push_back { group := 1, code := 12 }] []
      = some [{ group := 1, code := 11 }, { group := 1, code := 12 }])
    ∧ (((event.create 1 0 { group := 9, code := 0 } none).apply_ops libstdcxx_growth
        [.push_back { group := 1, code := 10 }, .push_back { group := 1, code := 11 },
         .pop_front, .push_back { group := 1, code := 12 }]).map
        (fun ev => ((ev.emit libstdcxx_growth (fun _ => empty_signal) 8).dispatched,
                    (ev.emit libstdcxx_growth (fun _ => empty_signal) 8).returned))
      = some ([{ group := 1, code := 12 }], true)) := by
  decide

/-- C2 fails on the code (evaluation at the failing input): a fresh event onto
which `X` has been pushed (buffer of capacity 1 under libstdc++); the handler
of `X` calls `push_back(Y)`. `emit()` returns having dispatched `X` only: `Y`
sits in the buffer below `skipped` and is never dispatched. -/
theorem emit_misses_identifier_pushed_by_handler :
    (((event.create 1 0 { group := 9, code := 0 } none).push_back libstdcxx_growth
        { group := 1, code := 10 }).emit libstdcxx_growth
        (fun id => if id = { group := 1, code := 10 }
          then fun ev => { ev := ev.push_back libstdcxx_growth { group := 1, code := 11 },
                           raised := none }
          else empty_signal) 8)
    = { ev := { event.create 1 0 { group := 9, code := 0 } none with
                id_queue := { data := [{ group := 1, code := 11 }], capacity := 1 },
                skipped := 1,
                current_id_ := { group := 1, code := 10 } },
        raised := none,
        dispatched := [{ group := 1, code := 10 }],
        returned := true } := by
  decide

end event

/-! ## event: the pending sequence under the queue operations -/

theorem drop_eq_cons_facts {α : Type} (l : List α) (k : Nat) (x d : α) (s : List α)
    (h : l.drop k = x :: s) : k < l.length ∧ l.getD k d = x ∧ l.drop (k + 1) = s := by
  have hk : k < l.length := by
    by_contra hc
    rw [List.drop_eq_nil_of_le (by omega)] at h
    cases h
  refine ⟨hk, ?_, ?_⟩
  · have h0 : (l.drop k)[0]? = some x := by rw [h]; simp
    rw [List.getElem?_drop] at h0
    simp only [Nat.add_zero] at h0
    rw [List.getD_eq_getElem?_getD, h0]
    rfl
  · rw [← List.tail_drop, h]
    rfl

theorem drop_dropLast {α : Type} (l : List α) (k : Nat) :
    (l.dropLast).drop k = (l.drop k).dropLast := by
  rw [List.dropLast_eq_take, List.dropLast_eq_take, List.drop_take, List.length_drop]
  congr 1
  omega

namespace event

theorem normalized_facts (grow : growth) (ev : event) (h : ev.inv) :
    (ev.normalized grow).pending = ev.pending
    ∧ (ev.normalized grow).inv
    ∧ (ev.normalized grow).next_id_queue.data = []
    ∧ (ev.normalized grow).id_queue.data.drop (ev.normalized grow).skipped = ev.pending := by
  have hs := normalize_spec grow ev.id_queue ev.next_id_queue ev.skipped h
  unfold normalized pending inv
  simp only [hs.2.2, List.reverse_nil, List.nil_append]
  exact ⟨hs.1, hs.2.1, trivial, hs.1⟩

theorem normalized_frame (grow : growth) (ev : event) :
    (ev.normalized grow).current_id_ = ev.current_id_
    ∧ (ev.normalized grow).data = ev.data
    ∧ (ev.normalized grow).origin = ev.origin
    ∧ (ev.normalized grow).original_id = ev.original_id
    ∧ (ev.normalized grow).this = ev.this
    ∧ (ev.normalized grow).irc = ev.irc :=
  ⟨rfl, rfl, rfl, rfl, rfl, rfl⟩

theorem range_eq_pending (grow : growth) (ev : event) (h : ev.inv) :
    ev.range grow = ev.pending :=
  range_eq grow ev h

/-- The event on which `emit()` calls the handlers of the first pending
identifier `x`: `current_id` is `x`, the rest of the sequence is pending. -/
theorem taken_facts (grow : growth) (ev : event) (x : event_id) (s : List event_id)
    (h : ev.inv) (hp : ev.pending = x :: s) :
    (ev.taken grow).current_id_ = x
    ∧ (ev.taken grow).pending = s
    ∧ (ev.taken grow).inv
    ∧ (ev.taken grow).next_id_queue.data = []
    ∧ (ev.normalized grow).skipped < (ev.normalized grow).id_queue.size := by
  obtain ⟨_, _, hn, hd⟩ := normalized_facts grow ev h
  rw [hp] at hd
  obtain ⟨hk, hx, hs⟩ := drop_eq_cons_facts _ _ x event_id.none s hd
  refine ⟨hx, ?_, ?_, hn, hk⟩
  · show (ev.normalized grow).next_id_queue.data.reverse
      ++ (ev.normalized grow).id_queue.data.drop ((ev.normalized grow).skipped + 1) = s
    rw [hn, hs]; rfl
  · show (ev.normalized grow).skipped + 1 ≤ (ev.normalized grow).id_queue.data.length
    exact hk

theorem taken_frame (grow : growth) (ev : event) :
    (ev.taken grow).data = ev.data
    ∧ (ev.taken grow).origin = ev.origin
    ∧ (ev.taken grow).original_id = ev.original_id
    ∧ (ev.taken grow).this = ev.this
    ∧ (ev.taken grow).irc = ev.irc :=
  ⟨rfl, rfl, rfl, rfl, rfl⟩

/-- One iteration of the loop of `emit()`. -/
theorem emit_succ (grow : growth) (signals_ : event_id → signal_type) (fuel : Nat) (ev : event) :
    ev.emit grow signals_ (fuel + 1) =
      if (ev.normalized grow).skipped < (ev.normalized grow).id_queue.size then
        match (signals_ (ev.taken grow).current_id_ (ev.taken grow)).raised with
        | some e =>
          { ev := (signals_ (ev.taken grow).current_id_ (ev.taken grow)).ev, raised := some e,
            dispatched := [(ev.taken grow).current_id_], returned := true }
        | none =>
          { ev := (emit grow signals_ fuel
              (signals_ (ev.taken grow).current_id_ (ev.taken grow)).ev).ev,
            raised := (emit grow signals_ fuel
              (signals_ (ev.taken grow).current_id_ (ev.taken grow)).ev).raised,
            dispatched := (ev.taken grow).current_id_ :: (emit grow signals_ fuel
              (signals_ (ev.taken grow).current_id_ (ev.taken grow)).ev).dispatched,
            returned := (emit grow signals_ fuel
              (signals_ (ev.taken grow).current_id_ (ev.taken grow)).ev).returned }
      else { ev := ev.normalized grow, raised := none, dispatched := [], returned := true } := by
  rfl

/-- With nothing pending, `emit()` normalizes and returns. -/
theorem emit_of_pending_nil (grow : growth) (signals_ : event_id → signal_type) (fuel : Nat)
    (ev : event) (h : ev.inv) (hp : ev.pending = []) :
    ev.emit grow signals_ (fuel + 1) =
      { ev := ev.normalized grow, raised := none, dispatched := [], returned := true } := by
  obtain ⟨_, _, _, hd⟩ := normalized_facts grow ev h
  rw [hp] at hd
  have hk : ¬ (ev.normalized grow).skipped < (ev.normalized grow).id_queue.size := by
    intro hc
    have := congrArg List.length hd
    simp only [List.length_drop, List.length_nil] at this
    unfold vector.size at hc
    omega
  rw [emit_succ, if_neg hk]

/-- With `x` first in the pending sequence, `emit()` calls the handlers of `x` on
the event `taken`; if they throw, it stops there. -/
theorem emit_of_pending_cons_raise (grow : growth) (signals_ : event_id → signal_type)
    (fuel : Nat) (ev : event) (x : event_id) (s : List event_id) (e : exception)
    (h : ev.inv) (hp : ev.pending = x :: s)
    (hr : (signals_ x (ev.taken grow)).raised = some e) :
    ev.emit grow signals_ (fuel + 1) =
      { ev := (signals_ x (ev.taken grow)).ev, raised := some e, dispatched := [x],
        returned := true } := by
  obtain ⟨hx, _, _, _, hk⟩ := taken_facts grow ev x s h hp
  rw [emit_succ, if_pos hk, hx, hr]

/-- With `x` first in the pending sequence, `emit()` calls the handlers of `x` on
the event `taken`; if they return, the loop goes on from the event they left. -/
theorem emit_of_pending_cons_ok (grow : growth) (signals_ : event_id → signal_type)
    (fuel : Nat) (ev : event) (x : event_id) (s : List event_id)
    (h : ev.inv) (hp : ev.pending = x :: s)
    (hr : (signals_ x (ev.taken grow)).raised = none) :
    ev.emit grow signals_ (fuel + 1) =
      { ev := (emit grow signals_ fuel (signals_ x (ev.taken grow)).ev).ev,
        raised := (emit grow signals_ fuel (signals_ x (ev.taken grow)).ev).raised,
        dispatched := x :: (emit grow signals_ fuel (signals_ x (ev.taken grow)).ev).dispatched,
        returned := (emit grow signals_ fuel (signals_ x (ev.taken grow)).ev).returned } := by
  obtain ⟨hx, _, _, _, hk⟩ := taken_facts grow ev x s h hp
  rw [emit_succ, if_pos hk, hx, hr]

end event

namespace event

theorem emit_dispatched_head (grow : growth) (signals_ : event_id → signal_type) (fuel : Nat)
    (ev : event) (x : event_id) (s : List event_id) (h : ev.inv) (hp : ev.pending = x :: s) :
    ∃ rest, (ev.emit grow signals_ (fuel + 1)).dispatched = x :: rest := by
  cases hr : (signals_ x (ev.taken grow)).raised with
  | some e =>
    rw [emit_of_pending_cons_raise grow signals_ fuel ev x s e h hp hr]
    exact ⟨[], rfl⟩
  | none =>
    rw [emit_of_pending_cons_ok grow signals_ fuel ev x s h hp hr]
    exact ⟨_, rfl⟩

/-- The call `push_front(id)` turns the pending sequence `s` into `id :: s` in every
state and touches neither the main buffer, the skip count nor `current_id`.
With the skip count within the main buffer, the range `begin()..end()` becomes
`id` followed by the old range, the next dispatch of `emit()` is that of `id`
(handlers see `current_id == id` and the old sequence still pending), and a
handler of `x` that calls `push_front(id)` in the middle of `emit()` makes `id`
the next identifier dispatched after `x`. -/
theorem push_front_prepends (grow : growth) (id : event_id) (ev : event) :
    (ev.push_front grow id).pending = id :: ev.pending
    ∧ (ev.push_front grow id).id_queue = ev.id_queue
    ∧ (ev.push_front grow id).skipped = ev.skipped
    ∧ (ev.push_front grow id).current_id = ev.current_id
    ∧ (ev.push_front grow id).data = ev.data
    ∧ (ev.inv →
        (ev.push_front grow id).inv
        ∧ (ev.push_front grow id).range grow = id :: ev.range grow
        ∧ ((ev.push_front grow id).taken grow).current_id = id
        ∧ ((ev.push_front grow id).taken grow).pending = ev.pending
        ∧ (∀ (signals_ : event_id → signal_type) (fuel : Nat),
            ((ev.push_front grow id).emit grow signals_ (fuel + 1)).dispatched.head? = some id)
        ∧ (∀ (signals_ : event_id → signal_type) (fuel : Nat) (x : event_id)
            (s : List event_id), ev.pending = x :: s →
            (∀ e, signals_ x e = { ev := e.push_front grow id, raised := none }) →
            (ev.emit grow signals_ (fuel + 2)).dispatched.take 2 = [x, id])) := by
  have hpend : ∀ e : event, (e.push_front grow id).pending = id :: e.pending := by
    intro e
    simp [pending, push_front, vector.push_back]
  refine ⟨hpend ev, rfl, rfl, rfl, rfl, ?_⟩
  intro hinv
  have hinv2 : (ev.push_front grow id).inv := hinv
  obtain ⟨hx, hs, _, _, _⟩ := taken_facts grow (ev.push_front grow id) id ev.pending hinv2 (hpend ev)
  refine ⟨hinv2, ?_, hx, hs, ?_, ?_⟩
  · rw [range_eq_pending grow _ hinv2, range_eq_pending grow _ hinv, hpend]
  · intro signals_ fuel
    obtain ⟨rest, hrest⟩ := emit_dispatched_head grow signals_ fuel _ id ev.pending hinv2 (hpend ev)
    rw [hrest]; rfl
  · intro signals_ fuel x s hp hsig
    obtain ⟨_, hts, htinv, _, _⟩ := taken_facts grow ev x s hinv hp
    have hr : (signals_ x (ev.taken grow)).raised = none := by rw [hsig]
    rw [emit_of_pending_cons_ok grow signals_ (fuel + 1) ev x s hinv hp hr]
    have hev : (signals_ x (ev.taken grow)).ev = (ev.taken grow).push_front grow id := by
      rw [hsig]
    have hinv3 : ((ev.taken grow).push_front grow id).inv := htinv
    have hp3 : ((ev.taken grow).push_front grow id).pending = id :: s := by
      rw [hpend, hts]
    obtain ⟨rest, hrest⟩ := emit_dispatched_head grow signals_ fuel _ id s hinv3 hp3
    simp only [hev, hrest]
    rfl

theorem push_front_prepends_witness :
    (({ event.create 1 0 { group := 9, code := 0 } none with
        id_queue := { data := [{ group := 1, code := 10 }, { group := 1, code := 11 }],
                      capacity := 2 },
        skipped := 1 } : event).inv)
    ∧ (({ event.create 1 0 { group := 9, code := 0 } none with
          id_queue := { data := [{ group := 1, code := 10 }, { group := 1, code := 11 }],
                        capacity := 2 },
          skipped := 1 } : event).push_front libstdcxx_growth { group := 1, code := 12 }).range
        libstdcxx_growth
      = { group := 1, code := 12 } ::
        ({ event.create 1 0 { group := 9, code := 0 } none with
          id_queue := { data := [{ group := 1, code := 10 }, { group := 1, code := 11 }],
                        capacity := 2 },
          skipped := 1 } : event).range libstdcxx_growth :=
  ⟨by unfold inv; decide,
   ((push_front_prepends libstdcxx_growth { group := 1, code := 12 }
      { event.create 1 0 { group := 9, code := 0 } none with
        id_queue := { data := [{ group := 1, code := 10 }, { group := 1, code := 11 }],
                      capacity := 2 },
        skipped := 1 }).2.2.2.2.2 (by unfold inv; decide)).2.1⟩

end event

namespace event

/-- C12: on a freshly created event, for every growth policy of the vectors,
`push_back(a); push_back(b); push_front(c)` followed by three rounds of reading
`*begin()` and calling `pop_front()` yields `c`, `a`, `b` and leaves the event
empty. -/
theorem drain_after_pushes (grow : growth) (a b c original_id : event_id) (this irc : Nat)
    (origin : pointer) :
    (drain grow 3
        ((((create this irc original_id origin).push_back grow a).push_back grow b).push_front
          grow c)).map (fun r => (r.1, r.2.is_empty, r.2.size, r.2.pending))
      = some ([c, a, b], true, 0, []) := by
  simp [drain, front, event.begin, normalized, normalize, push_back, push_front, pop_front, create,
    vector.push_back, vector.size, vector.empty, vector.resize, vector.clear, vector.pop_back,
    copy_rev_rev, copy_fwd_rev, is_empty, size, pending, size_type_modulus]

end event

namespace event

/-- C13: with the skip count within the main buffer and `x :: s` pending,
`pop_front()` does not fail and leaves `s` pending, whether `x` is the last
entry of the front-insertion buffer or the entry of the main buffer at the
skip count; it calls no handler (it has no access to the signals) and leaves
`current_id`, `original_id`, `origin` and `data` as they were. -/
theorem pop_front_removes_first (ev : event) (x : event_id) (s : List event_id)
    (hinv : ev.inv) (hp : ev.pending = x :: s) :
    ∃ ev1, ev.pop_front = some ev1
      ∧ ev1.pending = s
      ∧ ev1.inv
      ∧ (∀ grow, ev1.range grow = s)
      ∧ ev1.current_id = ev.current_id
      ∧ ev1.original_id = ev.original_id
      ∧ ev1.origin = ev.origin
      ∧ ev1.data = ev.data := by
  have key : ∃ ev1, ev.pop_front = some ev1 ∧ ev1.pending = s ∧ ev1.inv
      ∧ ev1.current_id = ev.current_id ∧ ev1.original_id = ev.original_id
      ∧ ev1.origin = ev.origin ∧ ev1.data = ev.data := by
    unfold pending at hp
    cases hn : ev.next_id_queue.data.reverse with
    | nil =>
      have hnil : ev.next_id_queue.data = [] := by simpa using hn
      rw [hn, List.nil_append] at hp
      obtain ⟨hk, _, hs⟩ := drop_eq_cons_facts _ _ x event_id.none s hp
      refine ⟨{ ev with skipped := ev.skipped + 1 }, ?_, ?_, hk, rfl, rfl, rfl, rfl⟩
      · unfold pop_front
        simp [hnil, vector.size, hk]
      · unfold pending
        simp only [hnil, List.reverse_nil, List.nil_append]
        exact hs
    | cons y t =>
      have hdata : ev.next_id_queue.data = t.reverse ++ [y] := by
        have := congrArg List.reverse hn
        simpa using this
      rw [hn] at hp
      simp only [List.cons_append, List.cons.injEq] at hp
      refine ⟨{ ev with next_id_queue := ev.next_id_queue.pop_back }, ?_, ?_, hinv,
        rfl, rfl, rfl, rfl⟩
      · unfold pop_front
        simp [hdata]
      · unfold pending
        simp only [vector.pop_back, hdata, List.dropLast_concat, List.reverse_reverse]
        exact hp.2
  obtain ⟨ev1, h1, h2, h3, h4⟩ := key
  exact ⟨ev1, h1, h2, h3, fun grow => by rw [range_eq_pending grow ev1 h3, h2], h4⟩

theorem pop_front_removes_first_witness :
    (({ event.create 1 0 { group := 9, code := 0 } none with
        next_id_queue := { data := [{ group := 1, code := 12 }], capacity := 1 },
        id_queue := { data := [{ group := 1, code := 10 }, { group := 1, code := 11 }],
                      capacity := 2 },
        skipped := 1 } : event).inv)
    ∧ (({ event.create 1 0 { group := 9, code := 0 } none with
        next_id_queue := { data := [{ group := 1, code := 12 }], capacity := 1 },
        id_queue := { data := [{ group := 1, code := 10 }, { group := 1, code := 11 }],
                      capacity := 2 },
        skipped := 1 } : event).pending
      = [{ group := 1, code := 12 }, { group := 1, code := 11 }])
    ∧ ∃ ev1, ({ event.create 1 0 { group := 9, code := 0 } none with
        next_id_queue := { data := [{ group := 1, code := 12 }], capacity := 1 },
        id_queue := { data := [{ group := 1, code := 10 }, { group := 1, code := 11 }],
                      capacity := 2 },
        skipped := 1 } : event).pop_front = some ev1
      ∧ ev1.pending = [{ group := 1, code := 11 }] :=
  ⟨by unfold inv; decide, by decide,
   (pop_front_removes_first _ { group := 1, code := 12 } [{ group := 1, code := 11 }]
      (by unfold inv; decide) (by decide)).imp (fun _ h => ⟨h.1, h.2.1⟩)⟩

/-- C14: with the skip count within the main buffer and `s ++ [x]` pending,
`pop_back()` does not fail and leaves `s` pending, also when the main buffer
has nothing pending and `x` is the oldest entry of the front-insertion buffer
(the buffers are merged first); it calls no handler and leaves `current_id`,
`original_id`, `origin` and `data` as they were. -/
theorem pop_back_removes_last (grow : growth) (ev : event) (x : event_id) (s : List event_id)
    (hinv : ev.inv) (hp : ev.pending = s ++ [x]) :
    ∃ ev1, ev.pop_back grow = some ev1
      ∧ ev1.pending = s
      ∧ ev1.inv
      ∧ ev1.range grow = s
      ∧ ev1.current_id = ev.current_id
      ∧ ev1.original_id = ev.original_id
      ∧ ev1.origin = ev.origin
      ∧ ev1.data = ev.data := by
  have key : ∃ ev1, ev.pop_back grow = some ev1 ∧ ev1.pending = s ∧ ev1.inv
      ∧ ev1.current_id = ev.current_id ∧ ev1.original_id = ev.original_id
      ∧ ev1.origin = ev.origin ∧ ev1.data = ev.data := by
    by_cases hsz : ev.id_queue.size = ev.skipped
    · -- everything pending sits in the front-insertion buffer
      have hdrop : ev.id_queue.data.drop ev.skipped = [] :=
        List.drop_eq_nil_of_le (by unfold vector.size at hsz; omega)
      have hnext : ¬ ev.next_id_queue.data.isEmpty = true := by
        intro hc
        have hnil : ev.next_id_queue.data = [] := by simpa using hc
        unfold pending at hp
        rw [hnil, hdrop] at hp
        simp at hp
      obtain ⟨_, hninv, hnnext, hnd⟩ := normalized_facts grow ev hinv
      rw [hp] at hnd
      have hlt : (ev.normalized grow).skipped < (ev.normalized grow).id_queue.data.length := by
        by_contra hc
        rw [List.drop_eq_nil_of_le (by omega)] at hnd
        simp at hnd
      refine ⟨{ ev.normalized grow with id_queue := (ev.normalized grow).id_queue.pop_back },
        ?_, ?_, ?_, rfl, rfl, rfl, rfl⟩
      · unfold pop_back
        rw [if_pos (Or.inr hnext), if_pos hsz]
      · unfold pending
        simp only [hnnext, List.reverse_nil, List.nil_append, vector.pop_back]
        rw [drop_dropLast, hnd, List.dropLast_concat]
      · show (ev.normalized grow).skipped ≤ ((ev.normalized grow).id_queue.data.dropLast).length
        rw [List.length_dropLast]
        omega
    · have hlt : ev.skipped < ev.id_queue.size := by
        unfold inv at hinv
        omega
      have hne : ev.id_queue.data.drop ev.skipped ≠ [] := by
        intro hc
        have := congrArg List.length hc
        simp only [List.length_drop, List.length_nil] at this
        unfold vector.size at hlt
        omega
      refine ⟨{ ev with id_queue := ev.id_queue.pop_back }, ?_, ?_, ?_, rfl, rfl, rfl, rfl⟩
      · unfold pop_back
        rw [if_pos (Or.inl hlt), if_neg hsz]
      · unfold pending at hp ⊢
        simp only [vector.pop_back]
        rw [drop_dropLast, ← List.dropLast_append_of_ne_nil _ hne, hp, List.dropLast_concat]
      · show ev.skipped ≤ (ev.id_queue.data.dropLast).length
        rw [List.length_dropLast]
        unfold vector.size at hlt
        omega
  obtain ⟨ev1, h1, h2, h3, h4⟩ := key
  exact ⟨ev1, h1, h2, h3, by rw [range_eq_pending grow ev1 h3, h2], h4⟩

theorem pop_back_removes_last_witness :
    (({ event.create 1 0 { group := 9, code := 0 } none with
        next_id_queue := { data := [{ group := 1, code := 12 }, { group := 1, code := 13 }],
                           capacity := 2 },
        id_queue := { data := [{ group := 1, code := 10 }], capacity := 1 },
        skipped := 1 } : event).inv)
    ∧ (({ event.create 1 0 { group := 9, code := 0 } none with
        next_id_queue := { data := [{ group := 1, code := 12 }, { group := 1, code := 13 }],
                           capacity := 2 },
        id_queue := { data := [{ group := 1, code := 10 }], capacity := 1 },
        skipped := 1 } : event).pending
      = [{ group := 1, code := 13 }] ++ [{ group := 1, code := 12 }])
    ∧ ∃ ev1, ({ event.create 1 0 { group := 9, code := 0 } none with
        next_id_queue := { data := [{ group := 1, code := 12 }, { group := 1, code := 13 }],
                           capacity := 2 },
        id_queue := { data := [{ group := 1, code := 10 }], capacity := 1 },
        skipped := 1 } : event).pop_back libstdcxx_growth = some ev1
      ∧ ev1.pending = [{ group := 1, code := 13 }] :=
  ⟨by unfold inv; decide, by decide,
   (pop_back_removes_last libstdcxx_growth _ { group := 1, code := 12 }
      [{ group := 1, code := 13 }]
      (by unfold inv; decide) (by decide)).imp (fun _ h => ⟨h.1, h.2.1⟩)⟩

end event

namespace event

theorem pending_eq_nil_iff (ev : event) :
    ev.pending = [] ↔ ev.next_id_queue.data = [] ∧ ev.id_queue.size ≤ ev.skipped := by
  unfold pending vector.size
  simp [List.drop_eq_nil_iff]

theorem is_empty_iff_pending_nil (ev : event) (hinv : ev.inv) :
    ev.is_empty = true ↔ ev.pending = [] := by
  rw [pending_eq_nil_iff]
  unfold is_empty
  unfold inv at hinv
  simp only [Bool.and_eq_true, decide_eq_true_eq, List.isEmpty_iff]
  constructor
  · intro h; exact ⟨h.2, by omega⟩
  · intro h; exact ⟨by omega, h.1⟩

theorem size_of_inv (ev : event) (hinv : ev.inv)
    (hfit : ev.id_queue.size + ev.next_id_queue.size < size_type_modulus) :
    ev.size = ev.next_id_queue.data.length + (ev.id_queue.data.length - ev.skipped) := by
  unfold inv at hinv
  unfold vector.size at hinv hfit
  unfold size vector.size
  unfold size_type_modulus at hfit ⊢
  omega

/-- The assertions of `pop_front()` and `pop_back()` fail exactly when
nothing is pending, which, with the skip count within the main buffer, is
exactly when `empty()` is true; they are evaluated before any member is
written, so that a failing call leaves the event as it was; on a non-empty
queue neither fails. -/
theorem pop_fails_iff_empty (grow : growth) (ev : event) :
    (ev.pop_front = none ↔ ev.pending = [])
    ∧ (ev.pop_back grow = none ↔ ev.pending = [])
    ∧ (ev.inv →
        (ev.is_empty = true ↔ ev.pending = [])
        ∧ (ev.pop_front = none ↔ ev.is_empty = true)
        ∧ (ev.pop_back grow = none ↔ ev.is_empty = true)
        ∧ (ev.is_empty = false → ∃ ev1 ev2, ev.pop_front = some ev1 ∧ ev.pop_back grow = some ev2))
    ∧ (ev.pop_front = none → ev.pop_front_state = ev)
    ∧ (ev.pop_back grow = none → ev.pop_back_state grow = ev)
    ∧ (∀ ev1, ev.pop_front = some ev1 → ev.pop_front_state = ev1)
    ∧ (∀ ev1, ev.pop_back grow = some ev1 → ev.pop_back_state grow = ev1) := by
  have hfront : ev.pop_front = none ↔ ev.pending = [] := by
    rw [pending_eq_nil_iff]
    unfold pop_front
    by_cases h1 : ev.next_id_queue.data = []
    · by_cases h2 : ev.skipped < ev.id_queue.size
      · simp [h1, h2]
      · simp [h1, h2]; omega
    · simp [h1]
  have hback : ev.pop_back grow = none ↔ ev.pending = [] := by
    rw [pending_eq_nil_iff]
    unfold pop_back
    by_cases h1 : ev.next_id_queue.data = []
    · by_cases h2 : ev.skipped < ev.id_queue.size
      · simp [h1, h2]
      · simp [h1, h2]; omega
    · simp [h1]
  refine ⟨hfront, hback, ?_, ?_, ?_, ?_, ?_⟩
  rotate_left
  · intro h
    unfold pop_front at h
    unfold pop_front_state
    split at h
    · cases h
    · split at h
      · cases h
      · rename_i h1 h2
        rw [if_neg h1, if_neg h2]
  · intro h
    unfold pop_back at h
    unfold pop_back_state
    split at h
    · cases h
    · rename_i h1
      rw [if_neg h1]
  · intro ev1 h
    unfold pop_front at h
    unfold pop_front_state
    split at h
    · rename_i h1
      rw [if_pos h1]
      exact Option.some.inj h
    · split at h
      · rename_i h1 h2
        rw [if_neg h1, if_pos h2]
        exact Option.some.inj h
      · cases h
  · intro ev1 h
    unfold pop_back at h
    unfold pop_back_state
    split at h
    · rename_i h1
      rw [if_pos h1]
      exact Option.some.inj h
    · cases h
  intro hinv
  have hempty : ev.is_empty = true ↔ ev.pending = [] := is_empty_iff_pending_nil ev hinv
  refine ⟨hempty, hfront.trans hempty.symm, hback.trans hempty.symm, ?_⟩
  intro hne
  have hp : ¬ ev.pending = [] := by
    intro hc
    rw [hempty.2 hc] at hne
    cases hne
  have h1 : ev.pop_front ≠ none := fun hc => hp (hfront.1 hc)
  have h2 : ev.pop_back grow ≠ none := fun hc => hp (hback.1 hc)
  obtain ⟨ev1, he1⟩ := Option.ne_none_iff_exists'.1 h1
  obtain ⟨ev2, he2⟩ := Option.ne_none_iff_exists'.1 h2
  exact ⟨ev1, ev2, he1, he2⟩

theorem pop_fails_iff_empty_witness :
    ((event.create 1 0 { group := 9, code := 0 } none).inv)
    ∧ ((event.create 1 0 { group := 9, code := 0 } none).pop_front = none
        ↔ (event.create 1 0 { group := 9, code := 0 } none).is_empty = true) :=
  ⟨by unfold inv; decide,
   ((pop_fails_iff_empty libstdcxx_growth (event.create 1 0 { group := 9, code := 0 } none)).2.2.1
      (by unfold inv; decide)).2.1⟩

/-- C16: with the skip count within the main buffer (and buffer lengths that
fit `size_type`), `size()` is the number of pending identifiers and `empty()`
holds exactly when `size()` is 0; both are computed from the two lengths and
the skip count alone, no buffer and no skip count is written. -/
theorem size_counts_pending (ev : event) (hinv : ev.inv)
    (hfit : ev.id_queue.size + ev.next_id_queue.size < size_type_modulus) :
    ev.size = ev.pending.length
    ∧ ev.size = ev.next_id_queue.data.length + (ev.id_queue.data.length - ev.skipped)
    ∧ (ev.is_empty = true ↔ ev.size = 0) := by
  have hsize := size_of_inv ev hinv hfit
  unfold inv at hinv
  unfold vector.size at hinv hfit
  refine ⟨?_, hsize, ?_⟩
  · rw [hsize]
    unfold pending
    simp
  · rw [hsize]
    unfold is_empty vector.size
    simp only [Bool.and_eq_true, decide_eq_true_eq, List.isEmpty_iff]
    constructor
    · intro h
      rw [h.2, h.1]
      simp
    · intro h
      have h1 : ev.next_id_queue.data.length = 0 := by omega
      exact ⟨by omega, List.length_eq_zero.1 h1⟩

theorem size_counts_pending_witness :
    (({ event.create 1 0 { group := 9, code := 0 } none with
        next_id_queue := { data := [{ group := 1, code := 12 }], capacity := 1 },
        id_queue := { data := [{ group := 1, code := 10 }, { group := 1, code := 11 }],
                      capacity := 2 },
        skipped := 1 } : event).inv)
    ∧ ((2 : Nat) + 1 < size_type_modulus)
    ∧ (({ event.create 1 0 { group := 9, code := 0 } none with
        next_id_queue := { data := [{ group := 1, code := 12 }], capacity := 1 },
        id_queue := { data := [{ group := 1, code := 10 }, { group := 1, code := 11 }],
                      capacity := 2 },
        skipped := 1 } : event).size = 2) :=
  ⟨by unfold inv; decide, by decide,
   (size_counts_pending
      { event.create 1 0 { group := 9, code := 0 } none with
        next_id_queue := { data := [{ group := 1, code := 12 }], capacity := 1 },
        id_queue := { data := [{ group := 1, code := 10 }, { group := 1, code := 11 }],
                      capacity := 2 },
        skipped := 1 }
      (by unfold inv; decide)
      (by decide)).1⟩

end event

/-! ## event: spawn -/

theorem deref_append_of_some (alive : List event) (n e : event) (p : pointer)
    (h : deref alive p = some e) : deref (alive ++ [n]) p = some e := by
  cases p with
  | none => simp [deref] at h
  | some addr =>
    simp only [deref] at h ⊢
    rw [List.find?_append, h]
    rfl

theorem deref_append_of_none (alive : List event) (n : event) (addr : event_ptr)
    (h : deref alive (some addr) = none) (hn : n.this = addr) :
    deref (alive ++ [n]) (some addr) = some n := by
  simp only [deref] at h ⊢
  rw [List.find?_append, h]
  simp [hn]

namespace event

/-- C17: `a.spawn(id)` returns a new event whose `origin` points to `a`, whose
`original_id` and `current_id` are `id`, whose pending queue is empty and
which belongs to the context of `a`; following `origin` twice from
`a.spawn(id).spawn(id2)` leads to `a`; and the object at the address of `a` is
still `a` after both spawns (queue, `size()`, `current_id` and `data`
included). The new events are built at addresses not in use. -/
theorem spawn_links_origin (alive : List event) (a : event) (id id2 : event_id)
    (addr1 addr2 : event_ptr)
    (ha : deref alive (some a.this) = some a)
    (hfree1 : deref alive (some addr1) = none)
    (hfree2 : deref (a.spawn_in alive addr1 id).1 (some addr2) = none) :
    deref (a.spawn_in alive addr1 id).1 (a.spawn_in alive addr1 id).2 = some (a.spawn addr1 id)
    ∧ (a.spawn addr1 id).origin = some a.this
    ∧ deref (a.spawn_in alive addr1 id).1 (a.spawn addr1 id).origin = some a
    ∧ (a.spawn addr1 id).original_id = id
    ∧ (a.spawn addr1 id).current_id = id
    ∧ (a.spawn addr1 id).irc = a.irc
    ∧ (a.spawn addr1 id).pending = []
    ∧ (a.spawn addr1 id).size = 0
    ∧ (a.spawn addr1 id).is_empty = true
    ∧ (∀ grow, (a.spawn addr1 id).range grow = [])
    ∧ deref (a.spawn_in alive addr1 id).1 (some a.this) = some a
    ∧ (deref ((a.spawn addr1 id).spawn_in (a.spawn_in alive addr1 id).1 addr2 id2).1
          ((a.spawn addr1 id).spawn_in (a.spawn_in alive addr1 id).1 addr2 id2).2).bind
        (fun c =>
          (deref ((a.spawn addr1 id).spawn_in (a.spawn_in alive addr1 id).1 addr2 id2).1
            c.origin).bind
          (fun b =>
            deref ((a.spawn addr1 id).spawn_in (a.spawn_in alive addr1 id).1 addr2 id2).1
              b.origin))
        = some a
    ∧ deref ((a.spawn addr1 id).spawn_in (a.spawn_in alive addr1 id).1 addr2 id2).1
        (some a.this) = some a := by
  have hb : deref (alive ++ [a.spawn addr1 id]) (some addr1) = some (a.spawn addr1 id) :=
    deref_append_of_none alive _ addr1 hfree1 rfl
  have ha1 : deref (alive ++ [a.spawn addr1 id]) (some a.this) = some a :=
    deref_append_of_some alive _ a _ ha
  have hc : deref (alive ++ [a.spawn addr1 id] ++ [(a.spawn addr1 id).spawn addr2 id2])
      (some addr2) = some ((a.spawn addr1 id).spawn addr2 id2) :=
    deref_append_of_none _ _ addr2 hfree2 rfl
  have hb2 : deref (alive ++ [a.spawn addr1 id] ++ [(a.spawn addr1 id).spawn addr2 id2])
      (some addr1) = some (a.spawn addr1 id) :=
    deref_append_of_some _ _ _ _ hb
  have ha2 : deref (alive ++ [a.spawn addr1 id] ++ [(a.spawn addr1 id).spawn addr2 id2])
      (some a.this) = some a :=
    deref_append_of_some _ _ _ _ ha1
  refine ⟨hb, rfl, ha1, rfl, rfl, rfl, rfl, ?_, rfl, ?_, ha1, ?_, ha2⟩
  · simp [size, spawn, create, vector.size, vector.empty, size_type_modulus]
  · intro grow
    have hinv : (a.spawn addr1 id).inv := Nat.zero_le _
    rw [range_eq_pending grow _ hinv]
    rfl
  · show (deref (alive ++ [a.spawn addr1 id] ++ [(a.spawn addr1 id).spawn addr2 id2])
      (some addr2)).bind _ = some a
    rw [hc]
    show (deref (alive ++ [a.spawn addr1 id] ++ [(a.spawn addr1 id).spawn addr2 id2])
      (some addr1)).bind _ = some a
    rw [hb2]
    exact ha2

theorem spawn_links_origin_witness :
    (deref [event.create 1 0 { group := 9, code := 0 } none] (some 1)
      = some (event.create 1 0 { group := 9, code := 0 } none))
    ∧ (deref [event.create 1 0 { group := 9, code := 0 } none] (some 2) = none)
    ∧ (deref ((event.create 1 0 { group := 9, code := 0 } none).spawn_in
          [event.create 1 0 { group := 9, code := 0 } none] 2 { group := 1, code := 10 }).1
        (some 3) = none)
    ∧ (deref ((event.create 1 0 { group := 9, code := 0 } none).spawn_in
          [event.create 1 0 { group := 9, code := 0 } none] 2 { group := 1, code := 10 }).1
        ((event.create 1 0 { group := 9, code := 0 } none).spawn 2
          { group := 1, code := 10 }).origin
      = some (event.create 1 0 { group := 9, code := 0 } none)) :=
  ⟨by decide, by decide, by decide,
   (spawn_links_origin [event.create 1 0 { group := 9, code := 0 } none]
      (event.create 1 0 { group := 9, code := 0 } none)
      { group := 1, code := 10 } { group := 1, code := 11 } 2 3
      (by decide) (by decide) (by decide)).2.2.1⟩

end event

/-! ## event: emit -/

namespace event

theorem pending_of_queue_eq (e1 e2 : event) (h1 : e1.next_id_queue = e2.next_id_queue)
    (h2 : e1.id_queue = e2.id_queue) (h3 : e1.skipped = e2.skipped) :
    e1.pending = e2.pending ∧ (e2.inv → e1.inv) := by
  unfold pending inv
  rw [h1, h2, h3]
  exact ⟨rfl, fun h => h⟩

/-- With handlers that leave the queue alone and do not throw, `emit()` started
with the skip count within the main buffer dispatches exactly the pending
sequence, in order, and returns with nothing pending, `empty()` true and
`current_id` the last identifier dispatched (unchanged if there was none);
a fuel above the number of pending identifiers is enough. -/
theorem emit_dispatches_pending (grow : growth) (signals_ : event_id → signal_type)
    (hq : ∀ id, keeps_queue (signals_ id)) (hnr : ∀ id e, (signals_ id e).raised = none)
    (p : List event_id) :
    ∀ (ev : event) (fuel : Nat), ev.inv → ev.pending = p → p.length < fuel →
      (ev.emit grow signals_ fuel).dispatched = p
      ∧ (ev.emit grow signals_ fuel).raised = none
      ∧ (ev.emit grow signals_ fuel).returned = true
      ∧ (ev.emit grow signals_ fuel).ev.pending = []
      ∧ (ev.emit grow signals_ fuel).ev.inv
      ∧ (ev.emit grow signals_ fuel).ev.is_empty = true
      ∧ (ev.emit grow signals_ fuel).ev.current_id = p.getLastD ev.current_id := by
  induction p with
  | nil =>
    intro ev fuel hinv hp hfuel
    obtain ⟨f, rfl⟩ : ∃ f, fuel = f + 1 := ⟨fuel - 1, by omega⟩
    rw [emit_of_pending_nil grow signals_ f ev hinv hp]
    obtain ⟨hnp, hninv, _, _⟩ := normalized_facts grow ev hinv
    rw [hp] at hnp
    exact ⟨rfl, rfl, rfl, hnp, hninv, (is_empty_iff_pending_nil _ hninv).2 hnp, rfl⟩
  | cons x s ih =>
    intro ev fuel hinv hp hfuel
    obtain ⟨f, rfl⟩ : ∃ f, fuel = f + 1 := ⟨fuel - 1, by omega⟩
    obtain ⟨hx, hs, htinv, _, _⟩ := taken_facts grow ev x s hinv hp
    rw [emit_of_pending_cons_ok grow signals_ f ev x s hinv hp (hnr _ _)]
    obtain ⟨k1, k2, k3, k4⟩ := hq x (ev.taken grow)
    obtain ⟨hop, hoinv⟩ := pending_of_queue_eq _ _ k1 k2 k3
    have hlen : s.length < f := by simp only [List.length_cons] at hfuel; omega
    obtain ⟨i1, i2, i3, i4, i5, i6, i7⟩ :=
      ih (signals_ x (ev.taken grow)).ev f (hoinv htinv) (hop.trans hs) hlen
    refine ⟨by rw [i1], i2, i3, i4, i5, i6, ?_⟩
    show (emit grow signals_ f (signals_ x (ev.taken grow)).ev).ev.current_id = _
    rw [i7, List.getLastD_cons]
    show s.getLastD (signals_ x (ev.taken grow)).ev.current_id_ = _
    rw [k4, hx]

/-- C18 fails on the code (evaluation at the failing input): on a fresh event,
with the growth policy of libstdc++, after `push_back` of `a`, `b`, `c`, `d`,
three `pop_front()` and `push_back(e)` a plain double-ended sequence holds
`[d, e]`; the code holds `id_queue == [d, e]` with `skipped == 3`, and `emit()`
returns without any dispatch, with `empty()` false and `size()` wrapped
around to `2^64 - 1`. -/
theorem emit_after_compaction_skips_all :
    (deque_apply_ops
        [.push_back { group := 1, code := 10 }, .push_back { group := 1, code := 11 },
         .push_back { group := 1, code := 12 }, .push_back { group := 1, code := 13 },
         .pop_front, .pop_front, .pop_front, .push_back { group := 1, code := 14 }] []
      = some [{ group := 1, code := 13 }, { group := 1, code := 14 }])
    ∧ (((event.create 1 0 { group := 9, code := 0 } none).apply_ops libstdcxx_growth
        [.push_back { group := 1, code := 10 }, .push_back { group := 1, code := 11 },
         .push_back { group := 1, code := 12 }, .push_back { group := 1, code := 13 },
         .pop_front, .pop_front, .pop_front, .push_back { group := 1, code := 14 }]).map
        (fun ev => (ev.id_queue.data, ev.skipped))
      = some ([{ group := 1, code := 13 }, { group := 1, code := 14 }], 3))
    ∧ (((event.create 1 0 { group := 9, code := 0 } none).apply_ops libstdcxx_growth
        [.push_back { group := 1, code := 10 }, .push_back { group := 1, code := 11 },
         .push_back { group := 1, code := 12 }, .push_back { group := 1, code := 13 },
         .pop_front, .pop_front, .pop_front, .push_back { group := 1, code := 14 }]).map
        (fun ev => ((ev.emit libstdcxx_growth (fun _ => empty_signal) 8).dispatched,
                    (ev.emit libstdcxx_growth (fun _ => empty_signal) 8).returned,
                    (ev.emit libstdcxx_growth (fun _ => empty_signal) 8).ev.is_empty,
                    (ev.emit libstdcxx_growth (fun _ => empty_signal) 8).ev.size))
      = some ([], true, false, 2 ^ 64 - 1)) := by
  decide

end event

/-! ## connect: the scope of the connection handle -/

namespace unordered_map

variable {K V : Type} [DecidableEq K]

theorem find_erase (m : unordered_map K V) (k k2 : K) :
    find (erase m k) k2 = if k = k2 then none else find m k2 := by
  induction m with
  | nil => simp [erase, find]
  | cons p r ih =>
    obtain ⟨k1, v1⟩ := p
    unfold erase at ih ⊢
    rw [List.filter_cons]
    by_cases h1 : k1 = k
    · have hd : decide ((k1, v1).1 ≠ k) = false := by simp [h1]
      rw [hd]
      simp only [Bool.false_eq_true, if_false]
      rw [ih]
      subst h1
      by_cases h2 : k1 = k2 <;> simp [find, h2]
    · have hd : decide ((k1, v1).1 ≠ k) = true := by simp [h1]
      rw [hd]
      simp only [if_true]
      by_cases h2 : k1 = k2
      · subst h2
        have h3 : ¬ k = k1 := fun e => h1 e.symm
        simp [find, h3]
      · simp only [find, h2, if_false]
        exact ih

end unordered_map

namespace component_map

variable {V : Type}

theorem find_emplaced (c : unordered_map type_index (Option V)) (T T2 : type_index) (v : V) :
    ((c.subscript T none).assign T (some v)).find T2
      = if T = T2 then some (some v) else c.find T2 := by
  rw [unordered_map.find_assign]
  by_cases h : T = T2
  · subst h
    obtain ⟨a, ha⟩ := find_subscript_self c T
    simp [ha]
  · rw [if_neg h, if_neg h, find_subscript_ne _ _ _ (Ne.symm h)]

end component_map

theorem event_scoped_connection_create_eq (ev : event) (connection : connection_type) :
    event_scoped_connection.create ev connection =
      { ev := { ev with data :=
          { content_ := (ev.data.content_.subscript connection_typeid none).assign
              connection_typeid (some connection) } },
        raised := none } := by
  unfold event_scoped_connection.create component_map.insert
  rw [component_map.emplace_ok connection_typeid Except.ok connection connection ev.data rfl]

/-! ## connect: what can be instantiated and what runs to completion -/

/-- Both traits are `false_type` for every handler type. -/
theorem is_callable_never (Func : handler_class) :
    is_callable_with_connection Func = false ∧ is_callable_without_connection Func = false :=
  ⟨rfl, rfl⟩

/-- The lambda of `irc::connect` is ill-formed for every handler type: the
`static_assert` of its second branch fails. -/
theorem connect_callback_ill_formed (Func : handler_class)
    (f : event → connection_type → outcome) :
    connect_callback Func f = .error .ill_formed :=
  rfl

theorem irc_connect_ill_formed (Func : handler_class) (f : event → connection_type → outcome)
    (group : slot_group) (position : connect_position) (connection : connection_type)
    (chain : List slot) :
    irc.connect Func f group position connection chain = .error .ill_formed :=
  rfl

/-- The destructor of the scope object never completes: its call of
`erase<connection_type>()` flows off the end of that function. -/
theorem destroy_undefined (ev : event) :
    event_scoped_connection.destroy ev = .error .undefined :=
  rfl

/-- A run of the body of the lambda reaches the destructor of the scope object
whatever the handler does, and ends there. -/
theorem callback_body_undefined (f : event → connection_type → outcome) (ev : event)
    (connection : connection_type) :
    callback_body f ev connection = .error .undefined := by
  unfold callback_body
  rw [event_scoped_connection_create_eq]
  rfl

/-- C20 fails on the code (evaluation at the failing input): a handler
`f(event&, connection_type)` that looks its own connection up with
`at<connection_type>()`, connected with connection 11. `irc::connect` cannot
be instantiated for it: both traits are `false_type`, `if constexpr` takes
the second branch and the `static_assert` fails. In a run of the body of the
lambda the scope object does register the connection, the handler finds it
and returns; the destructor of the scope object then calls
`erase<connection_type>()`, which flows off its end, so that the run has no
state "immediately after the handler returns". -/
theorem own_connection_lookup_never_completes :
    irc.connect ⟨true, false⟩ handler_checking_own_connection (.position .at_back) .at_back 11 []
      = .error .ill_formed
    ∧ (event_scoped_connection.create (event.create 1 0 ⟨9, 0⟩ none) 11).raised = none
    ∧ (event_scoped_connection.create (event.create 1 0 ⟨9, 0⟩ none) 11).ev.data.at_
        connection_typeid = .ok 11
    ∧ (handler_checking_own_connection
        (event_scoped_connection.create (event.create 1 0 ⟨9, 0⟩ none) 11).ev 11).raised = none
    ∧ ((handler_checking_own_connection
        (event_scoped_connection.create (event.create 1 0 ⟨9, 0⟩ none) 11).ev
          11).ev.data.erase_call connection_typeid).2 = none
    ∧ event_scoped_connection.destroy
        (handler_checking_own_connection
          (event_scoped_connection.create (event.create 1 0 ⟨9, 0⟩ none) 11).ev 11).ev
      = .error .undefined
    ∧ callback_body handler_checking_own_connection (event.create 1 0 ⟨9, 0⟩ none) 11
      = .error .undefined :=
  ⟨rfl, rfl, rfl, rfl, rfl, rfl, rfl⟩

/-! ## component_map: at, erase and at_or_emplace -/

namespace component_map

variable {V A : Type}

/-- C22: `at<T>()` throws `std::out_of_range`, and nothing else, when the map
has no element of type `T`, and returns the stored object when it has one; in
a map satisfying the class invariant it throws exactly when no `T` is stored
and never `std::bad_any_cast`. The lookup is `content_.at(...)`, which
inserts nothing: the function reads the map and returns only the result. -/
theorem at_fails_iff_absent (T : type_index) (m : component_map V) :
    (m.content_.find T = none → m.at_ T = .error .out_of_range)
    ∧ (∀ v, m.content_.find T = some (some v) → m.at_ T = .ok v)
    ∧ (m.wf →
        (m.at_ T = .error .out_of_range ↔ m.content_.find T = none)
        ∧ m.at_ T ≠ .error .bad_any_cast
        ∧ (m.content_.find T ≠ none → ∃ v, m.at_ T = .ok v ∧ (T, some v) ∈ m.content_)) := by
  refine ⟨fun h => by simp [at_, h], fun v h => by simp [at_, h], ?_⟩
  intro hwf
  cases hf : m.content_.find T with
  | none => simp [at_, hf]
  | some a =>
    cases a with
    | none =>
      have := hwf.2 _ (unordered_map.mem_of_find _ _ _ hf)
      simp at this
    | some v =>
      refine ⟨by simp [at_, hf], by simp [at_, hf], fun _ => ⟨v, by simp [at_, hf], ?_⟩⟩
      exact unordered_map.mem_of_find _ _ _ hf

theorem at_fails_iff_absent_witness :
    (wf ({ content_ := [(3, some 7), (5, some 1)] } : component_map Nat))
    ∧ ((({ content_ := [(3, some 7), (5, some 1)] } : component_map Nat).at_ 4
          = .error .out_of_range)
        ↔ ({ content_ := [(3, some 7), (5, some 1)] } : component_map Nat).content_.find 4 = none) :=
  ⟨by simp [wf],
   ((at_fails_iff_absent 4 ({ content_ := [(3, some 7), (5, some 1)] } : component_map Nat)).2.2
      (by simp [wf])).1⟩

/-- C23 fails on the code (evaluation at the failing inputs): `erase<T>()` on a
map that holds a `T`, and on one that does not, removes the element but
returns no value: its body has no `return` statement, although the function
is declared `bool` and documented to return whether an object was removed. -/
theorem erase_returns_no_value :
    (erase_call 3 ({ content_ := [(3, some 7), (5, some 1)] } : component_map Nat)
      = ({ content_ := [(5, some 1)] }, none))
    ∧ (erase_call 4 ({ content_ := [(3, some 7), (5, some 1)] } : component_map Nat)
      = ({ content_ := [(3, some 7), (5, some 1)] }, none))
    ∧ (∀ (T : type_index) (m : component_map Nat), (erase_call T m).2 = none) :=
  ⟨by decide, by decide, fun _ _ => rfl⟩

/-- What the statement in the body of `erase<T>()` does to the map: in the map
it leaves `at<T>()` throws `std::out_of_range` and the elements of the other
types are unchanged. -/
theorem erase_removes (T : type_index) (m : component_map V) :
    (erase_call T m).1.at_ T = .error .out_of_range
    ∧ (∀ T2, T2 ≠ T → (erase_call T m).1.content_.find T2 = m.content_.find T2) := by
  constructor
  · simp only [at_, erase_call]
    rw [unordered_map.find_erase, if_pos rfl]
  · intro T2 h
    simp only [erase_call]
    rw [unordered_map.find_erase, if_neg (Ne.symm h)]

/-- C24: `at_or_emplace<T>(args...)` returns the stored `T` and leaves the map
as it is when a `T` is present, whatever the constructor and its arguments
(nothing is constructed); when none is present it is `emplace<T>(args...)`,
of which it has the rollback: a throwing constructor leaves the map as it
was. -/
theorem at_or_emplace_spec (T : type_index) (ctor : A → Except exception V) (args : A)
    (m : component_map V) :
    (∀ v, m.content_.find T = some (some v) →
        m.at_or_emplace T ctor args = (m, .ok v)
        ∧ ∀ (B : Type) (ctor2 : B → Except exception V) (args2 : B),
            m.at_or_emplace T ctor2 args2 = m.at_or_emplace T ctor args)
    ∧ (m.content_.find T = none → m.at_or_emplace T ctor args = m.emplace T ctor args)
    ∧ (m.wf → m.content_.find T = none → ∀ e, ctor args = .error e →
        m.at_or_emplace T ctor args = (m, .error e))
    ∧ (m.wf → m.content_.find T ≠ none → ∃ v, m.at_or_emplace T ctor args = (m, .ok v)) := by
  refine ⟨?_, ?_, ?_, ?_⟩
  · intro v h
    refine ⟨by simp [at_or_emplace, at_, h], fun B ctor2 args2 => ?_⟩
    simp [at_or_emplace, h]
  · intro h
    simp [at_or_emplace, h]
  · intro hwf h e he
    simp only [at_or_emplace, h]
    exact emplace_error T ctor args e m hwf he
  · intro hwf h
    cases hf : m.content_.find T with
    | none => exact absurd hf h
    | some a =>
      cases a with
      | none =>
        have := hwf.2 _ (unordered_map.mem_of_find _ _ _ hf)
        simp at this
      | some v => exact ⟨v, by simp [at_or_emplace, at_, hf]⟩

theorem at_or_emplace_spec_witness :
    (({ content_ := [(3, some 7), (5, some 1)] } : component_map Nat).content_.find 3
      = some (some 7))
    ∧ (({ content_ := [(3, some 7), (5, some 1)] } : component_map Nat).at_or_emplace 3
        (fun (n : Nat) => (Except.ok (n + 1) : Except exception Nat)) 8
      = ({ content_ := [(3, some 7), (5, some 1)] }, .ok 7)) :=
  ⟨by decide,
   ((at_or_emplace_spec 3 (fun (n : Nat) => (Except.ok (n + 1) : Except exception Nat)) 8
      ({ content_ := [(3, some 7), (5, some 1)] } : component_map Nat)).1 7 (by decide)).1⟩

end component_map

/-! ## irc: unload_module, the two forms of module, the choice of load_module -/

namespace irc

variable {A : Type}

theorem module_after_erase (s : irc) (k k2 : type_index) (d : List module_base) :
    ({ s with modules_ := s.modules_.erase k, destroyed_ := d } : irc).module k2
      = if k = k2 then none else s.module k2 := by
  unfold module
  simp only [unordered_map.find_erase]
  by_cases h : k = k2 <;> simp [h]

/-- What `unload_module(type)` does: it returns `true` exactly when the registry
has an element under the key (be its pointer null or not); then the element
is erased, the object deleted, and the other keys are untouched; otherwise
the registry is unchanged. -/
theorem unload_module_spec (type : type_index) (s : irc) :
    ((s.unload_module type).2 = true ↔ s.modules_.find type ≠ none)
    ∧ ((s.unload_module type).2 = true →
        (s.unload_module type).1.module type = none
        ∧ (s.unload_module type).1.destroyed_ = deleted (s.module type) s.destroyed_
        ∧ ∀ k, k ≠ type → (s.unload_module type).1.module k = s.module k)
    ∧ ((s.unload_module type).2 = false → (s.unload_module type).1 = s) := by
  unfold unload_module
  cases hf : s.modules_.find type with
  | none => simp
  | some modptr =>
    simp only [ne_eq, not_false_eq_true, reduceCtorEq, iff_true, true_implies,
      Bool.true_eq_false, false_implies, and_true, true_and]
    refine ⟨?_, ?_, ?_⟩
    · rw [module_after_erase, if_pos rfl]
    · simp only [module, hf]
    · intro k hk
      rw [module_after_erase, if_neg (Ne.symm hk)]

/-- What `unload_module<Module>()` does: it returns `true` exactly when an object
is stored under the key of `Module` and `dynamic_cast<Module*>` accepts it;
then the element is erased and the object deleted; otherwise the registry is
unchanged. -/
theorem unload_module_typed_spec (is_base_of : hierarchy) (M : module_class) (s : irc) :
    ((s.unload_module_typed is_base_of M).2 = true ↔
        ∃ obj, s.module M.slirc_module_type = some obj ∧ is_base_of M.id obj.dyn_type = true)
    ∧ ((s.unload_module_typed is_base_of M).2 = true →
        (s.unload_module_typed is_base_of M).1.module M.slirc_module_type = none
        ∧ (s.unload_module_typed is_base_of M).1.module_ptr is_base_of M = none
        ∧ (s.unload_module_typed is_base_of M).1.destroyed_
            = deleted (s.module M.slirc_module_type) s.destroyed_
        ∧ ∀ k, k ≠ M.slirc_module_type →
            (s.unload_module_typed is_base_of M).1.module k = s.module k)
    ∧ ((s.unload_module_typed is_base_of M).2 = false →
        (s.unload_module_typed is_base_of M).1 = s) := by
  unfold unload_module_typed
  cases hf : s.modules_.find M.slirc_module_type with
  | none => simp [module, hf]
  | some modptr =>
    cases modptr with
    | none => simp [module, hf, dynamic_cast]
    | some obj =>
      have hmod : s.module M.slirc_module_type = some obj := by simp [module, hf]
      by_cases hb : is_base_of M.id obj.dyn_type = true
      · have heq : (match s.modules_.find M.slirc_module_type with
            | some modptr =>
              if (dynamic_cast is_base_of M.id modptr).isSome = true then
                (({ s with modules_ := s.modules_.erase M.slirc_module_type,
                           destroyed_ := deleted modptr s.destroyed_ } : irc), true)
              else (s, false)
            | none => (s, false))
            = (({ s with modules_ := s.modules_.erase M.slirc_module_type,
                         destroyed_ := deleted (some obj) s.destroyed_ } : irc), true) := by
          simp [hf, dynamic_cast, hb]
        rw [← hf, heq]
        have hk := module_after_erase s M.slirc_module_type M.slirc_module_type
          (deleted (some obj) s.destroyed_)
        simp only [if_true] at hk
        refine ⟨⟨fun _ => ⟨obj, hmod, hb⟩, fun _ => rfl⟩, fun _ => ⟨hk, ?_, ?_, ?_⟩,
          (fun h => by cases h)⟩
        · simp only [module_ptr, hk, dynamic_cast]
        · show deleted (some obj) s.destroyed_ = _
          rw [hmod]
        · intro k hk2
          rw [module_after_erase, if_neg (Ne.symm hk2)]
      · have heq : (match s.modules_.find M.slirc_module_type with
            | some modptr =>
              if (dynamic_cast is_base_of M.id modptr).isSome = true then
                (({ s with modules_ := s.modules_.erase M.slirc_module_type,
                           destroyed_ := deleted modptr s.destroyed_ } : irc), true)
              else (s, false)
            | none => (s, false))
            = (s, false) := by
          simp [hf, dynamic_cast, hb]
        rw [← hf, heq]
        refine ⟨⟨(fun h => by cases h), ?_⟩, (fun h => by cases h), fun _ => rfl⟩
        rintro ⟨o, ho, hbo⟩
        rw [hmod] at ho
        cases ho
        exact absurd hbo hb

/-- C25 fails on the code (evaluation at the failing input): in a fresh context
a `load_module` whose constructor throws leaves the key mapped to a null
pointer; no module is stored (`module(key)` is null, the typed unload
returns `false`), yet `unload_module(key)` returns `true`. -/
theorem unload_after_failed_load_returns_true :
    (((irc.create 0).load_module
        { id := 1, slirc_module_type := 1, is_abstract := false,
          slirc_default_implementation := none }
        (fun (_ : Unit) => (Except.error (exception.other 1) : Except exception Nat)) ()).1.modules_
      = [(1, none)])
    ∧ (((irc.create 0).load_module
        { id := 1, slirc_module_type := 1, is_abstract := false,
          slirc_default_implementation := none }
        (fun (_ : Unit) => (Except.error (exception.other 1) : Except exception Nat)) ()).1.module 1
      = none)
    ∧ (((irc.create 0).load_module
        { id := 1, slirc_module_type := 1, is_abstract := false,
          slirc_default_implementation := none }
        (fun (_ : Unit) => (Except.error (exception.other 1) : Except exception Nat)) ()).1.unload_module
        1
      = (irc.create 0, true))
    ∧ ((((irc.create 0).load_module
        { id := 1, slirc_module_type := 1, is_abstract := false,
          slirc_default_implementation := none }
        (fun (_ : Unit) => (Except.error (exception.other 1) : Except exception Nat)) ()).1.unload_module_typed
        (fun a b => decide (a = b))
        { id := 1, slirc_module_type := 1, is_abstract := false,
          slirc_default_implementation := none }).2
      = false) :=
  ⟨rfl, rfl, rfl, rfl⟩

/-- C26 as amended: `module<M>()` throws `std::out_of_range` exactly when
`module<M*>()` returns null and otherwise returns the object that
`module<M*>()` returns; `module<M*>()` returns null exactly when no object is
stored under the key of `M` (no element, or a null pointer) or
`dynamic_cast<M*>` rejects the dynamic type of the stored object, which is
then neither `M` nor a class derived from `M` (`is_base_of M.id` is false on
it). Both forms read the registry through `find` and return only their
result. -/
theorem module_forms_agree (is_base_of : hierarchy) (M : module_class) (s : irc) :
    (s.module_ref is_base_of M = .error .out_of_range ↔ s.module_ptr is_base_of M = none)
    ∧ (∀ obj, s.module_ptr is_base_of M = some obj ↔ s.module_ref is_base_of M = .ok obj)
    ∧ (∀ e, s.module_ref is_base_of M = .error e → e = .out_of_range)
    ∧ (s.module_ptr is_base_of M = none ↔
        (s.module M.slirc_module_type = none
          ∨ ∃ obj, s.module M.slirc_module_type = some obj
              ∧ is_base_of M.id obj.dyn_type = false))
    ∧ (∀ obj, s.module_ptr is_base_of M = some obj →
        s.module M.slirc_module_type = some obj ∧ is_base_of M.id obj.dyn_type = true)
    ∧ (s.module M.slirc_module_type = none ↔
        (s.modules_.find M.slirc_module_type = none
          ∨ s.modules_.find M.slirc_module_type = some none)) := by
  refine ⟨?_, ?_, ?_, ?_, ?_, ?_⟩
  · unfold module_ref
    cases s.module_ptr is_base_of M <;> simp
  · intro obj
    unfold module_ref
    cases s.module_ptr is_base_of M <;> simp
  · intro e
    unfold module_ref
    cases s.module_ptr is_base_of M with
    | none => intro h; cases h; rfl
    | some o => intro h; cases h
  · unfold module_ptr dynamic_cast
    cases hm : s.module M.slirc_module_type with
    | none => simp
    | some o =>
      by_cases hb : is_base_of M.id o.dyn_type = true
      · simp [hb]
      · simp [hb]
  · intro obj
    unfold module_ptr dynamic_cast
    cases hm : s.module M.slirc_module_type with
    | none => simp
    | some o =>
      by_cases hb : is_base_of M.id o.dyn_type = true
      · simp only [hb, if_true, Option.some.injEq]
        intro h
        subst h
        exact ⟨rfl, hb⟩
      · simp [hb]
  · unfold module
    cases hf : s.modules_.find M.slirc_module_type with
    | none => simp
    | some p => cases p <;> simp

theorem module_forms_agree_witness :
    (({ irc.create 0 with modules_ := [(1, some { addr := 100, dyn_type := 2 })] } : irc).module_ptr
        (fun (a b : type_index) => decide (a = b ∨ (a = 1 ∧ b = 2)))
        { id := 1, slirc_module_type := 1, is_abstract := true,
          slirc_default_implementation := some 2 }
      = some { addr := 100, dyn_type := 2 })
    ∧ (({ irc.create 0 with modules_ := [(1, some { addr := 100, dyn_type := 2 })] } : irc).module_ref
        (fun (a b : type_index) => decide (a = b ∨ (a = 1 ∧ b = 2)))
        { id := 1, slirc_module_type := 1, is_abstract := true,
          slirc_default_implementation := some 2 }
      = .ok { addr := 100, dyn_type := 2 }) :=
  ⟨by decide,
   ((module_forms_agree (fun (a b : type_index) => decide (a = b ∨ (a = 1 ∧ b = 2)))
      { id := 1, slirc_module_type := 1, is_abstract := true,
        slirc_default_implementation := some 2 }
      { irc.create 0 with modules_ := [(1, some { addr := 100, dyn_type := 2 })] }).2.1
      { addr := 100, dyn_type := 2 }).1 (by decide)⟩

end irc

namespace irc

variable {A B : Type}

/-- C27: `load_module<M>` constructs `M` itself when `M` is concrete and the
class `D` named by `SLIRC_DEFAULT_IMPLEMENTATION` when `M` is abstract and
declares it, and stores the object under the key `M::slirc_module_type`.
Hence, for an abstract interface `I` with default `D` and a concrete class `C`
with the same key, loading `I` stores a `D`, and loading `C` afterwards
deletes that `D` and stores a `C` under the same key. -/
theorem load_module_choice (I C : module_class) (D : type_index)
    (ctorD : A → Except exception Nat) (argsD : A) (addrD : Nat)
    (ctorC : B → Except exception Nat) (argsC : B) (addrC : Nat) (s : irc)
    (hI : I.is_abstract = true) (hD : I.slirc_default_implementation = some D)
    (hC : C.is_abstract = false) (hkey : C.slirc_module_type = I.slirc_module_type)
    (hokD : ctorD argsD = .ok addrD) (hokC : ctorC argsC = .ok addrC) :
    effective_module_implementation I = D
    ∧ effective_module_implementation C = C.id
    ∧ (s.load_module I ctorD argsD).2 = .ok { addr := addrD, dyn_type := D }
    ∧ (s.load_module I ctorD argsD).1.module I.slirc_module_type
        = some { addr := addrD, dyn_type := D }
    ∧ ((s.load_module I ctorD argsD).1.load_module C ctorC argsC).2
        = .ok { addr := addrC, dyn_type := C.id }
    ∧ ((s.load_module I ctorD argsD).1.load_module C ctorC argsC).1.module I.slirc_module_type
        = some { addr := addrC, dyn_type := C.id }
    ∧ ((s.load_module I ctorD argsD).1.load_module C ctorC argsC).1.destroyed_
        = (s.load_module I ctorD argsD).1.destroyed_ ++ [{ addr := addrD, dyn_type := D }] := by
  have hI2 : effective_module_implementation I = D := by
    simp [effective_module_implementation, hI, hD]
  have hC2 : effective_module_implementation C = C.id := by
    simp [effective_module_implementation, hC]
  have h1 := load_module_ok I ctorD argsD addrD s hokD
  have hm1 : (s.load_module I ctorD argsD).1.module I.slirc_module_type
      = some { addr := addrD, dyn_type := D } := by
    rw [h1]
    have := module_after_assign s I.slirc_module_type I.slirc_module_type
      (some { addr := addrD, dyn_type := effective_module_implementation I })
      (s.destroyed_by_load I.slirc_module_type)
    simp only [if_true] at this
    rw [this, hI2]
  have h2 := load_module_ok C ctorC argsC addrC (s.load_module I ctorD argsD).1 hokC
  refine ⟨hI2, hC2, ?_, hm1, ?_, ?_, ?_⟩
  · rw [h1, hI2]
  · rw [h2, hC2]
  · rw [h2, hkey]
    have := module_after_assign (s.load_module I ctorD argsD).1 I.slirc_module_type
      I.slirc_module_type (some { addr := addrC, dyn_type := effective_module_implementation C })
      ((s.load_module I ctorD argsD).1.destroyed_by_load I.slirc_module_type)
    simp only [if_true] at this
    rw [this, hC2]
  · rw [h2]
    show (s.load_module I ctorD argsD).1.destroyed_by_load C.slirc_module_type = _
    unfold destroyed_by_load
    rw [hkey, hm1]

theorem load_module_choice_witness :
    ((⟨1, 1, true, some 2⟩ : module_class).is_abstract = true)
    ∧ ((⟨1, 1, true, some 2⟩ : module_class).slirc_default_implementation = some 2)
    ∧ ((⟨3, 1, false, some 2⟩ : module_class).is_abstract = false)
    ∧ ((⟨3, 1, false, some 2⟩ : module_class).slirc_module_type
        = (⟨1, 1, true, some 2⟩ : module_class).slirc_module_type)
    ∧ ((fun (n : Nat) => (Except.ok (n + 1) : Except exception Nat)) 200 = .ok 201)
    ∧ ((fun (n : Nat) => (Except.ok (n + 1) : Except exception Nat)) 300 = .ok 301)
    ∧ (((irc.create 0).load_module ⟨1, 1, true, some 2⟩
          (fun (n : Nat) => (Except.ok (n + 1) : Except exception Nat)) 200).1.load_module
        ⟨3, 1, false, some 2⟩
        (fun (n : Nat) => (Except.ok (n + 1) : Except exception Nat)) 300).1.module 1
      = some { addr := 301, dyn_type := 3 } :=
  ⟨rfl, rfl, rfl, rfl, rfl, rfl,
   (load_module_choice ⟨1, 1, true, some 2⟩ ⟨3, 1, false, some 2⟩
      2 (fun (n : Nat) => (Except.ok (n + 1) : Except exception Nat)) 200 201
      (fun (n : Nat) => (Except.ok (n + 1) : Except exception Nat)) 300 301
      (irc.create 0) rfl rfl rfl rfl rfl rfl).2.2.2.2.2.1⟩

/-- C28: when `shutting_down_` is set, the predicate of the wait holds at once,
`wait_for` returns `true` and `fetch_event` returns the null pointer, for
every timeout; the context, with both event queues and the skip count, is
left as it was. -/
theorem fetch_event_when_shutting_down (timeout : Nat) (s : irc)
    (h : s.shutting_down_ = true) :
    wait_for timeout event_available s = true
    ∧ (s.fetch_event timeout).1 = none
    ∧ (s.fetch_event timeout).2 = s
    ∧ (s.fetch_event timeout).2.event_queue_front_ = s.event_queue_front_
    ∧ (s.fetch_event timeout).2.event_queue_back_ = s.event_queue_back_
    ∧ (s.fetch_event timeout).2.event_queue_back_skip_ = s.event_queue_back_skip_ := by
  have hw : wait_for timeout event_available s = true := by
    simp [wait_for, event_available, h]
  have hf : s.fetch_event timeout = (none, s) := by
    unfold fetch_event
    rw [if_pos hw]
  rw [hf]
  exact ⟨hw, rfl, rfl, rfl, rfl, rfl⟩

theorem fetch_event_when_shutting_down_witness :
    (({ irc.create 0 with
        event_queue_front_ := { data := [some 7], capacity := 1 },
        shutting_down_ := true } : irc).shutting_down_ = true)
    ∧ (({ irc.create 0 with
        event_queue_front_ := { data := [some 7], capacity := 1 },
        shutting_down_ := true } : irc).fetch_event 1000).1 = none :=
  ⟨rfl,
   (fetch_event_when_shutting_down 1000
      { irc.create 0 with
        event_queue_front_ := { data := [some 7], capacity := 1 },
        shutting_down_ := true } rfl).2.1⟩

end irc

/-! ## event_id: comparison and hash -/

namespace event_id

/-- C29: `a == b` holds exactly when the type indices are equal and the codes
are equal, that is when the two identifiers are the same pair; `a != b` is
the negation of `a == b`; identifiers made from the same code of two
different enumeration types are unequal. -/
theorem eq_iff_fields (a b : event_id) :
    (eq a b = true ↔ a.group = b.group ∧ a.code = b.code)
    ∧ (eq a b = true ↔ a = b)
    ∧ ne a b = !eq a b
    ∧ (ne a b = true ↔ a ≠ b)
    ∧ (∀ (E1 E2 : type_index) (id : Nat), E1 ≠ E2 →
        eq (of_enum E1 id) (of_enum E2 id) = false ∧ ne (of_enum E1 id) (of_enum E2 id) = true)
    ∧ (∀ (E : type_index) (id1 id2 : Nat), id1 < 2 ^ 32 → id2 < 2 ^ 32 →
        (eq (of_enum E id1) (of_enum E id2) = true ↔ id1 = id2)) := by
  have h1 : eq a b = true ↔ a.group = b.group ∧ a.code = b.code := by
    simp [eq]
  have h2 : eq a b = true ↔ a = b := by
    rw [h1]
    cases a; cases b
    simp
  refine ⟨h1, h2, rfl, ?_, ?_, ?_⟩
  · have : ne a b = !eq a b := rfl
    rw [this]
    cases he : eq a b with
    | true => simp [h2.1 he]
    | false =>
      simp only [Bool.not_false, true_iff]
      intro hc
      rw [h2.2 hc] at he
      cases he
  · intro E1 E2 id hne
    simp [eq, ne, of_enum, hne]
  · intro E id1 id2 hl1 hl2
    have e1 : id1 % 2 ^ 32 = id1 := Nat.mod_eq_of_lt hl1
    have e2 : id2 % 2 ^ 32 = id2 := Nat.mod_eq_of_lt hl2
    simp only [eq, of_enum, decide_True, Bool.true_and, decide_eq_true_eq]
    rw [e1, e2]

theorem eq_iff_fields_witness :
    ((1 : type_index) ≠ 2)
    ∧ eq (of_enum 1 5) (of_enum 2 5) = false :=
  ⟨by decide,
   ((eq_iff_fields (of_enum 1 5) (of_enum 2 5)).2.2.2.2.1 1 2 5 (by decide)).1⟩

/-- C30: equal identifiers have equal hashes, and the hash of an identifier is
the exclusive or of the hash of its type index and the hash of its code. -/
theorem hash_respects_eq (hash_type_index : type_index → Nat) (hash_unsigned : Nat → Nat)
    (a b : event_id) :
    (eq a b = true → hash hash_type_index hash_unsigned a = hash hash_type_index hash_unsigned b)
    ∧ hash hash_type_index hash_unsigned a
        = (hash_type_index a.group) ^^^ (hash_unsigned a.code) := by
  constructor
  · intro h
    have h1 : a.group = b.group ∧ a.code = b.code := by simpa [eq] using h
    simp only [hash, h1.1, h1.2]
  · rfl

theorem hash_respects_eq_witness :
    (eq (of_enum 1 4294967301) { group := 1, code := 5 } = true)
    ∧ hash (fun t => 7 * t) (fun c => c) (of_enum 1 4294967301)
        = hash (fun t => 7 * t) (fun c => c) ({ group := 1, code := 5 } : event_id) :=
  ⟨by decide,
   (hash_respects_eq (fun t => 7 * t) (fun c => c) (of_enum 1 4294967301)
      { group := 1, code := 5 }).1 (by decide)⟩

end event_id

/-! ## connect: the order of the chain -/

namespace slot_meta_group

theorem lt_asymm (a b : slot_meta_group) (h : a.lt b = true) : b.lt a = false := by
  cases a <;> cases b <;> simp [lt, kind, number] at h ⊢
  all_goals omega

theorem lt_of_lt_of_not_lt (y s x : slot_meta_group) (h1 : y.lt s = true)
    (h2 : x.lt s = false) : y.lt x = true := by
  cases y <;> cases s <;> cases x <;> simp [lt, kind, number] at h1 h2 ⊢
  all_goals omega

theorem not_lt_trans (y x s : slot_meta_group) (h1 : y.lt x = false) (h2 : x.lt s = false) :
    y.lt s = false := by
  cases y <;> cases s <;> cases x <;> simp [lt, kind, number] at h1 h2 ⊢
  all_goals omega

theorem lt_of_lt_of_not_gt (s x y : slot_meta_group) (h1 : s.lt x = true)
    (h2 : y.lt x = false) : s.lt y = true := by
  cases y <;> cases s <;> cases x <;> simp [lt, kind, number] at h1 h2 ⊢
  all_goals omega

theorem not_lt_front (x : slot_meta_group) : x.lt front_ungrouped = false := by
  cases x <;> simp [lt, kind, number]

theorem not_back_lt (x : slot_meta_group) : back_ungrouped.lt x = false := by
  cases x <;> simp [lt, kind, number]

end slot_meta_group

theorem chain_push_front_split (s : slot) (chain : List slot) (h : dispatch_ordered chain) :
    ∃ l1 l2, chain = l1 ++ l2 ∧ chain_push_front s chain = l1 ++ s :: l2
      ∧ (∀ x ∈ l1, x.key.lt s.key = true) ∧ (∀ x ∈ l2, x.key.lt s.key = false) := by
  induction chain with
  | nil => exact ⟨[], [], rfl, rfl, by simp, by simp⟩
  | cons x r ih =>
    unfold dispatch_ordered at h
    rw [List.pairwise_cons] at h
    by_cases hx : x.key.lt s.key = true
    · obtain ⟨l1, l2, e1, e2, b1, b2⟩ := ih h.2
      refine ⟨x :: l1, l2, by rw [e1]; rfl, by simp [chain_push_front, hx, e2], ?_, b2⟩
      intro y hy
      rcases List.mem_cons.1 hy with hy | hy
      · rw [hy]; exact hx
      · exact b1 y hy
    · have hx2 : x.key.lt s.key = false := by simpa using hx
      refine ⟨[], x :: r, rfl, by simp [chain_push_front, hx2], by simp, ?_⟩
      intro y hy
      rcases List.mem_cons.1 hy with hy | hy
      · rw [hy]; exact hx2
      · exact slot_meta_group.not_lt_trans _ _ _ (h.1 y hy) hx2

theorem chain_push_back_split (s : slot) (chain : List slot) (h : dispatch_ordered chain) :
    ∃ l1 l2, chain = l1 ++ l2 ∧ chain_push_back s chain = l1 ++ s :: l2
      ∧ (∀ x ∈ l1, s.key.lt x.key = false) ∧ (∀ x ∈ l2, s.key.lt x.key = true) := by
  induction chain with
  | nil => exact ⟨[], [], rfl, rfl, by simp, by simp⟩
  | cons x r ih =>
    unfold dispatch_ordered at h
    rw [List.pairwise_cons] at h
    by_cases hx : s.key.lt x.key = true
    · refine ⟨[], x :: r, rfl, by simp [chain_push_back, hx], by simp, ?_⟩
      intro y hy
      rcases List.mem_cons.1 hy with hy | hy
      · rw [hy]; exact hx
      · exact slot_meta_group.lt_of_lt_of_not_gt _ _ _ hx (h.1 y hy)
    · have hx2 : s.key.lt x.key = false := by simpa using hx
      obtain ⟨l1, l2, e1, e2, b1, b2⟩ := ih h.2
      refine ⟨x :: l1, l2, by rw [e1]; rfl, by simp [chain_push_back, hx2, e2], ?_, b2⟩
      intro y hy
      rcases List.mem_cons.1 hy with hy | hy
      · rw [hy]; exact hx2
      · exact b1 y hy

theorem dispatch_ordered_insert (s : slot) (l1 l2 : List slot)
    (h : dispatch_ordered (l1 ++ l2))
    (b1 : ∀ x ∈ l1, s.key.lt x.key = false) (b2 : ∀ x ∈ l2, x.key.lt s.key = false) :
    dispatch_ordered (l1 ++ s :: l2) := by
  unfold dispatch_ordered at h ⊢
  rw [List.pairwise_append] at h ⊢
  refine ⟨h.1, ?_, ?_⟩
  · rw [List.pairwise_cons]
    exact ⟨b2, h.2.1⟩
  · intro x hx y hy
    rcases List.mem_cons.1 hy with hy | hy
    · rw [hy]; exact b1 x hx
    · exact h.2.2 x hx y hy

theorem dispatch_ordered_push_front (s : slot) (chain : List slot) (h : dispatch_ordered chain) :
    dispatch_ordered (chain_push_front s chain) := by
  obtain ⟨l1, l2, e1, e2, b1, b2⟩ := chain_push_front_split s chain h
  rw [e2]
  rw [e1] at h
  exact dispatch_ordered_insert s l1 l2 h
    (fun x hx => slot_meta_group.lt_asymm _ _ (b1 x hx)) b2

theorem dispatch_ordered_push_back (s : slot) (chain : List slot) (h : dispatch_ordered chain) :
    dispatch_ordered (chain_push_back s chain) := by
  obtain ⟨l1, l2, e1, e2, b1, b2⟩ := chain_push_back_split s chain h
  rw [e2]
  rw [e1] at h
  exact dispatch_ordered_insert s l1 l2 h b1
    (fun x hx => slot_meta_group.lt_asymm _ _ (b2 x hx))

/-- C21 fails on the code: no handler can be connected, so that no sequence of
`connect` calls yields handlers to dispatch in any order. Both traits hand
their arguments to `std::declval` itself and are `false_type` for every
handler type; `irc::connect` is therefore ill-formed for every handler, as
for the four calls of the example (group 2, sentinel-back, group 1,
sentinel-front, with handlers callable as `f(event&)`). The key of a numbered
group is moreover converted to the two-valued enumeration `connect_position`
on its way to `connect_extended`, which is defined for the keys 0 and 1 only. -/
theorem connect_rejects_every_handler :
    (∀ Func : handler_class,
        is_callable_with_connection Func = false ∧ is_callable_without_connection Func = false)
    ∧ (∀ (Func : handler_class) (f : event → connection_type → outcome) (group : slot_group)
        (position : connect_position) (connection : connection_type) (chain : List slot),
        irc.connect Func f group position connection chain = .error .ill_formed)
    ∧ irc.connect_all
        [⟨⟨false, true⟩, fun e _ => { ev := e, raised := none }, .group 2, .at_back, 1⟩,
         ⟨⟨false, true⟩, fun e _ => { ev := e, raised := none }, .position .at_back, .at_back, 2⟩,
         ⟨⟨false, true⟩, fun e _ => { ev := e, raised := none }, .group 1, .at_back, 3⟩,
         ⟨⟨false, true⟩, fun e _ => { ev := e, raised := none }, .position .at_front, .at_back, 4⟩]
        [] = .error .ill_formed
    ∧ group_through_connect_position 1 = .ok 1
    ∧ group_through_connect_position 2 = .error .undefined :=
  ⟨fun _ => ⟨rfl, rfl⟩, fun _ _ _ _ _ _ => rfl, rfl, rfl, rfl⟩

/-! ## normalize: the pending sequence, the skip count and idempotence -/

/-- With an empty front buffer `normalize` changes nothing. -/
theorem normalize_of_src_nil (grow : growth) (dst src : vector event_id) (skipped : Nat)
    (h : src.data = []) :
    normalize grow dst skipped src = (dst, skipped, src) := by
  obtain ⟨d, c⟩ := src
  simp only at h
  subst h
  simp [normalize, vector.size, copy_fwd_rev, vector.clear]

/-- C31: for every main buffer `dst`, skip count within it and front buffer
`src`, `normalize` keeps the pending sequence `reverse(src) ++ dst[skipped..]`,
empties the front buffer and leaves a skip count within the new main buffer;
run again on its own results it returns them unchanged. The branch taken
(front buffer longer than the skip count, or not) shows in the skip count
left: zero in the first, `skipped - src.size()` in the second, where the main
buffer also keeps its length. -/
theorem normalize_preserves_pending (grow : growth) (dst src : vector event_id) (skipped : Nat)
    (h : skipped ≤ dst.size) :
    (normalize grow dst skipped src).2.2.data.reverse
        ++ (normalize grow dst skipped src).1.data.drop (normalize grow dst skipped src).2.1
      = src.data.reverse ++ dst.data.drop skipped
    ∧ (normalize grow dst skipped src).2.2.data = []
    ∧ (normalize grow dst skipped src).2.1 ≤ (normalize grow dst skipped src).1.size
    ∧ normalize grow (normalize grow dst skipped src).1 (normalize grow dst skipped src).2.1
          (normalize grow dst skipped src).2.2
        = normalize grow dst skipped src
    ∧ (skipped < src.size → (normalize grow dst skipped src).2.1 = 0
        ∧ (normalize grow dst skipped src).1.size = dst.size + (src.size - skipped))
    ∧ (¬ skipped < src.size → (normalize grow dst skipped src).2.1 = skipped - src.size
        ∧ (normalize grow dst skipped src).1.size = dst.size) := by
  obtain ⟨h1, h2, h3⟩ := normalize_spec grow dst src skipped h
  refine ⟨?_, h3, h2, ?_, ?_, ?_⟩
  · rw [h3, h1]; rfl
  · exact normalize_of_src_nil grow _ _ _ h3
  · intro hb
    unfold normalize
    rw [if_pos hb]
    refine ⟨rfl, ?_⟩
    simp only [vector.size, length_copy_fwd_rev, length_copy_rev_rev]
    unfold vector.resize vector.size
    unfold vector.size at hb
    have : ¬ (dst.data.length + (src.data.length - skipped) ≤ dst.data.length) := by omega
    simp only [if_neg this, List.length_append, List.length_replicate]
    omega
  · intro hb
    unfold normalize
    rw [if_neg hb]
    refine ⟨rfl, ?_⟩
    simp only [vector.size, length_copy_fwd_rev]

theorem normalize_preserves_pending_witness :
    ((1 : Nat) ≤ (⟨[⟨1, 10⟩, ⟨1, 11⟩], 2⟩ : vector event_id).size)
    ∧ normalize libstdcxx_growth (⟨[⟨1, 10⟩, ⟨1, 11⟩], 2⟩ : vector event_id) 1
          (⟨[⟨1, 12⟩, ⟨1, 13⟩], 2⟩ : vector event_id)
        = ((⟨[⟨1, 13⟩, ⟨1, 12⟩, ⟨1, 11⟩], 4⟩ : vector event_id), 0,
           (⟨[], 2⟩ : vector event_id))
    ∧ normalize libstdcxx_growth (⟨[⟨1, 10⟩, ⟨1, 11⟩], 2⟩ : vector event_id) 1
          (⟨[⟨1, 12⟩], 1⟩ : vector event_id)
        = ((⟨[⟨1, 12⟩, ⟨1, 11⟩], 2⟩ : vector event_id), 0, (⟨[], 1⟩ : vector event_id))
    ∧ (normalize libstdcxx_growth (⟨[⟨1, 10⟩, ⟨1, 11⟩], 2⟩ : vector event_id) 1
          (⟨[⟨1, 12⟩, ⟨1, 13⟩], 2⟩ : vector event_id)).2.2.data.reverse
        ++ (normalize libstdcxx_growth (⟨[⟨1, 10⟩, ⟨1, 11⟩], 2⟩ : vector event_id) 1
          (⟨[⟨1, 12⟩, ⟨1, 13⟩], 2⟩ : vector event_id)).1.data.drop
          (normalize libstdcxx_growth (⟨[⟨1, 10⟩, ⟨1, 11⟩], 2⟩ : vector event_id) 1
          (⟨[⟨1, 12⟩, ⟨1, 13⟩], 2⟩ : vector event_id)).2.1
      = (⟨[⟨1, 12⟩, ⟨1, 13⟩], 2⟩ : vector event_id).data.reverse
        ++ (⟨[⟨1, 10⟩, ⟨1, 11⟩], 2⟩ : vector event_id).data.drop 1 :=
  ⟨by decide, by decide, by decide,
   (normalize_preserves_pending libstdcxx_growth ⟨[⟨1, 10⟩, ⟨1, 11⟩], 2⟩ ⟨[⟨1, 12⟩, ⟨1, 13⟩], 2⟩ 1
      (by decide)).1⟩

/-! ## event: when push_back compacts -/

namespace event

/-- C32 fails on the code (evaluation at a concrete input): after four
`push_back` and one `pop_front` on a fresh event (libstdc++ growth) the main
buffer `[a, b, c, d]` is at capacity 4 with a skip count of 1, which does not
exceed half of its length; `push_back(e)` compacts all the same: the buffer
becomes `[b, c, d, e]` at capacity 4, not `[a, b, c, d, e]`. -/
theorem push_back_compacts_below_half :
    ((event.create 1 0 ⟨9, 0⟩ none).apply_ops libstdcxx_growth
        [.push_back ⟨1, 10⟩, .push_back ⟨1, 11⟩, .push_back ⟨1, 12⟩, .push_back ⟨1, 13⟩,
         .pop_front]
      = some { event.create 1 0 ⟨9, 0⟩ none with
          id_queue := ⟨[⟨1, 10⟩, ⟨1, 11⟩, ⟨1, 12⟩, ⟨1, 13⟩], 4⟩, skipped := 1 })
    ∧ ¬ ((⟨[⟨1, 10⟩, ⟨1, 11⟩, ⟨1, 12⟩, ⟨1, 13⟩], 4⟩ : vector event_id).size / 2 < 1)
    ∧ (({ event.create 1 0 ⟨9, 0⟩ none with
          id_queue := ⟨[⟨1, 10⟩, ⟨1, 11⟩, ⟨1, 12⟩, ⟨1, 13⟩], 4⟩,
          skipped := 1 } : event).push_back libstdcxx_growth ⟨1, 14⟩).id_queue
        = ⟨[⟨1, 11⟩, ⟨1, 12⟩, ⟨1, 13⟩, ⟨1, 14⟩], 4⟩
    ∧ (({ event.create 1 0 ⟨9, 0⟩ none with
          id_queue := ⟨[⟨1, 10⟩, ⟨1, 11⟩, ⟨1, 12⟩, ⟨1, 13⟩], 4⟩,
          skipped := 1 } : event).push_back libstdcxx_growth ⟨1, 14⟩).id_queue.data
        ≠ [⟨1, 10⟩, ⟨1, 11⟩, ⟨1, 12⟩, ⟨1, 13⟩] ++ [⟨1, 14⟩] := by
  decide

/-- C32 as amended: `push_back` compacts the main buffer only when the buffer
is at capacity and the skip count is not zero. In every other state it
appends `id` to the main buffer and changes nothing else: the entries already
there and the skip count are as before. When it does compact (skip count
within the buffer), the entries below the skip count are discarded, those
from the skip count on move to the front followed by `id`, and the capacity
stays the same. The front buffer is never touched. -/
theorem push_back_compaction_condition (grow : growth) (id : event_id) (ev : event) :
    (¬ (ev.id_queue.size = ev.id_queue.capacity ∧ ev.skipped ≠ 0) →
        (ev.push_back grow id).id_queue.data = ev.id_queue.data ++ [id]
        ∧ (ev.push_back grow id).skipped = ev.skipped
        ∧ ev.push_back grow id = { ev with id_queue := ev.id_queue.push_back grow id })
    ∧ ((ev.push_back grow id).id_queue.data ≠ ev.id_queue.data ++ [id] →
        ev.id_queue.size = ev.id_queue.capacity ∧ ev.skipped ≠ 0)
    ∧ (ev.inv → ev.id_queue.size = ev.id_queue.capacity ∧ ev.skipped ≠ 0 →
        (ev.push_back grow id).id_queue.data = ev.id_queue.data.drop ev.skipped ++ [id]
        ∧ (ev.push_back grow id).id_queue.capacity = ev.id_queue.capacity
        ∧ (ev.push_back grow id).id_queue.data ≠ ev.id_queue.data ++ [id])
    ∧ (ev.push_back grow id).next_id_queue = ev.next_id_queue := by
  have hroom : ¬ (ev.id_queue.size = ev.id_queue.capacity ∧ ev.skipped ≠ 0) →
      (ev.push_back grow id).id_queue.data = ev.id_queue.data ++ [id]
      ∧ (ev.push_back grow id).skipped = ev.skipped
      ∧ ev.push_back grow id = { ev with id_queue := ev.id_queue.push_back grow id } := by
    intro h
    rw [push_back_of_room grow id ev h]
    exact ⟨rfl, rfl, rfl⟩
  refine ⟨hroom, ?_, ?_, rfl⟩
  · intro hne
    by_contra hc
    exact hne (hroom hc).1
  · intro hinv hfull
    rw [push_back_compacting grow id ev hinv hfull]
    unfold inv vector.size at hinv
    refine ⟨rfl, ?_, ?_⟩
    · have h0 := hfull.2
      have h1 := hfull.1
      unfold vector.size at h1
      simp only [vector.push_back, vector.capacity_for, vector.size, List.length_drop]
      rw [if_pos (by omega)]
    · intro heq
      have hlen := congrArg List.length heq
      simp only [vector.push_back, List.length_append, List.length_drop,
        List.length_singleton] at hlen
      have := hfull.2
      omega

theorem push_back_compaction_condition_witness :
    (¬ ((⟨[⟨1, 10⟩, ⟨1, 11⟩, ⟨1, 12⟩], 4⟩ : vector event_id).size = 4 ∧ (1 : Nat) ≠ 0))
    ∧ (({ event.create 1 0 ⟨9, 0⟩ none with
          id_queue := ⟨[⟨1, 10⟩, ⟨1, 11⟩, ⟨1, 12⟩], 4⟩,
          skipped := 1 } : event).push_back libstdcxx_growth ⟨1, 14⟩).id_queue.data
        = [⟨1, 10⟩, ⟨1, 11⟩, ⟨1, 12⟩] ++ [⟨1, 14⟩]
    ∧ (({ event.create 1 0 ⟨9, 0⟩ none with
          id_queue := ⟨[⟨1, 10⟩, ⟨1, 11⟩, ⟨1, 12⟩, ⟨1, 13⟩], 4⟩,
          skipped := 1 } : event).inv)
    ∧ (({ event.create 1 0 ⟨9, 0⟩ none with
          id_queue := ⟨[⟨1, 10⟩, ⟨1, 11⟩, ⟨1, 12⟩, ⟨1, 13⟩], 4⟩,
          skipped := 1 } : event).push_back libstdcxx_growth ⟨1, 14⟩).id_queue.capacity = 4 :=
  ⟨by decide,
   ((push_back_compaction_condition libstdcxx_growth ⟨1, 14⟩
      { event.create 1 0 ⟨9, 0⟩ none with
        id_queue := ⟨[⟨1, 10⟩, ⟨1, 11⟩, ⟨1, 12⟩], 4⟩, skipped := 1 }).1 (by decide)).1,
   by unfold inv; decide,
   ((push_back_compaction_condition libstdcxx_growth ⟨1, 14⟩
      { event.create 1 0 ⟨9, 0⟩ none with
        id_queue := ⟨[⟨1, 10⟩, ⟨1, 11⟩, ⟨1, 12⟩, ⟨1, 13⟩], 4⟩, skipped := 1 }).2.2.1
      (by unfold inv; decide) (by decide)).2.1⟩

end event

/-! ## irc: post_event_back -/

namespace irc

/-- The two branches of `post_event_back` on a context the event belongs to. -/
theorem post_event_back_eq (grow : growth) (ev : event) (s : irc) (hctx : ev.irc = s.this)
    (hinv : s.event_queue_back_skip_ ≤ s.event_queue_back_.size) :
    s.post_event_back grow ev =
      if s.event_queue_back_.size / 2 < s.event_queue_back_skip_
          ∧ s.event_queue_back_.size = s.event_queue_back_.capacity then
        some { s with
          event_queue_back_ :=
            ((⟨s.event_queue_back_.data.drop s.event_queue_back_skip_,
               s.event_queue_back_.capacity⟩ : vector pointer).push_back grow (some ev.this)),
          event_queue_back_skip_ := 0 }
      else
        some { s with
          event_queue_back_ := s.event_queue_back_.push_back grow (some ev.this) } := by
  unfold post_event_back
  rw [if_pos hctx]
  by_cases hc : s.event_queue_back_.size / 2 < s.event_queue_back_skip_
      ∧ s.event_queue_back_.size = s.event_queue_back_.capacity
  · rw [if_pos hc, if_pos hc]
    unfold vector.size at hinv
    have hd : List.drop s.event_queue_back_.data.length
        (copy_fwd (s.event_queue_back_.data.length - s.event_queue_back_skip_)
          s.event_queue_back_skip_ 0 s.event_queue_back_.data) = [] :=
      List.drop_eq_nil_of_le (by rw [length_copy_fwd])
    simp only [vector.erase, vector.size, length_copy_fwd, hd, List.append_nil]
    rw [event.copy_fwd_take _ _ _ hinv]
  · rw [if_neg hc, if_neg hc]

/-- C33: on a context whose back skip count is within the back queue, whatever
the capacity of the back queue and the growth policy, `post_event_back(ev)`
for an event of this context returns and turns the unconsumed back sequence
`s` into `s ++ [ev]`, in the compacting branch as well; the skip count stays
within the back queue; the front queue, the module registry and the shutdown
flag are untouched. Unless the skip count exceeds half the length of a full
buffer, the call only appends (entries and skip count as before); when it
does, the consumed prefix is discarded, the skip count becomes 0 and the
capacity stays the same. -/
theorem post_event_back_appends (grow : growth) (ev : event) (s : irc)
    (hctx : ev.irc = s.this)
    (hinv : s.event_queue_back_skip_ ≤ s.event_queue_back_.size) :
    ∃ s1, s.post_event_back grow ev = some s1
      ∧ s1.back_pending = s.back_pending ++ [some ev.this]
      ∧ s1.event_queue_back_skip_ ≤ s1.event_queue_back_.size
      ∧ s1.event_queue_front_ = s.event_queue_front_
      ∧ s1.modules_ = s.modules_ ∧ s1.shutting_down_ = s.shutting_down_
      ∧ (¬ (s.event_queue_back_.size / 2 < s.event_queue_back_skip_
            ∧ s.event_queue_back_.size = s.event_queue_back_.capacity) →
          s1.event_queue_back_.data = s.event_queue_back_.data ++ [some ev.this]
          ∧ s1.event_queue_back_skip_ = s.event_queue_back_skip_)
      ∧ (s.event_queue_back_.size / 2 < s.event_queue_back_skip_
            ∧ s.event_queue_back_.size = s.event_queue_back_.capacity →
          s1.event_queue_back_.data
              = s.event_queue_back_.data.drop s.event_queue_back_skip_ ++ [some ev.this]
          ∧ s1.event_queue_back_skip_ = 0
          ∧ s1.event_queue_back_.capacity = s.event_queue_back_.capacity) := by
  rw [post_event_back_eq grow ev s hctx hinv]
  unfold vector.size at hinv
  by_cases hc : s.event_queue_back_.size / 2 < s.event_queue_back_skip_
      ∧ s.event_queue_back_.size = s.event_queue_back_.capacity
  · rw [if_pos hc]
    refine ⟨_, rfl, ?_, ?_, rfl, rfl, rfl, fun hn => absurd hc hn, fun _ => ⟨rfl, rfl, ?_⟩⟩
    · simp only [back_pending, vector.push_back, List.drop_zero]
    · exact Nat.zero_le _
    · obtain ⟨h1, h2⟩ := hc
      unfold vector.size at h1 h2
      simp only [vector.push_back, vector.capacity_for, vector.size, List.length_drop]
      rw [if_pos (by omega)]
  · rw [if_neg hc]
    refine ⟨_, rfl, ?_, ?_, rfl, rfl, rfl, fun _ => ⟨rfl, rfl⟩, fun hp => absurd hp hc⟩
    · simp only [back_pending, vector.push_back]
      rw [List.drop_append_of_le_length hinv]
    · simp only [vector.push_back, vector.size, List.length_append, List.length_singleton]
      omega

theorem post_event_back_appends_witness :
    ((event.create 7 3 ⟨9, 0⟩ none).irc
        = ({ irc.create 3 with
              event_queue_back_ := ⟨[none, none, some 5], 3⟩,
              event_queue_back_skip_ := 2 } : irc).this)
    ∧ ((2 : Nat) ≤ (⟨[none, none, some 5], 3⟩ : vector pointer).size)
    ∧ (({ irc.create 3 with
              event_queue_back_ := ⟨[none, none, some 5], 3⟩,
              event_queue_back_skip_ := 2 } : irc).post_event_back libstdcxx_growth
          (event.create 7 3 ⟨9, 0⟩ none)
        = some { irc.create 3 with
              event_queue_back_ := ⟨[some 5, some 7], 3⟩,
              event_queue_back_skip_ := 0 })
    ∧ ∃ s1, ({ irc.create 3 with
              event_queue_back_ := ⟨[none, none, some 5], 3⟩,
              event_queue_back_skip_ := 2 } : irc).post_event_back libstdcxx_growth
          (event.create 7 3 ⟨9, 0⟩ none) = some s1
        ∧ s1.back_pending
          = ({ irc.create 3 with
              event_queue_back_ := ⟨[none, none, some 5], 3⟩,
              event_queue_back_skip_ := 2 } : irc).back_pending
            ++ [some (event.create 7 3 ⟨9, 0⟩ none).this] :=
  ⟨by decide, by decide, by decide,
   (post_event_back_appends libstdcxx_growth (event.create 7 3 ⟨9, 0⟩ none)
      { irc.create 3 with
        event_queue_back_ := ⟨[none, none, some 5], 3⟩,
        event_queue_back_skip_ := 2 }
      (by decide) (by decide)).elim (fun s1 h => ⟨s1, h.1, h.2.1⟩)⟩

end irc

/-! ## event: the reverse range -/

namespace event

/-- A second `normalize` on the members changes nothing. -/
theorem normalized_idem (grow : growth) (ev : event) (h : ev.inv) :
    (ev.normalized grow).normalized grow = ev.normalized grow := by
  obtain ⟨_, _, hn, _⟩ := normalized_facts grow ev h
  show ({ ev.normalized grow with
    id_queue := (normalize grow (ev.normalized grow).id_queue (ev.normalized grow).skipped
      (ev.normalized grow).next_id_queue).1,
    skipped := (normalize grow (ev.normalized grow).id_queue (ev.normalized grow).skipped
      (ev.normalized grow).next_id_queue).2.1,
    next_id_queue := (normalize grow (ev.normalized grow).id_queue (ev.normalized grow).skipped
      (ev.normalized grow).next_id_queue).2.2 } : event) = _
  rw [normalize_of_src_nil grow _ _ _ hn]

/-- With the skip count within the main buffer, the range `rbegin()..rend()` is
the normalized buffer without its last `skipped` entries, read backwards. -/
theorem rrange_eq (grow : growth) (ev : event) (h : ev.inv) :
    ev.rrange grow
      = ((ev.normalized grow).id_queue.data.take
          ((ev.normalized grow).id_queue.size - (ev.normalized grow).skipped)).reverse := by
  unfold rrange rbegin rend
  simp only [normalized_idem grow ev h, vector.size]
  rw [List.take_of_length_le (by simp), List.drop_reverse]

/-- When `normalize` leaves a skip count of zero, the range `rbegin()..rend()` is
the range `begin()..end()` read backwards. -/
theorem rrange_of_skipped_zero (grow : growth) (ev : event) (h : ev.inv)
    (h0 : (ev.normalized grow).skipped = 0) :
    ev.rrange grow = (ev.range grow).reverse := by
  rw [rrange_eq grow ev h, h0]
  unfold range
  simp only [h0, List.drop_zero, Nat.sub_zero, vector.size, List.take_length]

/-- C34 fails on the code (evaluation at the failing input): after
`push_back(a); push_back(b); push_back(c); pop_front()` on a fresh event the
main buffer is `[a, b, c]` with a skip count of 1 and the front buffer is
empty. Iterating from `begin()` to `end()` visits `[b, c]`; iterating from
`rbegin()` (which is `id_queue.rbegin() + skipped`) to `rend()` (which is
`id_queue.rend()`) visits `[b, a]`: the last pending identifier `c` is left
out and the identifier `a`, already removed, is visited. -/
theorem rbegin_skips_last_pending :
    ((event.create 1 0 ⟨9, 0⟩ none).apply_ops libstdcxx_growth
        [.push_back ⟨1, 10⟩, .push_back ⟨1, 11⟩, .push_back ⟨1, 12⟩, .pop_front]
      = some { event.create 1 0 ⟨9, 0⟩ none with
          id_queue := ⟨[⟨1, 10⟩, ⟨1, 11⟩, ⟨1, 12⟩], 4⟩, skipped := 1 })
    ∧ (({ event.create 1 0 ⟨9, 0⟩ none with
          id_queue := ⟨[⟨1, 10⟩, ⟨1, 11⟩, ⟨1, 12⟩], 4⟩,
          skipped := 1 } : event).range libstdcxx_growth = [⟨1, 11⟩, ⟨1, 12⟩])
    ∧ (({ event.create 1 0 ⟨9, 0⟩ none with
          id_queue := ⟨[⟨1, 10⟩, ⟨1, 11⟩, ⟨1, 12⟩], 4⟩,
          skipped := 1 } : event).rrange libstdcxx_growth = [⟨1, 11⟩, ⟨1, 10⟩])
    ∧ (({ event.create 1 0 ⟨9, 0⟩ none with
          id_queue := ⟨[⟨1, 10⟩, ⟨1, 11⟩, ⟨1, 12⟩], 4⟩,
          skipped := 1 } : event).rrange libstdcxx_growth
        ≠ (({ event.create 1 0 ⟨9, 0⟩ none with
          id_queue := ⟨[⟨1, 10⟩, ⟨1, 11⟩, ⟨1, 12⟩], 4⟩,
          skipped := 1 } : event).range libstdcxx_growth).reverse) := by
  decide

end event

/-! ## event: what the queue mutators leave alone -/

namespace event

theorem frame_kept_refl (ev : event) : ev.frame_kept ev := ⟨rfl, rfl, rfl, rfl⟩

theorem frame_kept_trans (a b c : event) (h1 : a.frame_kept b) (h2 : b.frame_kept c) :
    a.frame_kept c :=
  ⟨h2.1.trans h1.1, h2.2.1.trans h1.2.1, h2.2.2.1.trans h1.2.2.1, h2.2.2.2.trans h1.2.2.2⟩

theorem frame_kept_pop_front_state (ev : event) : ev.frame_kept ev.pop_front_state := by
  unfold pop_front_state
  split
  · exact ⟨rfl, rfl, rfl, rfl⟩
  · split
    · exact ⟨rfl, rfl, rfl, rfl⟩
    · exact frame_kept_refl ev

theorem frame_kept_pop_back_state (grow : growth) (ev : event) :
    ev.frame_kept (ev.pop_back_state grow) := by
  unfold pop_back_state
  split
  · by_cases h : ev.id_queue.size = ev.skipped
    · simp only [if_pos h]
      exact ⟨rfl, rfl, rfl, rfl⟩
    · simp only [if_neg h]
      exact ⟨rfl, rfl, rfl, rfl⟩
  · exact frame_kept_refl ev

theorem pop_front_eq_state (ev ev1 : event) (h : ev.pop_front = some ev1) :
    ev1 = ev.pop_front_state := by
  unfold pop_front at h
  unfold pop_front_state
  split at h
  · rename_i c
    rw [if_pos c]
    exact (Option.some.inj h).symm
  · rename_i c
    rw [if_neg c]
    split at h
    · rename_i c2
      rw [if_pos c2]
      exact (Option.some.inj h).symm
    · cases h

theorem pop_back_eq_state (grow : growth) (ev ev1 : event) (h : ev.pop_back grow = some ev1) :
    ev1 = ev.pop_back_state grow := by
  unfold pop_back at h
  unfold pop_back_state
  split at h
  · rename_i c
    rw [if_pos c]
    exact (Option.some.inj h).symm
  · cases h

theorem frame_kept_apply_op (grow : growth) (op : queue_op) (ev ev1 : event)
    (h : ev.apply_op grow op = some ev1) : ev.frame_kept ev1 := by
  cases op with
  | push_back id =>
    have e : ev1 = ev.push_back grow id := (Option.some.inj h).symm
    subst e
    exact ⟨rfl, rfl, rfl, rfl⟩
  | push_front id =>
    have e : ev1 = ev.push_front grow id := (Option.some.inj h).symm
    subst e
    exact ⟨rfl, rfl, rfl, rfl⟩
  | pop_front =>
    rw [pop_front_eq_state ev ev1 h]
    exact frame_kept_pop_front_state ev
  | pop_back =>
    rw [pop_back_eq_state grow ev ev1 h]
    exact frame_kept_pop_back_state grow ev

theorem frame_kept_apply_ops (grow : growth) (ops : List queue_op) :
    ∀ (ev ev1 : event), ev.apply_ops grow ops = some ev1 → ev.frame_kept ev1 := by
  induction ops with
  | nil =>
    intro ev ev1 h
    have e : ev1 = ev := (Option.some.inj h).symm
    subst e
    exact frame_kept_refl _
  | cons op ops ih =>
    intro ev ev1 h
    unfold apply_ops at h
    cases h2 : ev.apply_op grow op with
    | none => rw [h2] at h; cases h
    | some ev2 =>
      rw [h2] at h
      exact frame_kept_trans ev ev2 ev1 (frame_kept_apply_op grow op ev ev2 h2) (ih ev2 ev1 h)

end event

namespace event

/-- C35: `push_front`, `push_back`, `pop_front` and `pop_back` leave
`current_id`, `original_id`, `origin` and `data` of the event as they were, in
every state, whether the call returns or stops at its assertion, and so does
every sequence of them. In particular, on the event on which `emit()` runs the
handlers of the first pending identifier `x` (the event `taken`, where
`current_id == x`), whatever queue mutations a handler performs, `push_back`
that grows or compacts the main buffer included, `current_id` stays `x`:
`current_id_` is a copy of the buffer entry, not a reference into the buffer. -/
theorem queue_ops_keep_identity (grow : growth) (ev : event) :
    (∀ id, ev.frame_kept (ev.push_front grow id))
    ∧ (∀ id, ev.frame_kept (ev.push_back grow id))
    ∧ ev.frame_kept ev.pop_front_state
    ∧ ev.frame_kept (ev.pop_back_state grow)
    ∧ (∀ ev1, ev.pop_front = some ev1 → ev.frame_kept ev1)
    ∧ (∀ ev1, ev.pop_back grow = some ev1 → ev.frame_kept ev1)
    ∧ (∀ ops ev1, ev.apply_ops grow ops = some ev1 → ev.frame_kept ev1)
    ∧ (∀ x s, ev.inv → ev.pending = x :: s →
        (ev.taken grow).current_id = x
        ∧ (∀ id, ((ev.taken grow).push_back grow id).current_id = x
            ∧ ((ev.taken grow).push_front grow id).current_id = x)
        ∧ (ev.taken grow).pop_front_state.current_id = x
        ∧ ((ev.taken grow).pop_back_state grow).current_id = x
        ∧ ∀ ops ev1, (ev.taken grow).apply_ops grow ops = some ev1 → ev1.current_id = x) := by
  refine ⟨fun _ => ⟨rfl, rfl, rfl, rfl⟩, fun _ => ⟨rfl, rfl, rfl, rfl⟩,
    frame_kept_pop_front_state ev, frame_kept_pop_back_state grow ev, ?_, ?_,
    fun ops ev1 h => frame_kept_apply_ops grow ops ev ev1 h, ?_⟩
  · intro ev1 h
    rw [pop_front_eq_state ev ev1 h]
    exact frame_kept_pop_front_state ev
  · intro ev1 h
    rw [pop_back_eq_state grow ev ev1 h]
    exact frame_kept_pop_back_state grow ev
  · intro x s hinv hp
    have hx : (ev.taken grow).current_id = x := (taken_facts grow ev x s hinv hp).1
    refine ⟨hx, fun _ => ⟨hx, hx⟩, ?_, ?_, ?_⟩
    · exact (frame_kept_pop_front_state (ev.taken grow)).1.trans hx
    · exact (frame_kept_pop_back_state grow (ev.taken grow)).1.trans hx
    · intro ops ev1 h
      exact (frame_kept_apply_ops grow ops (ev.taken grow) ev1 h).1.trans hx

theorem queue_ops_keep_identity_witness :
    (({ event.create 1 0 ⟨9, 0⟩ none with
        id_queue := ⟨[⟨1, 10⟩, ⟨1, 11⟩], 2⟩ } : event).inv)
    ∧ (({ event.create 1 0 ⟨9, 0⟩ none with
        id_queue := ⟨[⟨1, 10⟩, ⟨1, 11⟩], 2⟩ } : event).pending = ⟨1, 10⟩ :: [⟨1, 11⟩])
    ∧ ((({ event.create 1 0 ⟨9, 0⟩ none with
        id_queue := ⟨[⟨1, 10⟩, ⟨1, 11⟩], 2⟩ } : event).taken libstdcxx_growth).push_back
          libstdcxx_growth ⟨1, 12⟩).id_queue = ⟨[⟨1, 11⟩, ⟨1, 12⟩], 2⟩
    ∧ ((({ event.create 1 0 ⟨9, 0⟩ none with
        id_queue := ⟨[⟨1, 10⟩, ⟨1, 11⟩], 2⟩ } : event).taken libstdcxx_growth).push_back
          libstdcxx_growth ⟨1, 12⟩).current_id = ⟨1, 10⟩ :=
  ⟨by unfold inv; decide, by decide, by decide,
   (((queue_ops_keep_identity libstdcxx_growth
      { event.create 1 0 ⟨9, 0⟩ none with id_queue := ⟨[⟨1, 10⟩, ⟨1, 11⟩], 2⟩ }).2.2.2.2.2.2.2
      ⟨1, 10⟩ [⟨1, 11⟩] (by unfold inv; decide) (by decide)).2.1 ⟨1, 12⟩).1⟩

end event

/-! ## event: emit_as and the pending queue -/

namespace event

theorem emit_as_eq (signals_ : event_id → signal_type) (id : event_id) (ev : event) :
    ev.emit_as signals_ id =
      { ev := { (signals_ id { ev with current_id_ := id }).ev with
                current_id_ := ev.current_id_ },
        raised := (signals_ id { ev with current_id_ := id }).raised } := by
  unfold emit_as emit_event current_id
  cases h : (signals_ id { ev with current_id_ := id }).raised <;> simp [h]

/-- C36: `emit_as(id)` is one call of `irc::emit_event`, that is one call of the
signal of `id`, on the event with `current_id == id` and both buffers and the
skip count as they were; what it returns is what that call left, with
`current_id` set back, and the exception of that call if it threw. The
function itself neither reads nor writes the pending queue: afterwards both
buffers and the skip count are those the handlers left, so that with handlers
that leave them alone the buffers, the skip count, `size()`, `empty()` and the
pending sequence are the same after the call as before, whether the handlers
returned or threw. -/
theorem emit_as_leaves_queue (signals_ : event_id → signal_type) (id : event_id) (ev : event) :
    emit_event signals_ { ev with current_id_ := id } = signals_ id { ev with current_id_ := id }
    ∧ ({ ev with current_id_ := id } : event).current_id = id
    ∧ ({ ev with current_id_ := id } : event).next_id_queue = ev.next_id_queue
    ∧ ({ ev with current_id_ := id } : event).id_queue = ev.id_queue
    ∧ ({ ev with current_id_ := id } : event).skipped = ev.skipped
    ∧ (ev.emit_as signals_ id).raised
        = (emit_event signals_ { ev with current_id_ := id }).raised
    ∧ (ev.emit_as signals_ id).ev
        = { (emit_event signals_ { ev with current_id_ := id }).ev with
            current_id_ := ev.current_id_ }
    ∧ ((signals_ id { ev with current_id_ := id }).ev.next_id_queue = ev.next_id_queue →
        (signals_ id { ev with current_id_ := id }).ev.id_queue = ev.id_queue →
        (signals_ id { ev with current_id_ := id }).ev.skipped = ev.skipped →
        (ev.emit_as signals_ id).ev.next_id_queue = ev.next_id_queue
        ∧ (ev.emit_as signals_ id).ev.id_queue = ev.id_queue
        ∧ (ev.emit_as signals_ id).ev.skipped = ev.skipped
        ∧ (ev.emit_as signals_ id).ev.size = ev.size
        ∧ (ev.emit_as signals_ id).ev.is_empty = ev.is_empty
        ∧ (ev.emit_as signals_ id).ev.pending = ev.pending) := by
  refine ⟨rfl, rfl, rfl, rfl, rfl, ?_, ?_, ?_⟩
  · rw [emit_as_eq]; rfl
  · rw [emit_as_eq]; rfl
  · intro h1 h2 h3
    rw [emit_as_eq]
    simp only [size, is_empty, pending, h1, h2, h3]
    exact ⟨trivial, trivial, trivial, trivial, trivial, trivial⟩

theorem emit_as_leaves_queue_witness :
    (({ event.create 1 0 ⟨9, 0⟩ none with
          next_id_queue := ⟨[⟨1, 12⟩], 1⟩,
          id_queue := ⟨[⟨1, 10⟩, ⟨1, 11⟩], 2⟩, skipped := 1 } : event).emit_as
        (fun _ e => { ev := e, raised := some (exception.other 1) }) ⟨1, 20⟩).raised
      = some (exception.other 1)
    ∧ (({ event.create 1 0 ⟨9, 0⟩ none with
          next_id_queue := ⟨[⟨1, 12⟩], 1⟩,
          id_queue := ⟨[⟨1, 10⟩, ⟨1, 11⟩], 2⟩, skipped := 1 } : event).emit_as
        (fun _ e => { ev := e, raised := some (exception.other 1) }) ⟨1, 20⟩).ev.size
      = ({ event.create 1 0 ⟨9, 0⟩ none with
          next_id_queue := ⟨[⟨1, 12⟩], 1⟩,
          id_queue := ⟨[⟨1, 10⟩, ⟨1, 11⟩], 2⟩, skipped := 1 } : event).size :=
  ⟨rfl,
   ((emit_as_leaves_queue (fun _ e => { ev := e, raised := some (exception.other 1) }) ⟨1, 20⟩
      { event.create 1 0 ⟨9, 0⟩ none with
        next_id_queue := ⟨[⟨1, 12⟩], 1⟩,
        id_queue := ⟨[⟨1, 10⟩, ⟨1, 11⟩], 2⟩, skipped := 1 }).2.2.2.2.2.2.2 rfl rfl rfl).2.2.2.1⟩

end event

/-! ## connect: the exit of the scoped registration -/

theorem find_after_create (ev : event) (connection : connection_type) (T2 : type_index) :
    (event_scoped_connection.create ev connection).ev.data.content_.find T2
      = if connection_typeid = T2 then some (some connection) else ev.data.content_.find T2 := by
  rw [event_scoped_connection_create_eq]
  show unordered_map.find ((ev.data.content_.subscript connection_typeid none).assign
    connection_typeid (some connection)) T2 = _
  rw [component_map.find_emplaced]

/-- C37 fails on the code (evaluation at the failing input): an event with an
empty component map, a callback run with connection 11. The scope object
registers the connection. Its destructor, which is to undo the registration
when the handler returns or throws, calls `erase<connection_type>()`; the
body of `erase` removes the element and then flows off the end of a function
declared `bool`, so that the destructor does not complete: on neither exit is
there a state "afterwards", for this handler and for every other. -/
theorem scope_exit_is_undefined :
    (event_scoped_connection.create (event.create 1 0 ⟨9, 0⟩ none) 11).ev.data.at_
        connection_typeid = .ok 11
    ∧ (event_scoped_connection.create (event.create 1 0 ⟨9, 0⟩ none) 11).ev.data.erase_call
        connection_typeid = ({ content_ := [] }, none)
    ∧ event_scoped_connection.destroy
        (event_scoped_connection.create (event.create 1 0 ⟨9, 0⟩ none) 11).ev
      = .error .undefined
    ∧ callback_body (fun e _ => { ev := e, raised := none }) (event.create 1 0 ⟨9, 0⟩ none) 11
      = .error .undefined
    ∧ callback_body (fun e _ => { ev := e, raised := some (exception.other 1) })
        (event.create 1 0 ⟨9, 0⟩ none) 11
      = .error .undefined
    ∧ (∀ (f : event → connection_type → outcome) (ev : event) (connection : connection_type),
        callback_body f ev connection = .error .undefined) :=
  ⟨rfl, rfl, rfl, rfl, rfl, fun f ev connection => callback_body_undefined f ev connection⟩

/-! ## event: the representation invariant under the queue operations -/

namespace event

theorem inv_pop_front_state (ev : event) (h : ev.inv) : ev.pop_front_state.inv := by
  unfold pop_front_state
  split
  · exact h
  · split
    · rename_i c
      exact c
    · exact h

theorem inv_pop_back_state (grow : growth) (ev : event) (h : ev.inv) :
    (ev.pop_back_state grow).inv := by
  unfold pop_back_state
  split
  · rename_i c
    by_cases hs : ev.id_queue.size = ev.skipped
    · simp only [if_pos hs]
      obtain ⟨_, hi, _, hd⟩ := normalized_facts grow ev h
      have hne : ev.pending ≠ [] := by
        intro hp
        rw [pending_eq_nil_iff] at hp
        rcases c with c | c
        · omega
        · exact c (by simp [hp.1])
      have hlen : (ev.normalized grow).skipped < (ev.normalized grow).id_queue.data.length := by
        by_contra hc
        rw [List.drop_eq_nil_of_le (by omega)] at hd
        exact hne hd.symm
      unfold inv vector.size at hi ⊢
      simp only [vector.pop_back, List.length_dropLast]
      omega
    · simp only [if_neg hs]
      unfold inv vector.size at h ⊢
      unfold vector.size at hs
      simp only [vector.pop_back, List.length_dropLast]
      omega
  · exact h

/-- The skip count stays within the main buffer under every queue operation
but the compacting `push_back`: it is within it on a fresh event, and
`push_front`, `pop_front`, `pop_back`, `normalize` (the iterator accessors),
the loop body of `emit()` and a `push_back` that does not compact keep it so. -/
theorem inv_kept_without_compaction (grow : growth) (ev : event) (h : ev.inv) :
    (∀ this irc id origin, (event.create this irc id origin).inv)
    ∧ (∀ id, (ev.push_front grow id).inv)
    ∧ ev.pop_front_state.inv
    ∧ (ev.pop_back_state grow).inv
    ∧ (ev.normalized grow).inv
    ∧ (ev.begin grow).1.inv ∧ (ev.rbegin grow).1.inv ∧ (ev.rend grow).1.inv
    ∧ (∀ x s, ev.pending = x :: s → (ev.taken grow).inv)
    ∧ (∀ id, ¬ (ev.id_queue.size = ev.id_queue.capacity ∧ ev.skipped ≠ 0) →
        (ev.push_back grow id).inv) := by
  have hn := (normalized_facts grow ev h).2.1
  refine ⟨fun _ _ _ _ => Nat.le_refl 0, fun _ => h, inv_pop_front_state ev h,
    inv_pop_back_state grow ev h, hn, hn, hn, hn,
    fun x s hp => (taken_facts grow ev x s h hp).2.2.1, ?_⟩
  intro id hroom
  rw [push_back_of_room grow id ev hroom]
  unfold inv vector.size at h ⊢
  simp only [vector.push_back, List.length_append, List.length_singleton]
  omega

/-- C38 fails on the code (evaluation at the failing input): on a fresh event
(libstdc++ growth) `push_back(a); push_back(b); pop_front(); pop_front()`
leaves the main buffer `[a, b]` at capacity 2 with a skip count of 2, within
the buffer. `push_back(c)` then compacts: the buffer becomes `[c]` and the
skip count stays 2, which exceeds the length of the buffer. -/
theorem push_back_breaks_skip_invariant :
    ((event.create 1 0 ⟨9, 0⟩ none).apply_ops libstdcxx_growth
        [.push_back ⟨1, 10⟩, .push_back ⟨1, 11⟩, .pop_front, .pop_front]
      = some { event.create 1 0 ⟨9, 0⟩ none with
          id_queue := ⟨[⟨1, 10⟩, ⟨1, 11⟩], 2⟩, skipped := 2 })
    ∧ (({ event.create 1 0 ⟨9, 0⟩ none with
          id_queue := ⟨[⟨1, 10⟩, ⟨1, 11⟩], 2⟩, skipped := 2 } : event).inv)
    ∧ (({ event.create 1 0 ⟨9, 0⟩ none with
          id_queue := ⟨[⟨1, 10⟩, ⟨1, 11⟩], 2⟩,
          skipped := 2 } : event).push_back libstdcxx_growth ⟨1, 12⟩
        = { event.create 1 0 ⟨9, 0⟩ none with
          id_queue := ⟨[⟨1, 12⟩], 2⟩, skipped := 2 })
    ∧ ¬ ((({ event.create 1 0 ⟨9, 0⟩ none with
          id_queue := ⟨[⟨1, 10⟩, ⟨1, 11⟩], 2⟩,
          skipped := 2 } : event).push_back libstdcxx_growth ⟨1, 12⟩).inv) :=
  ⟨by decide, by unfold inv; decide, by decide, by unfold inv; decide⟩

end event

/-! ## event: a fresh event -/

namespace event

/-- What the constructor leaves: nothing pending, `current_id` equal to the
original identifier, and an `emit()` that returns at once. -/
theorem create_facts (grow : growth) (signals_ : event_id → signal_type) (fuel : Nat)
    (this : event_ptr) (irc : Nat) (id : event_id) (origin : pointer) :
    (create this irc id origin).size = 0
    ∧ (create this irc id origin).is_empty = true
    ∧ (create this irc id origin).pending = []
    ∧ (create this irc id origin).range grow = []
    ∧ (create this irc id origin).current_id = id
    ∧ (create this irc id origin).original_id = id
    ∧ (create this irc id origin).emit grow signals_ (fuel + 1)
        = { ev := create this irc id origin, raised := none, dispatched := [],
            returned := true } := by
  have hinv : (create this irc id origin).inv := Nat.le_refl 0
  have hp : (create this irc id origin).pending = [] := rfl
  have hn : (create this irc id origin).normalized grow = create this irc id origin := by
    show ({ create this irc id origin with
      id_queue := (normalize grow (create this irc id origin).id_queue
        (create this irc id origin).skipped (create this irc id origin).next_id_queue).1,
      skipped := (normalize grow (create this irc id origin).id_queue
        (create this irc id origin).skipped (create this irc id origin).next_id_queue).2.1,
      next_id_queue := (normalize grow (create this irc id origin).id_queue
        (create this irc id origin).skipped
        (create this irc id origin).next_id_queue).2.2 } : event) = _
    rw [normalize_of_src_nil grow _ _ _ rfl]
  refine ⟨?_, rfl, hp, ?_, rfl, rfl, ?_⟩
  · simp [size, create, vector.size, vector.empty, size_type_modulus]
  · rw [range_eq_pending grow _ hinv, hp]
  · rw [emit_of_pending_nil grow signals_ fuel _ hinv hp, hn]

/-- C39: an event made by `make_event(id)` on a context, or by `spawn(id)` on
another event, has nothing pending (`size() == 0`, `empty()` true, the range
`begin()..end()` empty) and `current_id == original_id == id`; the original
identifier is not queued. `emit()` on it returns without calling any handler,
whatever the handlers and the growth policy, and leaves the event, hence
`current_id == id`, as it was. -/
theorem fresh_event_has_empty_queue (grow : growth) (signals_ : event_id → signal_type)
    (fuel : Nat) (s : slirc.irc) (parent : event) (addr : event_ptr) (id : event_id) :
    ((s.make_event addr id).size = 0
      ∧ (s.make_event addr id).is_empty = true
      ∧ (s.make_event addr id).pending = []
      ∧ (s.make_event addr id).range grow = []
      ∧ (s.make_event addr id).current_id = id
      ∧ (s.make_event addr id).original_id = id
      ∧ (s.make_event addr id).emit grow signals_ (fuel + 1)
          = { ev := s.make_event addr id, raised := none, dispatched := [], returned := true }
      ∧ ((s.make_event addr id).emit grow signals_ (fuel + 1)).ev.current_id = id)
    ∧ ((parent.spawn addr id).size = 0
      ∧ (parent.spawn addr id).is_empty = true
      ∧ (parent.spawn addr id).pending = []
      ∧ (parent.spawn addr id).range grow = []
      ∧ (parent.spawn addr id).current_id = id
      ∧ (parent.spawn addr id).original_id = id
      ∧ (parent.spawn addr id).emit grow signals_ (fuel + 1)
          = { ev := parent.spawn addr id, raised := none, dispatched := [], returned := true }
      ∧ ((parent.spawn addr id).emit grow signals_ (fuel + 1)).ev.current_id = id) := by
  constructor
  · obtain ⟨h1, h2, h3, h4, h5, h6, h7⟩ := create_facts grow signals_ fuel addr s.this id none
    refine ⟨h1, h2, h3, h4, h5, h6, h7, ?_⟩
    show (emit grow signals_ (fuel + 1) (create addr s.this id none)).ev.current_id = id
    rw [h7]
    rfl
  · obtain ⟨h1, h2, h3, h4, h5, h6, h7⟩ :=
      create_facts grow signals_ fuel addr parent.irc id (some parent.this)
    refine ⟨h1, h2, h3, h4, h5, h6, h7, ?_⟩
    show (emit grow signals_ (fuel + 1)
      (create addr parent.irc id (some parent.this))).ev.current_id = id
    rw [h7]
    rfl

end event

/-! ## event: push_front and the pops on a queue that push_back has compacted -/

namespace event

/-- C11 fails on the code (evaluation at the failing input): on a fresh event
(libstdc++ growth) `push_back(a); push_back(b); pop_front(); pop_front();
push_back(c)` leaves the main buffer `[c]` with a skip count of 2, the last
`push_back` having compacted the buffer without resetting the skip count.
`push_front(x)` then puts `x` into the front buffer. A plain double-ended
sequence holds `[x, c]` and the pending sequence is that of the state before
with `x` in front; but `begin()..end()` is empty and `emit()` returns without
any dispatch: `normalize` writes `x` below the skip count, which lies beyond
the end of the buffer, and leaves a skip count of 1, not below the length. -/
theorem push_front_after_compaction_not_dispatched :
    ((event.create 1 0 ⟨9, 0⟩ none).apply_ops libstdcxx_growth
        [.push_back ⟨1, 10⟩, .push_back ⟨1, 11⟩, .pop_front, .pop_front, .push_back ⟨1, 12⟩]
      = some { event.create 1 0 ⟨9, 0⟩ none with
          id_queue := ⟨[⟨1, 12⟩], 2⟩, skipped := 2 })
    ∧ (deque_apply_ops
        [.push_back ⟨1, 10⟩, .push_back ⟨1, 11⟩, .pop_front, .pop_front, .push_back ⟨1, 12⟩,
         .push_front ⟨1, 13⟩] []
      = some [⟨1, 13⟩, ⟨1, 12⟩])
    ∧ (({ event.create 1 0 ⟨9, 0⟩ none with
          id_queue := ⟨[⟨1, 12⟩], 2⟩, skipped := 2 } : event).push_front libstdcxx_growth ⟨1, 13⟩
        = { event.create 1 0 ⟨9, 0⟩ none with
          next_id_queue := ⟨[⟨1, 13⟩], 1⟩, id_queue := ⟨[⟨1, 12⟩], 2⟩, skipped := 2 })
    ∧ (({ event.create 1 0 ⟨9, 0⟩ none with
          next_id_queue := ⟨[⟨1, 13⟩], 1⟩, id_queue := ⟨[⟨1, 12⟩], 2⟩,
          skipped := 2 } : event).range libstdcxx_growth = [])
    ∧ (({ event.create 1 0 ⟨9, 0⟩ none with
          next_id_queue := ⟨[⟨1, 13⟩], 1⟩, id_queue := ⟨[⟨1, 12⟩], 2⟩,
          skipped := 2 } : event).emit libstdcxx_growth (fun _ => empty_signal) 8
        = { ev := { event.create 1 0 ⟨9, 0⟩ none with
                    next_id_queue := ⟨[], 1⟩, id_queue := ⟨[⟨1, 12⟩], 2⟩, skipped := 1 },
            raised := none, dispatched := [], returned := true }) := by
  decide

/-- C15 fails on the code (evaluation at the failing input): on a fresh event
(libstdc++ growth) `push_back(a); push_back(b); pop_front(); pop_front();
push_back(c)` leaves the main buffer `[c]` with a skip count of 2. The queue
is not empty, a plain double-ended sequence holds `[c]` and `empty()` returns
false, yet the assertion of `pop_front()` and that of `pop_back()` both
fail. -/
theorem pops_fail_on_non_empty_queue :
    ((event.create 1 0 ⟨9, 0⟩ none).apply_ops libstdcxx_growth
        [.push_back ⟨1, 10⟩, .push_back ⟨1, 11⟩, .pop_front, .pop_front, .push_back ⟨1, 12⟩]
      = some { event.create 1 0 ⟨9, 0⟩ none with
          id_queue := ⟨[⟨1, 12⟩], 2⟩, skipped := 2 })
    ∧ (deque_apply_ops
        [.push_back ⟨1, 10⟩, .push_back ⟨1, 11⟩, .pop_front, .pop_front, .push_back ⟨1, 12⟩] []
      = some [⟨1, 12⟩])
    ∧ (({ event.create 1 0 ⟨9, 0⟩ none with
          id_queue := ⟨[⟨1, 12⟩], 2⟩, skipped := 2 } : event).is_empty = false)
    ∧ (({ event.create 1 0 ⟨9, 0⟩ none with
          id_queue := ⟨[⟨1, 12⟩], 2⟩, skipped := 2 } : event).pop_front = none)
    ∧ (({ event.create 1 0 ⟨9, 0⟩ none with
          id_queue := ⟨[⟨1, 12⟩], 2⟩, skipped := 2 } : event).pop_back libstdcxx_growth = none) := by
  decide

end event

/-! ## irc: the pointer form of module and derived classes -/

namespace irc

/-- C26 fails on the code (evaluation at a concrete input): `load_module<I>()`
for an abstract interface `I` (class 1) whose default implementation is `D`
(class 2, derived from `I`) stores an object of dynamic type `D` under the key
of `I`. The dynamic type of the stored object is not `I`, and yet
`module<I*>()` returns the object, not null, and `module<I>()` returns it as
well: `dynamic_cast<I*>` accepts an object of a class derived from `I`. -/
theorem module_ptr_accepts_derived_instance :
    (((irc.create 0).load_module (⟨1, 1, true, some 2⟩ : module_class)
        (fun (_ : Unit) => Except.ok 100) ()).1.module 1 = some ⟨100, 2⟩)
    ∧ ((⟨100, 2⟩ : module_base).dyn_type ≠ (⟨1, 1, true, some 2⟩ : module_class).id)
    ∧ (((irc.create 0).load_module (⟨1, 1, true, some 2⟩ : module_class)
        (fun (_ : Unit) => Except.ok 100) ()).1.module_ptr
        (fun a b => decide (a = b ∨ (a = 1 ∧ b = 2))) ⟨1, 1, true, some 2⟩ = some ⟨100, 2⟩)
    ∧ (((irc.create 0).load_module (⟨1, 1, true, some 2⟩ : module_class)
        (fun (_ : Unit) => Except.ok 100) ()).1.module_ref
        (fun a b => decide (a = b ∨ (a = 1 ∧ b = 2))) ⟨1, 1, true, some 2⟩ = .ok ⟨100, 2⟩)
    ∧ ¬ (((irc.create 0).load_module (⟨1, 1, true, some 2⟩ : module_class)
          (fun (_ : Unit) => Except.ok 100) ()).1.module_ptr
          (fun a b => decide (a = b ∨ (a = 1 ∧ b = 2))) ⟨1, 1, true, some 2⟩ = none
        ↔ (((irc.create 0).load_module (⟨1, 1, true, some 2⟩ : module_class)
              (fun (_ : Unit) => Except.ok 100) ()).1.module 1 = none
            ∨ ∃ obj, ((irc.create 0).load_module (⟨1, 1, true, some 2⟩ : module_class)
                (fun (_ : Unit) => Except.ok 100) ()).1.module 1 = some obj
              ∧ obj.dyn_type ≠ (⟨1, 1, true, some 2⟩ : module_class).id)) := by
  refine ⟨rfl, by decide, rfl, rfl, ?_⟩
  intro h
  have hn := h.2 (Or.inr ⟨⟨100, 2⟩, rfl, by decide⟩)
  cases hn

end irc

end slirc
